import Mathlib

/-!
# httplib.h : request routing and the HTTP connection loop

A shallow embedding of `src/include/httplib.h` (namespace `httplib`).

* A `std::string` is a `String`; its characters stand for bytes.
* A `std::multimap<std::string, std::string>` is the list of its entries in
  iteration order (sorted by key, equal keys in insertion order).
* A `std::function<void(const Request &, Response &)>` is a function from the
  request and the response it receives to an `Outcome`: the response as the
  call leaves it, and what the call threw, if anything.
* `std::regex` and `std::regex_match` belong to the C++ standard library, not to
  the repository.  The routing code is embedded over an arbitrary pattern type
  `ρ` and an arbitrary whole-string matcher `regex_match`; a model of
  ECMAScript regular expressions (`Regex`) instantiates it.
* The file system and the socket are inputs: `fs` maps a file name to the
  contents `std::ifstream` reads (or `none` when it cannot be opened), a
  connection is the list of what `http::read` yields on it.
-/

namespace Httplib

/-! ## Data model (httplib.h:49-206) -/

/-- Entries of a `std::multimap<std::string, std::string>` in iteration order. -/
abbrev Headers := List (String × String)

/-- Entries of the query-parameter multimap in iteration order. -/
abbrev Params := List (String × String)

/-- A `std::smatch` as the list of its sub-matches: index 0 is the whole match,
index `i` the text of group `i` (empty when the group took no part). The empty
list is the default-constructed `std::smatch`. -/
abbrev Match := List String

/-- One item of `MultipartFormDataItems`. -/
structure MultipartFormData where
  name : String
  content : String
  filename : String
  content_type : String
  deriving DecidableEq, Repr

/-- Order of `std::string` under `std::less`: lexicographic on bytes. -/
def str_less : List Char → List Char → Bool
  | [], [] => false
  | [], _ :: _ => true
  | _ :: _, [] => false
  | a :: as, b :: bs => decide (a.toNat < b.toNat) || (a == b && str_less as bs)

/-- `std::multimap::emplace`: the entry goes after every entry whose key is not
greater than `key` (the upper bound of `key`). -/
def multimap_emplace (m : List (String × String)) (key val : String) :
    List (String × String) :=
  match m with
  | [] => [(key, val)]
  | e :: rest =>
    if str_less key.data e.1.data then (key, val) :: e :: rest
    else e :: multimap_emplace rest key val

/-- The type `std::function<bool(size_t offset, size_t length, std::string &data)>`:
the call returns its `bool` and the contents of `data` afterwards. -/
abbrev ContentProvider := Nat → Nat → String → Bool × String

/-- The struct `Request` (httplib.h:62-85). -/
structure Request where
  method : String := ""
  path : String := ""
  version : String := ""
  headers : Headers := []
  body : String := ""
  params : Params := []
  matches_ : Match := []
  files : List MultipartFormData := []
  remote_addr : String := ""
  remote_port : Int := 0
  local_addr : String := ""
  local_port : Int := 0
  deriving DecidableEq, Repr

/-- The struct `Response` (httplib.h:142-151). -/
structure Response where
  status : Int := 200
  version : String := "HTTP/1.1"
  headers : Headers := []
  body : String := ""
  location : String := ""
  content_provider : Option ContentProvider := none
  content_length : Nat := 0

/-- `Response::set_header` (httplib.h:171-173). -/
def Response.set_header (res : Response) (key val : String) : Response :=
  { res with headers := multimap_emplace res.headers key val }

/-- `Response::set_content` (httplib.h:175-178). -/
def Response.set_content (res : Response) (s content_type : String) : Response :=
  { res with body := s }.set_header "Content-Type" content_type

/-- `Response::set_content_provider` (httplib.h:180-187). -/
def Response.set_content_provider (res : Response) (length : Nat)
    (content_type : String) (provider : ContentProvider) : Response :=
  { res with content_length := length,
             content_provider := some provider }.set_header "Content-Type" content_type

/-- `Response::set_redirect` (httplib.h:189-192). -/
def Response.set_redirect (res : Response) (url : String) (status_code : Int) : Response :=
  { res with status := status_code }.set_header "Location" url

/-- What a call can throw: an object whose type derives from `std::exception`
(with its `what()`), or an object of any other type. -/
inductive Thrown where
  | std_exception (what : String)
  | other
  deriving DecidableEq, Repr

/-- Result of calling a handler: the response as the call leaves it (the handler
mutates it through a reference, so changes made before a throw stay), and the
object thrown, if the call did not return. -/
structure Outcome where
  res : Response
  thrown : Option Thrown := none

/-- The type `Handler = std::function<void(const Request &, Response &)>`. -/
abbrev Handler := Request → Response → Outcome

/-- The type `Logger = std::function<void(const Request &, const Response &)>`:
it cannot change the response; it may throw. -/
abbrev Logger := Request → Response → Option Thrown

/-- The six route vectors of `Server` (httplib.h:645-650), by name. A value of
this type stands for a reference to that member. -/
inductive HandlerList where
  | get_handlers_
  | post_handlers_
  | put_handlers_
  | patch_handlers_
  | delete_handlers_
  | options_handlers_
  deriving DecidableEq, Repr

/-- The members of `Server` that routing reads (httplib.h:645-659). An empty
`std::function` is `none`. -/
structure Server (ρ : Type) where
  get_handlers_ : List (ρ × Handler) := []
  post_handlers_ : List (ρ × Handler) := []
  put_handlers_ : List (ρ × Handler) := []
  patch_handlers_ : List (ρ × Handler) := []
  delete_handlers_ : List (ρ × Handler) := []
  options_handlers_ : List (ρ × Handler) := []
  error_handler_ : Option Handler := none
  exception_handler_ : Option Handler := none
  pre_routing_handler_ : Option Handler := none
  post_routing_handler_ : Option Handler := none
  logger_ : Option Logger := none
  base_dir_ : String := ""

/-! ## Query strings (httplib.h:216-267) -/

instance instDecidableEqExcept {ε α : Type} [DecidableEq ε] [DecidableEq α] :
    DecidableEq (Except ε α)
  | .ok a, .ok b => if h : a = b then isTrue (by rw [h]) else isFalse (by intro h2; cases h2; exact h rfl)
  | .error a, .error b =>
    if h : a = b then isTrue (by rw [h]) else isFalse (by intro h2; cases h2; exact h rfl)
  | .ok _, .error _ => isFalse (by intro h; cases h)
  | .error _, .ok _ => isFalse (by intro h; cases h)

/-- The test `std::isspace` of the "C" locale. -/
def isspace (c : Char) : Bool :=
  c = ' ' || (9 ≤ c.toNat && c.toNat ≤ 13)

/-- Value of a hexadecimal digit. -/
def hex_digit (c : Char) : Option Nat :=
  if '0'.toNat ≤ c.toNat ∧ c.toNat ≤ '9'.toNat then some (c.toNat - '0'.toNat)
  else if 'a'.toNat ≤ c.toNat ∧ c.toNat ≤ 'f'.toNat then some (c.toNat - 'a'.toNat + 10)
  else if 'A'.toNat ≤ c.toNat ∧ c.toNat ≤ 'F'.toNat then some (c.toNat - 'A'.toNat + 10)
  else none

/-- The digits `strtol` consumes in base 16: the longest run of hexadecimal
digits, accumulated from `acc`. -/
def strtol_digits : List Char → Nat → Nat
  | [], acc => acc
  | c :: cs, acc =>
    match hex_digit c with
    | some d => strtol_digits cs (acc * 16 + d)
    | none => acc

/-- The call `std::stoi(str, nullptr, 16)` of the standard library: leading
white space is skipped, then come an optional sign, an optional `0x` or `0X`
before a digit, and the digits; `std::invalid_argument` when there is no digit,
`std::out_of_range` when the value is no `int`. -/
def stoi (str : List Char) : Except Thrown Int :=
  let s1 := str.dropWhile isspace
  let signed : Bool × List Char :=
    match s1 with
    | '-' :: r => (true, r)
    | '+' :: r => (false, r)
    | _ => (false, s1)
  let s3 : List Char :=
    match signed.2 with
    | '0' :: x :: d :: r =>
      if (x = 'x' ∨ x = 'X') ∧ (hex_digit d).isSome then d :: r else signed.2
    | _ => signed.2
  match s3 with
  | [] => .error (.std_exception "stoi")
  | d :: _ =>
    match hex_digit d with
    | none => .error (.std_exception "stoi")
    | some _ =>
      let n : Int := strtol_digits s3 0
      let v : Int := if signed.1 then -n else n
      if -2147483648 ≤ v ∧ v ≤ 2147483647 then .ok v else .error (.std_exception "stoi")

/-- The conversion `static_cast<char>(int)`: the low eight bits. -/
def int_to_char (v : Int) : Char :=
  Char.ofNat (v % 256).toNat

/-- The statement `if (!key.empty()) params.emplace(key, val)` (httplib.h:259-261). -/
def emplace_param (params : Params) (key val : List Char) : Params :=
  if key.isEmpty then params else multimap_emplace params (String.mk key) (String.mk val)

/-- The loops of `detail::parse_query_text` (httplib.h:221-266) over the text
from `s[i]` on. `in_val` is false inside the key loop (lines 226-238) and true
inside the value loop (lines 244-256); `key` and `val` are the two buffers. A
`%` with at least two characters after it is decoded with `stoi`, which may
throw; `+` becomes a space; at `&` or at the end the pair is stored and the
outer loop starts over with empty buffers. -/
def parse_query_loop : List Char → Bool → List Char → List Char → Params →
    Except Thrown Params
  | [], _, key, val, params => .ok (emplace_param params key val)
  | '%' :: a :: b :: rest, in_val, key, val, params =>
    match stoi [a, b] with
    | .error e => .error e
    | .ok v =>
      if in_val then parse_query_loop rest true key (val ++ [int_to_char v]) params
      else parse_query_loop rest false (key ++ [int_to_char v]) val params
  | c :: rest, in_val, key, val, params =>
    if c = '&' then
      parse_query_loop rest false [] [] (emplace_param params key val)
    else if c = '=' ∧ in_val = false then
      parse_query_loop rest true key val params
    else if c = '+' then
      if in_val then parse_query_loop rest true key (val ++ [' ']) params
      else parse_query_loop rest false (key ++ [' ']) val params
    else
      if in_val then parse_query_loop rest true key (val ++ [c]) params
      else parse_query_loop rest false (key ++ [c]) val params

/-- `detail::parse_query_text` (httplib.h:216-267): the entries added to
`params`, or what `std::stoi` threw. -/
def parse_query_text (s : String) (params : Params) : Except Thrown Params :=
  parse_query_loop s.data false [] [] params

/-! ## A model of `std::regex` and `std::regex_match`

The standard library's ECMAScript regular expressions, as far as the routes of
the repository's tests and examples use them: literal characters, `.`, `\d`,
concatenation, alternation, the greedy quantifiers `*` and `+`, and capturing
groups. Groups are numbered by their opening parenthesis from 1; a matcher that
works on the sub-pattern whose first group is number `base + 1` stores that
group at index `base` of the capture list. -/

/-- A compiled pattern. -/
inductive Regex where
  | empty
  | char (c : Char)
  | any
  | digit
  | seq (a b : Regex)
  | alt (a b : Regex)
  | star (r : Regex)
  | plus (r : Regex)
  | group (r : Regex)
  deriving DecidableEq, Repr

namespace Regex

/-- Number of capturing groups of a pattern (`std::regex::mark_count`). -/
def ngroups : Regex → Nat
  | empty => 0
  | char _ => 0
  | any => 0
  | digit => 0
  | seq a b => a.ngroups + b.ngroups
  | alt a b => a.ngroups + b.ngroups
  | star r => r.ngroups
  | plus r => r.ngroups
  | group r => r.ngroups + 1

/-- The pattern that matches the text `w` literally. -/
def lit : List Char → Regex
  | [] => empty
  | c :: cs => seq (char c) (lit cs)

/-- Captures `base .. base + n - 1` become unset: a quantifier clears the groups
of its operand when it starts a repetition. -/
def clear_groups (caps : List String) (base : Nat) : Nat → List String
  | 0 => caps
  | n + 1 => (clear_groups caps base n).set (base + n) ""

/-- Repetitions of a greedy quantifier once its minimum is met: `step` matches
the operand once; a repetition that consumes nothing is not taken; more
repetitions are tried before fewer. `fuel` bounds the number of repetitions and
is the length of the input, since every repetition consumes a character. -/
def star_loop (step : List Char → List String → List (List Char × List String))
    (clear : List String → List String) :
    Nat → List Char → List String → List (List Char × List String)
  | 0, s, caps => [(s, caps)]
  | fuel + 1, s, caps =>
    (((step s (clear caps)).filter (fun p => decide (p.1.length < s.length))).flatMap
      (fun p => star_loop step clear fuel p.1 p.2)) ++ [(s, caps)]

/-- Backtracking matcher: all the ways pattern `r` matches a prefix of `s`, each
as the unconsumed rest of `s` with the captures, in the order a backtracking
ECMAScript matcher tries them. -/
def match_from : Regex → Nat → List Char → List String → List (List Char × List String)
  | empty, _, s, caps => [(s, caps)]
  | char c, _, s, caps =>
    match s with
    | x :: rest => if x = c then [(rest, caps)] else []
    | [] => []
  | any, _, s, caps =>
    match s with
    | x :: rest => if x = '\n' ∨ x = '\r' then [] else [(rest, caps)]
    | [] => []
  | digit, _, s, caps =>
    match s with
    | x :: rest => if '0'.toNat ≤ x.toNat ∧ x.toNat ≤ '9'.toNat then [(rest, caps)] else []
    | [] => []
  | seq a b, base, s, caps =>
    (match_from a base s caps).flatMap
      (fun p => match_from b (base + a.ngroups) p.1 p.2)
  | alt a b, base, s, caps =>
    match_from a base s caps ++ match_from b (base + a.ngroups) s caps
  | star r, base, s, caps =>
    star_loop (match_from r base) (fun c => clear_groups c base r.ngroups) s.length s caps
  | plus r, base, s, caps =>
    (match_from r base s (clear_groups caps base r.ngroups)).flatMap
      (fun p => star_loop (match_from r base) (fun c => clear_groups c base r.ngroups)
        p.1.length p.1 p.2)
  | group r, base, s, caps =>
    (match_from r (base + 1) s caps).map
      (fun p => (p.1, p.2.set base (String.mk (s.take (s.length - p.1.length)))))

/-- The call `std::regex_match(s, matches, re)`: the first way, in matcher order,
in which `re` matches all of `s`; `matches[0]` is `s`, then come the groups. -/
def regex_match (re : Regex) (s : String) : Option Match :=
  match (match_from re 0 s.data (List.replicate re.ngroups "")).find?
      (fun p => p.1.isEmpty) with
  | some p => some (s :: p.2)
  | none => none

/-- What it means for a pattern to match a text, group by group:
`Matches r base s caps0 caps1` says that `r` matches exactly the text `s`, all
of it, and that the captures go from `caps0` to `caps1`: each group of `r` that
took part holds the text it matched (the last one, under a quantifier). -/
inductive Matches : Regex → Nat → List Char → List String → List String → Prop
  | empty (base : Nat) (caps : List String) : Matches .empty base [] caps caps
  | char (c : Char) (base : Nat) (caps : List String) : Matches (.char c) base [c] caps caps
  | any (x : Char) (base : Nat) (caps : List String) :
      ¬ (x = '\n' ∨ x = '\r') → Matches .any base [x] caps caps
  | digit (x : Char) (base : Nat) (caps : List String) :
      '0'.toNat ≤ x.toNat ∧ x.toNat ≤ '9'.toNat → Matches .digit base [x] caps caps
  | seq {a b : Regex} {base : Nat} {s1 s2 : List Char} {c0 c1 c2 : List String} :
      Matches a base s1 c0 c1 → Matches b (base + a.ngroups) s2 c1 c2 →
      Matches (.seq a b) base (s1 ++ s2) c0 c2
  | alt_left {a b : Regex} {base : Nat} {s : List Char} {c0 c1 : List String} :
      Matches a base s c0 c1 → Matches (.alt a b) base s c0 c1
  | alt_right {a b : Regex} {base : Nat} {s : List Char} {c0 c1 : List String} :
      Matches b (base + a.ngroups) s c0 c1 → Matches (.alt a b) base s c0 c1
  | star_done (r : Regex) (base : Nat) (caps : List String) :
      Matches (.star r) base [] caps caps
  | star_more {r : Regex} {base : Nat} {s1 s2 : List Char} {c0 c1 c2 : List String} :
      s1 ≠ [] → Matches r base s1 (clear_groups c0 base r.ngroups) c1 →
      Matches (.star r) base s2 c1 c2 → Matches (.star r) base (s1 ++ s2) c0 c2
  | plus {r : Regex} {base : Nat} {s1 s2 : List Char} {c0 c1 c2 : List String} :
      Matches r base s1 (clear_groups c0 base r.ngroups) c1 →
      Matches (.star r) base s2 c1 c2 → Matches (.plus r) base (s1 ++ s2) c0 c2
  | group {r : Regex} {base : Nat} {s : List Char} {c0 c1 : List String} :
      Matches r (base + 1) s c0 c1 → Matches (.group r) base s c0 (c1.set base (String.mk s))

end Regex

section Routing

variable {ρ : Type}

/-- The vector a `HandlerList` reference denotes. -/
def Server.handlers (srv : Server ρ) : HandlerList → List (ρ × Handler)
  | .get_handlers_ => srv.get_handlers_
  | .post_handlers_ => srv.post_handlers_
  | .put_handlers_ => srv.put_handlers_
  | .patch_handlers_ => srv.patch_handlers_
  | .delete_handlers_ => srv.delete_handlers_
  | .options_handlers_ => srv.options_handlers_

/-- `Server::Get` (httplib.h:287-290), given the compiled pattern. -/
def Server.Get (srv : Server ρ) (pattern : ρ) (handler : Handler) : Server ρ :=
  { srv with get_handlers_ := srv.get_handlers_ ++ [(pattern, handler)] }

/-- `Server::Post` (httplib.h:292-295). -/
def Server.Post (srv : Server ρ) (pattern : ρ) (handler : Handler) : Server ρ :=
  { srv with post_handlers_ := srv.post_handlers_ ++ [(pattern, handler)] }

/-- `Server::Put` (httplib.h:297-300). -/
def Server.Put (srv : Server ρ) (pattern : ρ) (handler : Handler) : Server ρ :=
  { srv with put_handlers_ := srv.put_handlers_ ++ [(pattern, handler)] }

/-- `Server::Patch` (httplib.h:302-305). -/
def Server.Patch (srv : Server ρ) (pattern : ρ) (handler : Handler) : Server ρ :=
  { srv with patch_handlers_ := srv.patch_handlers_ ++ [(pattern, handler)] }

/-- `Server::Delete` (httplib.h:307-310). -/
def Server.Delete (srv : Server ρ) (pattern : ρ) (handler : Handler) : Server ρ :=
  { srv with delete_handlers_ := srv.delete_handlers_ ++ [(pattern, handler)] }

/-- `Server::Options` (httplib.h:312-315). -/
def Server.Options (srv : Server ρ) (pattern : ρ) (handler : Handler) : Server ρ :=
  { srv with options_handlers_ := srv.options_handlers_ ++ [(pattern, handler)] }

/-- `Server::get_handlers_for_method` (httplib.h:589-597): the vector the
returned reference names. -/
def get_handlers_for_method (method : String) : HandlerList :=
  if method = "GET" then .get_handlers_
  else if method = "POST" then .post_handlers_
  else if method = "PUT" then .put_handlers_
  else if method = "PATCH" then .patch_handlers_
  else if method = "DELETE" then .delete_handlers_
  else if method = "OPTIONS" then .options_handlers_
  else .get_handlers_

/-- The calls `route_request` makes, in the order it makes them. A route
handler is named by its vector and its index there, with the `req.matches` it
is handed; the static file lookup by the file name it opens. -/
inductive Event where
  | pre_routing_handler
  | route_handler (list : HandlerList) (index : Nat) (matches_ : Match)
  | exception_handler
  | static_file (file_path : String)
  | error_handler
  | post_routing_handler
  | logger
  deriving DecidableEq, Repr

/-- Whether an event is the call of a route handler. -/
def Event.is_route_handler : Event → Bool
  | .route_handler _ _ _ => true
  | _ => false

/-- State of one `route_request` call: the request and response it holds by
reference, the local `handled`, the calls made so far, and the object thrown
out of the function, if one was. -/
structure RouteState where
  req : Request
  res : Response
  handled : Bool := false
  log : List Event := []
  thrown : Option Thrown := none

/-- Sequencing of statements: once an object is thrown and not caught, the
statements that follow do not run. -/
def RouteState.andThen (st : RouteState) (f : RouteState → RouteState) : RouteState :=
  match st.thrown with
  | none => f st
  | some _ => st

/-- Calling one of the optional hooks `h(req, res)`. -/
def RouteState.call (st : RouteState) (h : Handler) (ev : Event) : RouteState :=
  let o := h st.req st.res
  { st with res := o.res, log := st.log ++ [ev], thrown := o.thrown }

/-- The state with `events` put in front of its log: the same run, started
after those calls were made. -/
def RouteState.with_earlier (st : RouteState) (events : List Event) : RouteState :=
  { st with log := events ++ st.log }

/-- The block "Pre-routing handler" of `route_request` (httplib.h:536-539). -/
def pre_routing (srv : Server ρ) (st : RouteState) : RouteState :=
  match srv.pre_routing_handler_ with
  | some h => st.call h .pre_routing_handler
  | none => st

/-- The loop of the block "Find matching handler" (httplib.h:543-561) from entry
`index` on: the first entry whose pattern matches the whole of `req.path` gets
`req.matches`, its handler is called inside `try`, and the loop breaks. -/
def find_matching_handler_loop (regex_match : ρ → String → Option Match)
    (srv : Server ρ) (list : HandlerList) :
    List (ρ × Handler) → Nat → RouteState → RouteState
  | [], _, st => st
  | handler_pair :: rest, index, st =>
    match regex_match handler_pair.1 st.req.path with
    | some m =>
      let req := { st.req with matches_ := m }
      let o := handler_pair.2 req st.res
      let log := st.log ++ [Event.route_handler list index m]
      match o.thrown with
      | none => { st with req := req, res := o.res, log := log, handled := true }
      | some (.std_exception _) =>
        match srv.exception_handler_ with
        | some eh =>
          let o2 := eh req o.res
          { st with req := req, res := o2.res, log := log ++ [Event.exception_handler],
                    handled := o2.thrown.isNone, thrown := o2.thrown }
        | none =>
          { st with req := req,
                    res := Response.set_content { o.res with status := 500 }
                             "Internal Server Error" "text/plain",
                    log := log, handled := true }
      | some .other => { st with req := req, res := o.res, log := log, thrown := some .other }
    | none => find_matching_handler_loop regex_match srv list rest (index + 1) st

/-- The block "Find matching handler" of `route_request` (httplib.h:541-561). -/
def find_matching_handler (regex_match : ρ → String → Option Match)
    (srv : Server ρ) (st : RouteState) : RouteState :=
  let list := get_handlers_for_method st.req.method
  find_matching_handler_loop regex_match srv list (srv.handlers list) 0 st

/-- `file_path.rfind('.')` followed by `file_path.substr(ext_pos)`: the text
from the last dot on, when there is a dot. -/
def rfind_dot : List Char → Option (List Char)
  | [] => none
  | c :: cs =>
    match rfind_dot cs with
    | some ext => some ext
    | none => if c = '.' then some (c :: cs) else none

/-- `Server::serve_static_file` (httplib.h:599-639); `fs` gives the contents of
the files that can be opened. The result is the response and the returned
`bool`. -/
def serve_static_file (fs : String → Option String) (srv : Server ρ)
    (req : Request) (res : Response) : Response × Bool :=
  let file_path := srv.base_dir_ ++ req.path
  match fs file_path with
  | none => (res, false)
  | some contents =>
    let res := { res with status := 200, body := contents }
    match rfind_dot file_path.data with
    | some e =>
      let ext := String.mk e
      if ext = ".html" ∨ ext = ".htm" then (res.set_header "Content-Type" "text/html", true)
      else if ext = ".css" then (res.set_header "Content-Type" "text/css", true)
      else if ext = ".js" then (res.set_header "Content-Type" "application/javascript", true)
      else if ext = ".json" then (res.set_header "Content-Type" "application/json", true)
      else if ext = ".png" then (res.set_header "Content-Type" "image/png", true)
      else if ext = ".jpg" ∨ ext = ".jpeg" then (res.set_header "Content-Type" "image/jpeg", true)
      else if ext = ".gif" then (res.set_header "Content-Type" "image/gif", true)
      else if ext = ".svg" then (res.set_header "Content-Type" "image/svg+xml", true)
      else (res.set_header "Content-Type" "application/octet-stream", true)
    | none => (res, true)

/-- The block "Check mount points for file serving" of `route_request`
(httplib.h:563-566). -/
def file_serving (fs : String → Option String) (srv : Server ρ) (st : RouteState) :
    RouteState :=
  if !st.handled && !(srv.base_dir_ == "") then
    let r := serve_static_file fs srv st.req st.res
    { st with res := r.1, handled := r.2,
              log := st.log ++ [Event.static_file (srv.base_dir_ ++ st.req.path)] }
  else st

/-- The block "Error handler" of `route_request` (httplib.h:568-576). -/
def error_handling (srv : Server ρ) (st : RouteState) : RouteState :=
  if !st.handled then
    match srv.error_handler_ with
    | some h => st.call h .error_handler
    | none =>
      { st with res := Response.set_content { st.res with status := 404 }
                         "Not Found" "text/plain" }
  else st

/-- The block "Post-routing handler" of `route_request` (httplib.h:578-581). -/
def post_routing (srv : Server ρ) (st : RouteState) : RouteState :=
  match srv.post_routing_handler_ with
  | some h => st.call h .post_routing_handler
  | none => st

/-- The block "Logger" of `route_request` (httplib.h:583-586). -/
def logging (srv : Server ρ) (st : RouteState) : RouteState :=
  match srv.logger_ with
  | some l => { st with log := st.log ++ [Event.logger], thrown := l st.req st.res }
  | none => st

/-- `Server::route_request` (httplib.h:533-587): its six blocks in order. -/
def route_request (regex_match : ρ → String → Option Match) (fs : String → Option String)
    (srv : Server ρ) (req : Request) (res : Response) : RouteState :=
  ((((({ req := req, res := res : RouteState }.andThen
    (pre_routing srv)).andThen
    (find_matching_handler regex_match srv)).andThen
    (file_serving fs srv)).andThen
    (error_handling srv)).andThen
    (post_routing srv)).andThen
    (logging srv)

end Routing

/-! ## The connection loop (httplib.h:447-531) -/

/-- What the loop uses of the `http::request<http::string_body>` that
`http::read` fills: the method and target texts, `version()` (10 or 11), the
header fields in order, the body, and the value of `keep_alive()`. -/
structure BeastRequest where
  method_string : String := "GET"
  target : String := "/"
  version : Nat := 11
  fields : List (String × String) := []
  body : String := ""
  keep_alive : Bool := true
  deriving DecidableEq, Repr

/-- What the loop puts into the `http::response<http::string_body>` it hands to
`http::write`: `version`, `result`, the argument of `keep_alive`, the
`set(name, value)` calls in order, and the body. -/
structure BeastResponse where
  version : Nat
  result : Int
  keep_alive : Bool
  fields : List (String × String)
  body : String
  deriving DecidableEq, Repr

/-- One turn of the socket: `http::read` yields a request, or throws
`beast::system_error` with code `http::error::end_of_stream` (the peer closed),
or with another code. With a request comes the `what()` of the `std::exception`
thrown while its response is built and written (by `set`, `prepare_payload` or
`http::write`), if one is (`write_fails`). -/
inductive Transport where
  | request (req : BeastRequest) (write_fails : Option String)
  | end_of_stream
  | read_error (what : String)
  deriving DecidableEq, Repr

/-- The accepted socket: what reading from it yields, turn by turn (after the
last item the peer has closed), and `remote_endpoint()` when it does not throw. -/
structure Socket where
  incoming : List Transport
  remote_endpoint : Option (String × Int) := none

/-- How `handle_session` ends: by `break` and `socket.shutdown(shutdown_send)`
(taken to succeed); in the first `catch` with `end_of_stream`, which prints
nothing; in one of the two `catch` clauses with another `std::exception`, which
prints `Session error:` and its `what()`; or by an object no `catch` takes,
which leaves the thread function and ends the process (`std::terminate`). -/
inductive SessionEnd where
  | shutdown_send
  | end_of_stream
  | session_error (what : String)
  | terminate
  deriving DecidableEq, Repr

/-- What one `handle_session` call did: the number of `http::read` calls, the
state each `route_request` call ended in, the responses `http::write` sent, and
how the function ended. -/
structure SessionResult where
  reads : Nat
  routed : List RouteState
  written : List BeastResponse
  ending : SessionEnd

/-- The search `path_str.find('?')` with the two `substr` calls
(httplib.h:465-469): the text before the first `?`, and the text after it when
there is one. -/
def split_target : List Char → List Char × Option (List Char)
  | [] => ([], none)
  | c :: cs =>
    if c = '?' then ([], some cs)
    else ((c :: (split_target cs).1), (split_target cs).2)

/-- Lines 455-493 of `handle_session`: the `Request` built from what was read;
`parse_query_text` may throw. -/
def convert_request (req : BeastRequest) (remote_endpoint : Option (String × Int)) :
    Except Thrown Request :=
  let request : Request :=
    { method := req.method_string,
      path := req.target,
      version := "HTTP/" ++ toString (req.version / 10) ++ "." ++ toString (req.version % 10) }
  let parsed : Except Thrown Request :=
    match (split_target req.target.data).2 with
    | some query_str =>
      match parse_query_text (String.mk query_str) request.params with
      | .ok params =>
        .ok { request with path := String.mk (split_target req.target.data).1,
                           params := params }
      | .error e => .error e
    | none => .ok { request with path := req.target }
  match parsed with
  | .error e => .error e
  | .ok request =>
    let request := { request with
      headers := req.fields.foldl (fun h field => multimap_emplace h field.1 field.2)
        request.headers,
      body := req.body }
    match remote_endpoint with
    | some remote_ep =>
      .ok { request with remote_addr := remote_ep.1, remote_port := remote_ep.2 }
    | none => .ok request

/-- Lines 498-510 of `handle_session`: the response handed to `http::write`,
made from the request read and the `Response` routing left. -/
def convert_response (req : BeastRequest) (response : Response) : BeastResponse :=
  { version := req.version,
    result := response.status,
    keep_alive := req.keep_alive,
    fields := response.headers,
    body := response.body }

section Session

variable {ρ : Type}

/-- The loop `for (;;)` of `handle_session` (httplib.h:451-520) with the
`catch` clauses and the shutdown after it (lines 522-530), over what the socket
yields. -/
def session_loop (regex_match : ρ → String → Option Match) (fs : String → Option String)
    (srv : Server ρ) (remote_endpoint : Option (String × Int)) :
    List Transport → SessionResult
  | [] => { reads := 1, routed := [], written := [], ending := .end_of_stream }
  | .end_of_stream :: _ =>
    { reads := 1, routed := [], written := [], ending := .end_of_stream }
  | .read_error what :: _ =>
    { reads := 1, routed := [], written := [], ending := .session_error what }
  | .request req write_fails :: rest =>
    match convert_request req remote_endpoint with
    | .error (.std_exception what) =>
      { reads := 1, routed := [], written := [], ending := .session_error what }
    | .error .other =>
      { reads := 1, routed := [], written := [], ending := .terminate }
    | .ok request =>
      let st := route_request regex_match fs srv request {}
      match st.thrown with
      | some (.std_exception what) =>
        { reads := 1, routed := [st], written := [], ending := .session_error what }
      | some .other =>
        { reads := 1, routed := [st], written := [], ending := .terminate }
      | none =>
        match write_fails with
        | some what =>
          { reads := 1, routed := [st], written := [], ending := .session_error what }
        | none =>
          if !req.keep_alive then
            { reads := 1, routed := [st], written := [convert_response req st.res],
              ending := .shutdown_send }
          else
            let r := session_loop regex_match fs srv remote_endpoint rest
            { reads := r.reads + 1, routed := st :: r.routed,
              written := convert_response req st.res :: r.written, ending := r.ending }

/-- `Server::handle_session` (httplib.h:447-531). -/
def handle_session (regex_match : ρ → String → Option Match) (fs : String → Option String)
    (srv : Server ρ) (socket : Socket) : SessionResult :=
  session_loop regex_match fs srv socket.remote_endpoint socket.incoming

end Session

/-! ## The routes of the tests and examples -/

/-- The handler of `/test` in `tests/basic_test.cpp:13-15`. -/
def test_handler : Handler :=
  fun _ res => { res := res.set_content "Test OK" "text/plain" }

/-- The handler of `/num/(\d+)` in `tests/basic_test.cpp:17-20`. -/
def num_handler : Handler :=
  fun req res => { res := res.set_content ("Number: " ++ req.matches_.getD 1 "") "text/plain" }

/-- The handler of `/echo` in `tests/basic_test.cpp:22-24`. -/
def echo_handler : Handler :=
  fun req res => { res := res.set_content req.body "text/plain" }

/-- The pattern `/num/(\d+)`. -/
def num_pattern : Regex :=
  .seq (Regex.lit "/num/".data) (.group (.plus .digit))

/-- The server of `tests/basic_test.cpp:11-24`. -/
def test_server : Server Regex :=
  ((({} : Server Regex).Get (Regex.lit "/test".data) test_handler).Get
    num_pattern num_handler).Post (Regex.lit "/echo".data) echo_handler

/-- A handler that throws a `std::runtime_error` after setting a body. -/
def failing_handler : Handler :=
  fun _ res => { res := res.set_content "partial" "text/plain",
                 thrown := some (.std_exception "boom") }

/-- A handler that throws an object that is no `std::exception` (as in
`throw 42;`). -/
def throwing_other_handler : Handler :=
  fun _ res => { res := res, thrown := some .other }

/-- A pre-routing hook that adds a header and returns. -/
def tagging_hook : Handler :=
  fun _ res => { res := res.set_header "X-Pre" "1" }

/-- The pattern `/num/.*`. -/
def num_any_pattern : Regex :=
  .seq (Regex.lit "/num/".data) (.star .any)

/-- A server whose GET routes `/num/(\d+)` and `/num/.*` both match `/num/42`,
as does a POST route; it has a pre-routing hook. -/
def overlapping_server : Server Regex :=
  { ((((({} : Server Regex).Get (Regex.lit "/test".data) test_handler).Get
      num_pattern num_handler).Get num_any_pattern test_handler).Post
      num_any_pattern echo_handler) with
    pre_routing_handler_ := some tagging_hook }

/-- The error handler of `examples/http_server.cpp:53-56`: it sets a body and a
content type, and no status. -/
def example_error_handler : Handler :=
  fun _ res =>
    { res := res.set_content "<html><body><h1>404 Not Found</h1></body></html>" "text/html" }

/-- The server of the test with the error handler of the example. -/
def error_handler_server : Server Regex :=
  { test_server with error_handler_ := some example_error_handler }

/-- An exception handler that answers 503. -/
def recovering_handler : Handler :=
  fun _ res => { res := Response.set_content { res with status := 503 } "recovered" "text/plain" }

/-- A server with a route whose handler throws a `std::exception` (`/fail`), a
route whose handler throws another object (`/crash`), and the route `/test`. -/
def faulty_server : Server Regex :=
  ((({} : Server Regex).Get (Regex.lit "/fail".data) failing_handler).Get
    (Regex.lit "/crash".data) throwing_other_handler).Get
    (Regex.lit "/test".data) test_handler

/-- The server `faulty_server` with an exception handler. -/
def recovering_server : Server Regex :=
  { faulty_server with exception_handler_ := some recovering_handler }

/-- A pre-routing hook that sets a whole response (status, body and content
type) and returns. -/
def blocking_hook : Handler :=
  fun _ res => { res := Response.set_content { res with status := 403 } "blocked" "text/plain" }

/-- The server of the test with `blocking_hook` before routing. -/
def hooked_server : Server Regex :=
  { test_server with pre_routing_handler_ := some blocking_hook }

/-- A handler that asks for the connection to be closed: it sets a body and the
header `Connection: close` on the response. -/
def closing_handler : Handler :=
  fun _ res => { res := (res.set_content "bye" "text/plain").set_header "Connection" "close" }

/-- A server whose route `/bye` has `closing_handler`. -/
def closing_server : Server Regex :=
  ({} : Server Regex).Get (Regex.lit "/bye".data) closing_handler

/-- A content source that produces `hello` at offset 0 and reports no more data
from then on. -/
def hello_provider : ContentProvider :=
  fun offset _ data => if offset = 0 then (true, "hello") else (false, data)

/-- A handler that installs `hello_provider` instead of a body. -/
def streaming_handler : Handler :=
  fun _ res => { res := res.set_content_provider 5 "text/plain" hello_provider }

/-- A server whose route `/stream` has `streaming_handler`. -/
def streaming_server : Server Regex :=
  ({} : Server Regex).Get (Regex.lit "/stream".data) streaming_handler

/-- The body the specification describes for a response with a deferred content
source: the source is asked at successive offsets, each piece it produces is
appended and moves the offset on by its length, until the source reports no
more data (it returns false or produces nothing). `fuel` bounds the number of
calls. -/
def spec_drained_body (provider : ContentProvider) (length : Nat) : Nat → Nat → String
  | 0, _ => ""
  | fuel + 1, offset =>
    let r := provider offset (length - offset) ""
    if r.1 = false ∨ r.2.data = [] then ""
    else r.2 ++ spec_drained_body provider length fuel (offset + r.2.length)

/-- A file system without files. -/
def no_files : String → Option String :=
  fun _ => none


/-! ## Header lookup (httplib.h:87-107, 153-173, 210-214) -/

/-- The function `std::tolower` of the "C" locale on one byte. -/
def tolower (c : Char) : Char :=
  if 'A'.toNat ≤ c.toNat ∧ c.toNat ≤ 'Z'.toNat then Char.ofNat (c.toNat + 32) else c

/-- `detail::to_lower` (httplib.h:210-214). -/
def to_lower (s : String) : String :=
  String.mk (s.data.map tolower)

/-- `std::multimap::find`: the position of the first entry whose key is `key`,
as the entries from there on; `end()` is the empty list. -/
def multimap_find (m : List (String × String)) (key : String) : List (String × String) :=
  m.dropWhile (fun e => e.1 != key)

/-- `std::multimap::count`: the number of entries whose key is `key`. -/
def multimap_count (m : List (String × String)) (key : String) : Nat :=
  (m.filter (fun e => e.1 == key)).length

/-- The body shared by `Request::get_header_value`, `Response::get_header_value`
and `Request::get_param_value`: `find`, `std::advance(it, id)`, and the test
`it != end() && it->first == key`. -/
def multimap_value (m : List (String × String)) (key : String) (id : Nat) : String :=
  match (multimap_find m key).drop id with
  | [] => ""
  | e :: _ => if e.1 = key then e.2 else ""

/-- `Request::has_header` (httplib.h:87-89). -/
def Request.has_header (req : Request) (key : String) : Bool :=
  !(multimap_find req.headers key).isEmpty

/-- `Request::get_header_value` (httplib.h:91-99). -/
def Request.get_header_value (req : Request) (key : String) (id : Nat) : String :=
  multimap_value req.headers key id

/-- `Request::get_header_value_count` (httplib.h:101-103). -/
def Request.get_header_value_count (req : Request) (key : String) : Nat :=
  multimap_count req.headers key

/-- `Request::set_header` (httplib.h:105-107). -/
def Request.set_header (req : Request) (key val : String) : Request :=
  { req with headers := multimap_emplace req.headers key val }

/-- `Response::has_header` (httplib.h:153-155). -/
def Response.has_header (res : Response) (key : String) : Bool :=
  !(multimap_find res.headers key).isEmpty

/-- `Response::get_header_value` (httplib.h:157-165). -/
def Response.get_header_value (res : Response) (key : String) (id : Nat) : String :=
  multimap_value res.headers key id

/-- `Response::get_header_value_count` (httplib.h:167-169). -/
def Response.get_header_value_count (res : Response) (key : String) : Nat :=
  multimap_count res.headers key

/-! ## The HTTP client (httplib.h:673-916) -/

/-- The members of `Client` that requests read or the setters here write. -/
structure Client where
  host_ : String
  port_ : Int := 80
  keep_alive_ : Bool := false
  deriving DecidableEq, Repr

/-- `Client::set_keep_alive` (httplib.h:786-788). -/
def Client.set_keep_alive (cli : Client) (on_ : Bool) : Client :=
  { cli with keep_alive_ := on_ }

/-- What `send_request` puts into the `http::request<http::string_body>` it
hands to `http::write`: the verb, the target, `version`, the `set(name, value)`
calls in order, the body, and whether `prepare_payload` was called. -/
structure BeastClientRequest where
  method : String
  target : String
  version : Nat
  fields : List (String × String)
  body : String
  payload_prepared : Bool
  deriving DecidableEq, Repr

/-- What the network does during one `send_request` call: for `resolve`,
`net::connect`, `http::write` and `socket.shutdown` the `what()` of the
`boost::system::system_error` thrown, if one is; for `http::read` the complete
response read, or the `what()` of the error thrown. -/
structure Exchange where
  resolve_fails : Option String := none
  connect_fails : Option String := none
  write_fails : Option String := none
  read : Except String BeastResponse
  shutdown_fails : Option String := none

/-- The network calls of `send_request`, in the order they are made. -/
inductive NetEvent where
  | resolve (host service : String)
  | connect
  | write (req : BeastClientRequest)
  | read
  | shutdown_both
  deriving DecidableEq, Repr

/-- Result of one `send_request` call: the `std::shared_ptr<Response>` returned
(`none` is `nullptr`) and the network calls made. The function catches every
`std::exception`, and the network calls throw nothing else, so nothing is
thrown out of it. -/
structure SendResult where
  response : Option Response
  events : List NetEvent

/-- The conversion `http::string_to_verb` on the method names the `Client`
passes to `send_request` (Beast knows further verbs, which no caller here
uses); `none` is `verb::unknown`, for which `req.method` throws
`std::invalid_argument`. -/
def string_to_verb (method : String) : Option String :=
  if method ∈ ["GET", "HEAD", "POST", "PUT", "PATCH", "DELETE", "OPTIONS"] then some method
  else none

/-- Lines 870-881 of `send_request`: the `Response` made from the response
read. -/
def convert_client_response (res : BeastResponse) : Response :=
  { status := res.result,
    body := res.body,
    headers := res.fields.foldl (fun h field => multimap_emplace h field.1 field.2) [] }

/-- `Client::send_request` (httplib.h:834-891). -/
def Client.send_request (cli : Client) (method path : String) (headers : Headers)
    (body : String) (net : Exchange) : SendResult :=
  let ev1 := [NetEvent.resolve cli.host_ (toString cli.port_)]
  match net.resolve_fails with
  | some _ => { response := none, events := ev1 }
  | none =>
    let ev2 := ev1 ++ [NetEvent.connect]
    match net.connect_fails with
    | some _ => { response := none, events := ev2 }
    | none =>
      match string_to_verb method with
      | none => { response := none, events := ev2 }
      | some verb =>
        let req : BeastClientRequest :=
          { method := verb,
            target := path,
            version := 11,
            fields := [("Host", cli.host_), ("User-Agent", "httplib/0.1.0")] ++ headers,
            body := body,
            payload_prepared := !body.isEmpty }
        let ev3 := ev2 ++ [NetEvent.write req]
        match net.write_fails with
        | some _ => { response := none, events := ev3 }
        | none =>
          let ev4 := ev3 ++ [NetEvent.read]
          match net.read with
          | .error _ => { response := none, events := ev4 }
          | .ok res =>
            let ev5 := ev4 ++ [NetEvent.shutdown_both]
            match net.shutdown_fails with
            | some _ => { response := none, events := ev5 }
            | none => { response := some (convert_client_response res), events := ev5 }

/-- `Client::Get(path, headers)` (httplib.h:690-692). -/
def Client.Get_headers (cli : Client) (path : String) (headers : Headers) (net : Exchange) :
    SendResult :=
  cli.send_request "GET" path headers "" net

/-- `Client::Get(path)` (httplib.h:686-688). -/
def Client.Get (cli : Client) (path : String) (net : Exchange) : SendResult :=
  cli.Get_headers path [] net

/-- `Client::Post(path, body, content_type)` (httplib.h:702-707). -/
def Client.Post (cli : Client) (path body content_type : String) (net : Exchange) :
    SendResult :=
  cli.send_request "POST" path (multimap_emplace [] "Content-Type" content_type) body net

/-- The loop of `Client::Post(path, params)` (httplib.h:718-723): what has been
written to the stream `ss` after the entries given, `first` being the flag of
that name. -/
def form_body_loop : List (String × String) → Bool → List Char → List Char
  | [], _, ss => ss
  | param :: rest, first, ss =>
    form_body_loop rest false
      ((if first then ss else ss ++ ['&']) ++ param.1.data ++ ['='] ++ param.2.data)

/-- The text `ss.str()` of `Client::Post(path, params)`. -/
def form_body (params : Params) : String :=
  String.mk (form_body_loop params true [])

/-- `Client::Post(path, params)` (httplib.h:716-725). -/
def Client.Post_params (cli : Client) (path : String) (params : Params) (net : Exchange) :
    SendResult :=
  cli.Post path (form_body params) "application/x-www-form-urlencoded" net

/-- A well-formed multimap: the entries are in key order (equal keys in any
order, which is their insertion order). -/
def multimap_ordered (m : List (String × String)) : Prop :=
  m.Pairwise (fun a b => str_less b.1.data a.1.data = false)

/-- An alphanumeric byte: a digit or an ASCII letter. -/
def isalnum (c : Char) : Bool :=
  ('0'.toNat ≤ c.toNat && c.toNat ≤ '9'.toNat) || ('a'.toNat ≤ c.toNat && c.toNat ≤ 'z'.toNat)
    || ('A'.toNat ≤ c.toNat && c.toNat ≤ 'Z'.toNat)

/-- The percent-encoding the specification describes for form data:
alphanumeric bytes unchanged, space written as `+`, every other byte written as
`%XX` with uppercase hexadecimal digits. -/
def spec_percent_encode_char (c : Char) : List Char :=
  if isalnum c then [c]
  else if c = ' ' then ['+']
  else ['%', "0123456789ABCDEF".data.getD (c.toNat / 16 % 16) '0',
        "0123456789ABCDEF".data.getD (c.toNat % 16) '0']

/-- The percent-encoding of a text, byte by byte. -/
def spec_percent_encode (s : String) : List Char :=
  s.data.flatMap spec_percent_encode_char

/-- The form body the specification describes: the percent-encoded pairs
`key=value` joined by `&`. -/
def spec_form_body : Params → List Char
  | [] => []
  | [p] => spec_percent_encode p.1 ++ ['='] ++ spec_percent_encode p.2
  | p :: q :: rest =>
    spec_percent_encode p.1 ++ ['='] ++ spec_percent_encode p.2 ++ ['&']
      ++ spec_form_body (q :: rest)

/-- The pairs `key=value` joined by `&`, keys and values written as they are. -/
def plain_form_body : Params → List Char
  | [] => []
  | [p] => p.1.data ++ ['='] ++ p.2.data
  | p :: q :: rest => p.1.data ++ ['='] ++ p.2.data ++ ['&'] ++ plain_form_body (q :: rest)

/-! ## WebSocket: the server session (httplib.h:919-1135) -/

/-- The class `WebSocketMessage` (httplib.h:919-927). -/
structure WebSocketMessage where
  data : String := ""
  is_binary : Bool := false
  deriving DecidableEq, Repr

/-- The calls of the user's WebSocket callbacks, in the order they are made. -/
inductive WsEvent where
  | on_open
  | on_message (msg : WebSocketMessage)
  | on_error (error : String)
  | on_close
  deriving DecidableEq, Repr

/-- Result of calling a callback of the server, which gets the connection by
reference: what `is_open()` reports when the call ends (the callback may have
called `close()`, a `send` of its may have failed), and the object thrown, if
the call did not return. -/
structure CallbackResult where
  open_after : Bool := true
  thrown : Option Thrown := none

/-- The four callbacks of `WebSocketServer` (httplib.h:1131-1134); an empty
`std::function` is `none`. -/
structure WebSocketServer where
  message_handler_ : Option (WebSocketMessage → CallbackResult) := none
  open_handler_ : Option CallbackResult := none
  close_handler_ : Option CallbackResult := none
  error_handler_ : Option (String → CallbackResult) := none

/-- One call of `WebSocketConnectionImpl::read` (httplib.h:981-998): it returns
true with a message, or false after `ws_.read` threw. In the second case
`closed` says whether the error was `websocket::error::closed`, the orderly
close (the only difference `read` makes is what it prints), and `open_after`
is what `is_open()` reports afterwards. -/
inductive WsRead where
  | message (data : String) (is_binary : Bool)
  | failed (closed : Bool) (open_after : Bool)
  deriving DecidableEq, Repr

/-- The accepted socket of a WebSocket session: the `what()` of the error
`ws_.accept()` throws, if it does, and what the reads yield, call by call
(after the last item the peer is gone: the read fails and the stream is not
open). -/
structure WsSocket where
  accept_fails : Option String := none
  reads : List WsRead

/-- What one `handle_websocket_session` call did: the callbacks called, and
whether an object no `catch` takes left the thread function. -/
structure WsSessionResult where
  log : List WsEvent
  terminated : Bool := false

/-- The `catch (std::exception const &e)` clause of `handle_websocket_session`
(httplib.h:1124-1129), once `ws_conn` is set. What the error handler throws
there is caught by nothing. -/
def WebSocketServer.catch_clause (srv : WebSocketServer) (log : List WsEvent)
    (what : String) : WsSessionResult :=
  match srv.error_handler_ with
  | some h => { log := log ++ [WsEvent.on_error what], terminated := (h what).thrown.isSome }
  | none => { log := log }

/-- An object thrown inside the `try` block: a `std::exception` goes to the
`catch` clause, any other object leaves the function. -/
def WebSocketServer.raise (srv : WebSocketServer) (log : List WsEvent) :
    Thrown → WsSessionResult
  | .std_exception what => srv.catch_clause log what
  | .other => { log := log, terminated := true }

/-- Lines 1118-1120 of `handle_websocket_session`: the close handler after the
loop. -/
def WebSocketServer.after_loop (srv : WebSocketServer) (log : List WsEvent) :
    WsSessionResult :=
  match srv.close_handler_ with
  | some r =>
    match r.thrown with
    | none => { log := log ++ [WsEvent.on_close] }
    | some t => srv.raise (log ++ [WsEvent.on_close]) t
  | none => { log := log }

/-- The loop `while (ws_conn->is_open())` of `handle_websocket_session`
(httplib.h:1105-1116) with what follows it; `is_open` is what `is_open()`
reports at the head of the loop. -/
def WebSocketServer.session_loop (srv : WebSocketServer) :
    Bool → List WsRead → List WsEvent → WsSessionResult
  | false, _, log => srv.after_loop log
  | true, [], log => srv.after_loop log
  | true, .message data is_binary :: rest, log =>
    match srv.message_handler_ with
    | some h =>
      let r := h { data := data, is_binary := is_binary }
      let log := log ++ [WsEvent.on_message { data := data, is_binary := is_binary }]
      match r.thrown with
      | none => srv.session_loop r.open_after rest log
      | some t => srv.raise log t
    | none => srv.session_loop true rest log
  | true, .failed _ open_after :: _, log =>
    if open_after then
      match srv.error_handler_ with
      | some h =>
        match (h "WebSocket read error").thrown with
        | none => srv.after_loop (log ++ [WsEvent.on_error "WebSocket read error"])
        | some t => srv.raise (log ++ [WsEvent.on_error "WebSocket read error"]) t
      | none => srv.after_loop log
    else srv.after_loop log

/-- `WebSocketServer::handle_websocket_session` (httplib.h:1096-1130). -/
def WebSocketServer.handle_websocket_session (srv : WebSocketServer) (socket : WsSocket) :
    WsSessionResult :=
  match socket.accept_fails with
  | some what => srv.catch_clause [] what
  | none =>
    match srv.open_handler_ with
    | some r =>
      match r.thrown with
      | none => srv.session_loop r.open_after socket.reads [WsEvent.on_open]
      | some t => srv.raise [WsEvent.on_open] t
    | none => srv.session_loop true socket.reads []

/-- Whether the callback an event names is set on the server. -/
def WebSocketServer.has_handler (srv : WebSocketServer) : WsEvent → Bool
  | .on_open => srv.open_handler_.isSome
  | .on_message _ => srv.message_handler_.isSome
  | .on_error _ => srv.error_handler_.isSome
  | .on_close => srv.close_handler_.isSome

/-- The order of callbacks the lifecycle describes for a session whose upgrade
succeeded, given what the reads yield: `onMessage` for each message read, in
order; after the read that fails, `onError` when the stream still reports open;
then `onClose`. -/
def lifecycle_after_open : List WsRead → List WsEvent
  | [] => [WsEvent.on_close]
  | .message data is_binary :: rest =>
    WsEvent.on_message { data := data, is_binary := is_binary } :: lifecycle_after_open rest
  | .failed _ open_after :: _ =>
    if open_after then [WsEvent.on_error "WebSocket read error", WsEvent.on_close]
    else [WsEvent.on_close]

/-- The server of `tests/basic_test.cpp:66-76` with all four callbacks set:
they return and leave the connection open. -/
def echo_ws_server : WebSocketServer :=
  { message_handler_ := some (fun _ => { }),
    open_handler_ := some { },
    close_handler_ := some { },
    error_handler_ := some (fun _ => { }) }

/-! ## WebSocket: the client (httplib.h:1136-1285)

The receive loop runs in a thread of its own while the caller is in `close()`.
The two are embedded as one step function each over a common state, every step
one statement of the source; an execution is a schedule, the list of which
thread takes the next step. A step of a thread that cannot move (the caller
waiting in `join`, the receive thread waiting in `read`) leaves the state as it
is. The caller's part is a number of `close()` calls, made one after the other at
any time: the explicit ones and the one of the destructor. -/

/-- The callbacks of `WebSocketClient` (httplib.h:1281-1284); an empty
`std::function` is `none`. They get no connection; each is given by the object
its call throws, if it does not return. -/
structure WebSocketClient where
  message_handler_ : Option (WebSocketMessage → Option Thrown) := none
  open_handler_ : Option (Option Thrown) := none
  close_handler_ : Option (Option Thrown) := none
  error_handler_ : Option (String → Option Thrown) := none

/-- Where the receive thread stands: `receive_thread_` is null; at the head of
`while (is_connected_)`; inside `ws_impl->read(msg)`; back from a read that
gave a message, before `if (message_handler_)`; back from a read that failed
(with what `is_open()` reports for the peer's part), before
`if (ws_impl->is_open() && error_handler_)`; at `is_connected_ = false` after
the loop; returned from the thread function and not yet joined; joined. -/
inductive ReceivePc where
  | not_started
  | loop_head
  | reading
  | got_message (msg : WebSocketMessage)
  | read_failed (open_after : Bool)
  | after_loop
  | finished
  | joined
  deriving DecidableEq, Repr

/-- Where the caller stands: outside `close()`, or inside it before the
statement that closes the stream, before the `join`, or before the call of the
close handler. -/
inductive ClosePc where
  | idle
  | close_stream
  | join_thread
  | call_handler
  deriving DecidableEq, Repr

/-- The members of a `WebSocketClient` that change (`is_connected_`, whether
`ws_conn_` is set, the state of `receive_thread_`), the two threads, what the
stream still yields to reads, and the callbacks called so far. -/
structure ClientState where
  is_connected_ : Bool := false
  ws_conn_ : Bool := false
  stream_closed : Bool := false
  receiver : ReceivePc := .not_started
  caller : ClosePc := .idle
  pending_closes : Nat := 0
  closes_returned : Nat := 0
  incoming : List WsRead := []
  log : List WsEvent := []
  terminated : Bool := false

/-- What the network does during `connect()`: the `what()` of the error thrown
by `resolve`, `net::connect` or the handshake, if one is. -/
structure ConnectNet where
  resolve_fails : Option String := none
  connect_fails : Option String := none
  handshake_fails : Option String := none

/-- The `catch` clause of `WebSocketClient::connect` (httplib.h:1211-1217): the
value returned, or `none` when the error handler throws. -/
def WebSocketClient.connect_catch (cli : WebSocketClient) (s : ClientState) (what : String) :
    Option Bool × ClientState :=
  match cli.error_handler_ with
  | some h =>
    match h ("Connect error: " ++ what) with
    | none => (some false, { s with log := s.log ++ [WsEvent.on_error ("Connect error: " ++ what)] })
    | some _ => (none, { s with log := s.log ++ [WsEvent.on_error ("Connect error: " ++ what)] })
  | none => (some false, s)

/-- `WebSocketClient::connect` (httplib.h:1177-1218): the value returned (`none`
when an object is thrown out of it) and the state it leaves. Assigning a new
thread to `receive_thread_` while the old one is joinable ends the process. -/
def WebSocketClient.connect (cli : WebSocketClient) (net : ConnectNet) (s : ClientState) :
    Option Bool × ClientState :=
  match net.resolve_fails with
  | some what => cli.connect_catch s what
  | none =>
    match net.connect_fails with
    | some what => cli.connect_catch s what
    | none =>
      match net.handshake_fails with
      | some what => cli.connect_catch s what
      | none =>
        let s1 := { s with ws_conn_ := true, is_connected_ := true, stream_closed := false }
        let opened : Option Thrown × ClientState :=
          match cli.open_handler_ with
          | some r => (r, { s1 with log := s1.log ++ [WsEvent.on_open] })
          | none => (none, s1)
        match opened.1 with
        | some (.std_exception what) => cli.connect_catch opened.2 what
        | some .other => (none, opened.2)
        | none =>
          match opened.2.receiver with
          | .not_started => (some true, { opened.2 with receiver := .loop_head })
          | .joined => (some true, { opened.2 with receiver := .loop_head })
          | _ => (none, { opened.2 with terminated := true })

/-- `WebSocketClient::is_connected` (httplib.h:1248-1250). -/
def ClientState.is_connected (s : ClientState) : Bool :=
  s.is_connected_

/-- One step of the caller through `WebSocketClient::close` (httplib.h:1232-1246):
the call with `is_connected_ = false`; `if (ws_conn_) ws_conn_->close()`; the
`join`, which waits while the receive thread runs; the call of the close
handler, after which the call is over (what the handler throws reaches the
caller of `close()`). -/
def WebSocketClient.close_step (cli : WebSocketClient) (s : ClientState) : ClientState :=
  match s.caller with
  | .idle =>
    match s.pending_closes with
    | 0 => s
    | n + 1 => { s with pending_closes := n, is_connected_ := false, caller := .close_stream }
  | .close_stream =>
    { s with stream_closed := s.stream_closed || s.ws_conn_, caller := .join_thread }
  | .join_thread =>
    match s.receiver with
    | .not_started => { s with caller := .call_handler }
    | .joined => { s with caller := .call_handler }
    | .finished => { s with receiver := .joined, caller := .call_handler }
    | _ => s
  | .call_handler =>
    match cli.close_handler_ with
    | some _ =>
      { s with log := s.log ++ [WsEvent.on_close], caller := .idle,
               closes_returned := s.closes_returned + 1 }
    | none => { s with caller := .idle, closes_returned := s.closes_returned + 1 }

/-- One step of the receive thread through `WebSocketClient::receive_loop`
(httplib.h:1253-1272): the test of `is_connected_`; a read (with nothing to
yield it waits until the stream is closed and then fails); the call of the
message handler; the call of the error handler, made if the stream still
reports open, which it does not once `close()` has closed it; the statement
after the loop. An object a callback throws is caught by nothing in the thread
and ends the process. -/
def WebSocketClient.receive_step (cli : WebSocketClient) (s : ClientState) : ClientState :=
  match s.receiver with
  | .loop_head =>
    if s.is_connected_ then { s with receiver := .reading }
    else { s with receiver := .after_loop }
  | .reading =>
    match s.incoming with
    | .message data is_binary :: rest =>
      { s with incoming := rest,
               receiver := .got_message { data := data, is_binary := is_binary } }
    | .failed _ open_after :: rest =>
      { s with incoming := rest, receiver := .read_failed open_after }
    | [] => if s.stream_closed then { s with receiver := .read_failed false } else s
  | .got_message msg =>
    match cli.message_handler_ with
    | some h =>
      { s with log := s.log ++ [WsEvent.on_message msg], receiver := .loop_head,
               terminated := (h msg).isSome }
    | none => { s with receiver := .loop_head }
  | .read_failed open_after =>
    if open_after && !s.stream_closed then
      match cli.error_handler_ with
      | some h =>
        { s with log := s.log ++ [WsEvent.on_error "WebSocket client read error"],
                 receiver := .after_loop,
                 terminated := (h "WebSocket client read error").isSome }
      | none => { s with receiver := .after_loop }
    else { s with receiver := .after_loop }
  | .after_loop => { s with is_connected_ := false, receiver := .finished }
  | _ => s

/-- The two threads. -/
inductive Tid where
  | caller
  | receiver
  deriving DecidableEq, Repr

/-- One step of the thread chosen; nothing moves once the process has ended. -/
def WebSocketClient.step (cli : WebSocketClient) (s : ClientState) (tid : Tid) : ClientState :=
  if s.terminated then s
  else
    match tid with
    | .caller => cli.close_step s
    | .receiver => cli.receive_step s

/-- An execution: the steps of a schedule, one after the other. -/
def WebSocketClient.run (cli : WebSocketClient) (s : ClientState) (schedule : List Tid) :
    ClientState :=
  schedule.foldl cli.step s

/-- A client before its first `connect()`, with what the stream will yield to
reads and the number of `close()` calls the caller is going to make. -/
def ClientState.fresh (incoming : List WsRead) (closes : Nat) : ClientState :=
  { incoming := incoming, pending_closes := closes }

/-- The state of a client after `connect()` and the steps of a schedule: the
executions of one connection, without a second `connect()`. -/
def WebSocketClient.session (cli : WebSocketClient) (net : ConnectNet) (incoming : List WsRead)
    (closes : Nat) (schedule : List Tid) : ClientState :=
  cli.run (cli.connect net (ClientState.fresh incoming closes)).2 schedule

/-- Whether the receive loop has fully stopped: no thread runs it, because none
was started or because it has been joined. -/
def ClientState.receive_stopped (s : ClientState) : Bool :=
  match s.receiver with
  | .not_started => true
  | .joined => true
  | _ => false

/-- Whether an event is a call of `onMessage`. -/
def WsEvent.is_message : WsEvent → Bool
  | .on_message _ => true
  | _ => false

/-- Whether some `onMessage` call comes after an `onClose` call in a log. -/
def message_after_close : List WsEvent → Bool
  | [] => false
  | .on_close :: rest => rest.any WsEvent.is_message || message_after_close rest
  | _ :: rest => message_after_close rest

/-- What happens next in an execution with any number of connections: the
caller calls `connect()`, with what the network does then and what the new
stream will yield to reads, or a thread takes a step. -/
inductive Move where
  | connect (net : ConnectNet) (incoming : List WsRead)
  | step (tid : Tid)

/-- One move. The caller is one thread: it calls `connect()` when it is not
inside `close()`, and the call is taken as one step. The stream that is read is
the new one once the handshake has succeeded. -/
def WebSocketClient.move (cli : WebSocketClient) (s : ClientState) : Move → ClientState
  | .connect net incoming =>
    if s.terminated || !(s.caller == .idle) then s
    else if net.resolve_fails.isNone && net.connect_fails.isNone
        && net.handshake_fails.isNone then
      (cli.connect net { s with incoming := incoming }).2
    else (cli.connect net s).2
  | .step tid => cli.step s tid

/-- An execution of a client that will be closed `closes` times: any sequence
of `connect()` calls and steps of the caller through `close()` and of the
receive thread, from the state the constructor leaves. -/
def WebSocketClient.execute (cli : WebSocketClient) (closes : Nat) (moves : List Move) :
    ClientState :=
  moves.foldl cli.move (ClientState.fresh [] closes)

/-- What holds of a client while no further `connect()` is called, `base`
being the callbacks called before: `close()` is about to call `onClose` only
when the receive loop has stopped; once `onClose` has been called since, the
loop has stopped; and among the callbacks called since, no `onMessage` follows
an `onClose`. -/
def ClientState.segment_invariant (base : List WsEvent) (t : ClientState) : Prop :=
  (t.caller = .call_handler → t.receive_stopped = true)
  ∧ ∃ seg : List WsEvent,
      t.log = base ++ seg
      ∧ (WsEvent.on_close ∈ seg → t.receive_stopped = true)
      ∧ message_after_close seg = false

/-- A client with all four callbacks set, which return. -/
def echo_ws_client : WebSocketClient :=
  { message_handler_ := some (fun _ => none),
    open_handler_ := some none,
    close_handler_ := some none,
    error_handler_ := some (fun _ => none) }

/-! ## Static files, malformed escapes and failing callbacks: the inputs used -/

/-- Whether an event is the lookup of a static file. -/
def Event.is_static_file : Event → Bool
  | .static_file _ => true
  | _ => false

/-- The content type the specification gives for a file extension: `.html` and
`.htm` text/html, `.css` text/css, `.js` application/javascript, `.json`
application/json, `.png` image/png, `.jpg` and `.jpeg` image/jpeg, `.gif`
image/gif, `.svg` image/svg+xml, any other extension application/octet-stream. -/
def spec_content_type (ext : String) : String :=
  if ext = ".html" then "text/html"
  else if ext = ".htm" then "text/html"
  else if ext = ".css" then "text/css"
  else if ext = ".js" then "application/javascript"
  else if ext = ".json" then "application/json"
  else if ext = ".png" then "image/png"
  else if ext = ".jpg" then "image/jpeg"
  else if ext = ".jpeg" then "image/jpeg"
  else if ext = ".gif" then "image/gif"
  else if ext = ".svg" then "image/svg+xml"
  else "application/octet-stream"

/-- The text after the last occurrence of a separator, when there is one
(used to read a file name and its extension off a path as the specification
means them). -/
def spec_after_last (sep : Char) : List Char → Option (List Char)
  | [] => none
  | c :: cs =>
    match spec_after_last sep cs with
    | some tail => some tail
    | none => if c = sep then some cs else none

/-- The extension of a file as the specification means it: the text from the
last dot of the file name on, the file name being what follows the last `/` of
the path; empty when the file name has no dot. -/
def spec_extension (file_path : String) : String :=
  match spec_after_last '.' ((spec_after_last '/' file_path.data).getD file_path.data) with
  | some tail => String.mk ('.' :: tail)
  | none => ""

/-- The headers of a served file as the specification describes them: the
headers so far with a `Content-Type` entry, the one of the table for the
extension of the file. -/
def spec_static_headers (headers : Headers) (file_path : String) : Headers :=
  multimap_emplace headers "Content-Type" (spec_content_type (spec_extension file_path))

/-- Whether a query string holds an escape that cannot be converted, the
escapes being taken as the decoder takes them: reading from the left, every `%`
with at least two characters after it forms one escape with those two
characters, and the reading goes on after them. -/
def has_malformed_escape : List Char → Bool
  | [] => false
  | '%' :: a :: b :: rest =>
    match stoi [a, b] with
    | .error _ => true
    | .ok _ => has_malformed_escape rest
  | _ :: rest => has_malformed_escape rest

/-- The server of the test with the base directory `./www`. -/
def static_server : Server Regex :=
  { test_server with base_dir_ := "./www" }

/-- A file system with a page, a style sheet and a file without extension in
`./www`, and a file next to that directory. -/
def www_files : String → Option String :=
  fun file_path =>
    if file_path = "./www/index.html" then some "<h1>Home</h1>"
    else if file_path = "./www/style.css" then some "body {}"
    else if file_path = "./www/LICENSE" then some "MIT"
    else if file_path = "./www/../secret.txt" then some "secret"
    else none

/-- The server of the test with the base directory `www`. -/
def plain_dir_server : Server Regex :=
  { test_server with base_dir_ := "www" }

/-- A file system with one file, `www/LICENSE`. -/
def plain_dir_files : String → Option String :=
  fun file_path => if file_path = "www/LICENSE" then some "MIT" else none

/-- A WebSocket client whose `onOpen` callback throws `t`; the other callbacks
return. -/
def open_throws_client (t : Thrown) : WebSocketClient :=
  { echo_ws_client with open_handler_ := some (some t) }

/-- A WebSocket server whose `onOpen` callback throws `t`; the other callbacks
return. -/
def open_throws_server (t : Thrown) : WebSocketServer :=
  { echo_ws_server with open_handler_ := some { thrown := some t } }

/-- A WebSocket server whose `onMessage` callback throws `t` on the message
`bad` and returns on every other message; the other callbacks return. -/
def message_throws_server (t : Thrown) : WebSocketServer :=
  { echo_ws_server with
    message_handler_ := some (fun msg =>
      if msg.data = "bad" then { thrown := some t } else { }) }

/-! ## The pattern matcher: auxiliary facts -/

namespace Regex

theorem clear_groups_length (caps : List String) (base n : Nat) :
    (clear_groups caps base n).length = caps.length := by
  induction n with
  | zero => rfl
  | succ n ih => simp [clear_groups, ih]

/-- A match leaves the number of capture slots as it is. -/
theorem Matches.length_eq {r : Regex} {base : Nat} {s : List Char} {c0 c1 : List String}
    (h : Matches r base s c0 c1) : c1.length = c0.length := by
  induction h with
  | empty => rfl
  | char => rfl
  | any => rfl
  | digit => rfl
  | seq _ _ ih1 ih2 => rw [ih2, ih1]
  | alt_left _ ih => exact ih
  | alt_right _ ih => exact ih
  | star_done => rfl
  | star_more _ _ _ ih1 ih2 => rw [ih2, ih1, clear_groups_length]
  | plus _ _ ih1 ih2 => rw [ih2, ih1, clear_groups_length]
  | group _ ih => simp [ih]

/-- A capture after clearing is the one before, or unset. -/
theorem clear_groups_get (caps : List String) (base n i : Nat) (x : String)
    (h : (clear_groups caps base n)[i]? = some x) : caps[i]? = some x ∨ x = "" := by
  induction n with
  | zero => exact Or.inl h
  | succ n ih =>
    simp only [clear_groups, List.getElem?_set] at h
    split at h
    · split at h
      · right
        injection h with h
        exact h.symm
      · cases h
    · exact ih h

/-- The captures a match leaves are those it found, or pieces of the text it
matched: every capture is the one from before, or a contiguous part of the
matched text (the empty text when unset). -/
theorem Matches.capture_infix {r : Regex} {base : Nat} {s : List Char}
    {c0 c1 : List String} (h : Matches r base s c0 c1) :
    ∀ (i : Nat) (x : String), c1[i]? = some x → c0[i]? = some x ∨ x.data <:+: s := by
  induction h with
  | empty => exact fun i x hx => Or.inl hx
  | char => exact fun i x hx => Or.inl hx
  | any => exact fun i x hx => Or.inl hx
  | digit => exact fun i x hx => Or.inl hx
  | seq _ _ ih1 ih2 =>
    intro i x hx
    rcases ih2 i x hx with h2 | h2
    · rcases ih1 i x h2 with h1 | h1
      · exact Or.inl h1
      · exact Or.inr (List.IsInfix.trans h1 (List.prefix_append _ _).isInfix)
    · exact Or.inr (List.IsInfix.trans h2 (List.suffix_append _ _).isInfix)
  | alt_left _ ih => exact ih
  | alt_right _ ih => exact ih
  | star_done => exact fun i x hx => Or.inl hx
  | star_more _ _ _ ih1 ih2 =>
    intro i x hx
    rcases ih2 i x hx with h2 | h2
    · rcases ih1 i x h2 with h1 | h1
      · rcases clear_groups_get _ _ _ i x h1 with h0 | h0
        · exact Or.inl h0
        · right
          rw [h0]
          exact List.nil_infix
      · exact Or.inr (List.IsInfix.trans h1 (List.prefix_append _ _).isInfix)
    · exact Or.inr (List.IsInfix.trans h2 (List.suffix_append _ _).isInfix)
  | plus _ _ ih1 ih2 =>
    intro i x hx
    rcases ih2 i x hx with h2 | h2
    · rcases ih1 i x h2 with h1 | h1
      · rcases clear_groups_get _ _ _ i x h1 with h0 | h0
        · exact Or.inl h0
        · right
          rw [h0]
          exact List.nil_infix
      · exact Or.inr (List.IsInfix.trans h1 (List.prefix_append _ _).isInfix)
    · exact Or.inr (List.IsInfix.trans h2 (List.suffix_append _ _).isInfix)
  | group _ ih =>
    intro i x hx
    simp only [List.getElem?_set] at hx
    split at hx
    · split at hx
      · right
        injection hx with hx
        rw [← hx]
      · cases hx
    · exact ih i x hx

/-- The bound on the repetitions of a quantifier never cuts the loop short: any
two bounds that are at least the length of the input give the same results,
since every repetition taken consumes a character. -/
theorem star_loop_fuel (step : List Char → List String → List (List Char × List String))
    (clear : List String → List String) :
    ∀ (n : Nat) (s : List Char) (caps : List String) (f1 f2 : Nat),
      s.length ≤ n → s.length ≤ f1 → s.length ≤ f2 →
      star_loop step clear f1 s caps = star_loop step clear f2 s caps := by
  intro n
  induction n with
  | zero =>
    intro s caps f1 f2 hn _ _
    have hs : s.length = 0 := Nat.le_zero.mp hn
    cases f1 <;> cases f2 <;> simp [star_loop, hs]
  | succ n ih =>
    intro s caps f1 f2 hn h1 h2
    cases f1 with
    | zero =>
      have hs : s.length = 0 := Nat.le_zero.mp h1
      cases f2 <;> simp [star_loop, hs]
    | succ f1 =>
      cases f2 with
      | zero =>
        have hs : s.length = 0 := Nat.le_zero.mp h2
        simp [star_loop, hs]
      | succ f2 =>
        simp only [star_loop]
        congr 1
        apply List.flatMap_congr
        intro q hq
        have hlt : q.1.length < s.length := by
          simpa using (List.mem_filter.mp hq).2
        exact ih q.1 q.2 f1 f2 (by omega) (by omega) (by omega)

/-- Every result of the quantifier loop is a match of the starred pattern,
when every result of `step` is a match of its operand. -/
theorem star_loop_sound (r : Regex) (base : Nat)
    (step : List Char → List String → List (List Char × List String))
    (hstep : ∀ s caps p, p ∈ step s caps → ∃ s1, s = s1 ++ p.1 ∧ Matches r base s1 caps p.2)
    (fuel : Nat) :
    ∀ (s : List Char) (caps : List String) (p : List Char × List String),
      p ∈ star_loop step (fun c => clear_groups c base r.ngroups) fuel s caps →
      ∃ s1, s = s1 ++ p.1 ∧ Matches (.star r) base s1 caps p.2 := by
  induction fuel with
  | zero =>
    intro s caps p hp
    simp only [star_loop, List.mem_singleton] at hp
    subst hp
    exact ⟨[], rfl, Matches.star_done r base caps⟩
  | succ fuel ih =>
    intro s caps p hp
    simp only [star_loop, List.mem_append, List.mem_flatMap, List.mem_filter,
      List.mem_singleton, decide_eq_true_eq] at hp
    rcases hp with ⟨q, ⟨hq, hlt⟩, hp⟩ | hp
    · obtain ⟨s1, hs1, hm1⟩ := hstep s _ q hq
      obtain ⟨s2, hs2, hm2⟩ := ih q.1 q.2 p hp
      refine ⟨s1 ++ s2, ?_, Matches.star_more ?_ hm1 hm2⟩
      · rw [hs1, hs2, List.append_assoc]
      · intro hnil
        subst hnil
        rw [hs1] at hlt
        simp at hlt
    · subst hp
      exact ⟨[], rfl, Matches.star_done r base caps⟩

/-- Soundness of the backtracking matcher: each result is the rest of the input
after a prefix the pattern matches, with the captures of that match. -/
theorem match_from_sound (r : Regex) :
    ∀ (base : Nat) (s : List Char) (caps : List String) (p : List Char × List String),
      p ∈ match_from r base s caps → ∃ s1, s = s1 ++ p.1 ∧ Matches r base s1 caps p.2 := by
  induction r with
  | empty =>
    intro base s caps p hp
    simp only [match_from, List.mem_singleton] at hp
    subst hp
    exact ⟨[], rfl, Matches.empty base caps⟩
  | char c =>
    intro base s caps p hp
    cases s with
    | nil => simp [match_from] at hp
    | cons x rest =>
      simp only [match_from] at hp
      split at hp
      · rename_i hx
        simp only [List.mem_singleton] at hp
        subst hp hx
        exact ⟨[x], rfl, Matches.char x base caps⟩
      · simp at hp
  | any =>
    intro base s caps p hp
    cases s with
    | nil => simp [match_from] at hp
    | cons x rest =>
      simp only [match_from] at hp
      split at hp
      · simp at hp
      · rename_i hx
        simp only [List.mem_singleton] at hp
        subst hp
        exact ⟨[x], rfl, Matches.any x base caps hx⟩
  | digit =>
    intro base s caps p hp
    cases s with
    | nil => simp [match_from] at hp
    | cons x rest =>
      simp only [match_from] at hp
      split at hp
      · rename_i hx
        simp only [List.mem_singleton] at hp
        subst hp
        exact ⟨[x], rfl, Matches.digit x base caps hx⟩
      · simp at hp
  | seq a b iha ihb =>
    intro base s caps p hp
    simp only [match_from, List.mem_flatMap] at hp
    obtain ⟨q, hq, hp⟩ := hp
    obtain ⟨s1, hs1, hm1⟩ := iha base s caps q hq
    obtain ⟨s2, hs2, hm2⟩ := ihb _ q.1 q.2 p hp
    exact ⟨s1 ++ s2, by rw [hs1, hs2, List.append_assoc], Matches.seq hm1 hm2⟩
  | alt a b iha ihb =>
    intro base s caps p hp
    simp only [match_from, List.mem_append] at hp
    rcases hp with hp | hp
    · obtain ⟨s1, hs1, hm1⟩ := iha base s caps p hp
      exact ⟨s1, hs1, Matches.alt_left hm1⟩
    · obtain ⟨s1, hs1, hm1⟩ := ihb _ s caps p hp
      exact ⟨s1, hs1, Matches.alt_right hm1⟩
  | star r ih =>
    intro base s caps p hp
    simp only [match_from] at hp
    exact star_loop_sound r base (match_from r base) (ih base) s.length s caps p hp
  | plus r ih =>
    intro base s caps p hp
    simp only [match_from, List.mem_flatMap] at hp
    obtain ⟨q, hq, hp⟩ := hp
    obtain ⟨s1, hs1, hm1⟩ := ih base s _ q hq
    obtain ⟨s2, hs2, hm2⟩ :=
      star_loop_sound r base (match_from r base) (ih base) q.1.length q.1 q.2 p hp
    exact ⟨s1 ++ s2, by rw [hs1, hs2, List.append_assoc], Matches.plus hm1 hm2⟩
  | group r ih =>
    intro base s caps p hp
    simp only [match_from, List.mem_map] at hp
    obtain ⟨q, hq, hp⟩ := hp
    obtain ⟨s1, hs1, hm1⟩ := ih (base + 1) s caps q hq
    subst hp
    refine ⟨s1, hs1, ?_⟩
    have htake : List.take (s.length - q.1.length) s = s1 := by
      rw [hs1]
      simp
    simp only [htake]
    exact Matches.group hm1

/-- Soundness of `regex_match`: when it succeeds the pattern matches the whole
text, sub-match 0 is the text, and the other sub-matches are the captures of
that match, one per group of the pattern, each a contiguous part of the text. -/
theorem regex_match_sound (re : Regex) (s : String) (m : Match)
    (h : regex_match re s = some m) :
    ∃ caps, m = s :: caps ∧ caps.length = re.ngroups
      ∧ Matches re 0 s.data (List.replicate re.ngroups "") caps
      ∧ ∀ x ∈ caps, x.data <:+: s.data := by
  unfold regex_match at h
  split at h
  · rename_i p hfind
    have hmem := List.mem_of_find?_eq_some hfind
    have hempty := List.find?_some hfind
    obtain ⟨s1, hs1, hm1⟩ := match_from_sound re 0 s.data _ p hmem
    have hp1 : p.1 = [] := by simpa using hempty
    rw [hp1, List.append_nil] at hs1
    injection h with h
    refine ⟨p.2, h.symm, ?_, ?_, ?_⟩
    · rw [hm1.length_eq]
      simp
    · rw [hs1]
      exact hm1
    · intro x hx
      obtain ⟨i, hi⟩ := List.mem_iff_getElem?.mp hx
      rcases hm1.capture_infix i x hi with h0 | h0
      · have hx0 : x = "" := by
          rw [List.getElem?_replicate] at h0
          split at h0
          · injection h0 with h0
            exact h0.symm
          · cases h0
        rw [hx0]
        exact List.nil_infix
      · rw [hs1]
        exact h0
  · cases h

/-- A literal pattern matches its own text only. -/
theorem Matches.lit_eq (w : List Char) :
    ∀ (base : Nat) (s : List Char) (c0 c1 : List String),
      Matches (lit w) base s c0 c1 → s = w := by
  induction w with
  | nil =>
    intro base s c0 c1 h
    cases h
    rfl
  | cons c w ih =>
    intro base s c0 c1 h
    cases h with
    | seq h1 h2 =>
      cases h1
      rw [ih _ _ _ _ h2]
      rfl

end Regex

/-! ## Routing: auxiliary facts -/

section RoutingFacts

variable {ρ : Type}

theorem andThen_of_none {st : RouteState} (f : RouteState → RouteState)
    (h : st.thrown = none) : st.andThen f = f st := by
  unfold RouteState.andThen
  rw [h]

theorem andThen_of_some {st : RouteState} (f : RouteState → RouteState) {t : Thrown}
    (h : st.thrown = some t) : st.andThen f = st := by
  unfold RouteState.andThen
  rw [h]

/-- A stage that leaves the `p`-events of the log alone still does so when it
is sequenced after a state. -/
theorem andThen_filter_log (p : Event → Bool) (f : RouteState → RouteState)
    (hf : ∀ st, (f st).log.filter p = st.log.filter p) (st : RouteState) :
    (st.andThen f).log.filter p = st.log.filter p := by
  unfold RouteState.andThen
  cases st.thrown with
  | none => exact hf st
  | some t => rfl

theorem pre_routing_filter_log (p : Event → Bool) (hp : p .pre_routing_handler = false)
    (srv : Server ρ) (st : RouteState) :
    (pre_routing srv st).log.filter p = st.log.filter p := by
  unfold pre_routing
  cases srv.pre_routing_handler_ with
  | none => rfl
  | some h => simp [RouteState.call, List.filter_append, hp]

theorem file_serving_filter_log (p : Event → Bool) (hp : ∀ f, p (.static_file f) = false)
    (fs : String → Option String) (srv : Server ρ) (st : RouteState) :
    (file_serving fs srv st).log.filter p = st.log.filter p := by
  unfold file_serving
  split
  · simp [List.filter_append, hp]
  · rfl

theorem error_handling_filter_log (p : Event → Bool) (hp : p .error_handler = false)
    (srv : Server ρ) (st : RouteState) :
    (error_handling srv st).log.filter p = st.log.filter p := by
  unfold error_handling
  split
  · cases srv.error_handler_ with
    | none => rfl
    | some h => simp [RouteState.call, List.filter_append, hp]
  · rfl

theorem post_routing_filter_log (p : Event → Bool) (hp : p .post_routing_handler = false)
    (srv : Server ρ) (st : RouteState) :
    (post_routing srv st).log.filter p = st.log.filter p := by
  unfold post_routing
  cases srv.post_routing_handler_ with
  | none => rfl
  | some h => simp [RouteState.call, List.filter_append, hp]

theorem logging_filter_log (p : Event → Bool) (hp : p .logger = false)
    (srv : Server ρ) (st : RouteState) :
    (logging srv st).log.filter p = st.log.filter p := by
  unfold logging
  cases srv.logger_ with
  | none => rfl
  | some l => simp [List.filter_append, hp]

/-- Entries whose pattern does not match the path are passed over. -/
theorem find_loop_skip (regex_match : ρ → String → Option Match) (srv : Server ρ)
    (list : HandlerList) (pre rest : List (ρ × Handler)) (k : Nat) (st : RouteState)
    (hpre : ∀ e ∈ pre, regex_match e.1 st.req.path = none) :
    find_matching_handler_loop regex_match srv list (pre ++ rest) k st
      = find_matching_handler_loop regex_match srv list rest (k + pre.length) st := by
  induction pre generalizing k with
  | nil => simp
  | cons e pre ih =>
    have he : regex_match e.1 st.req.path = none := hpre e (List.mem_cons_self _ _)
    have hrest : ∀ x ∈ pre, regex_match x.1 st.req.path = none :=
      fun x hx => hpre x (List.mem_cons_of_mem _ hx)
    simp only [List.cons_append, find_matching_handler_loop, he, List.length_cons]
    have := ih (k + 1) hrest
    simp only [List.append_eq] at *
    rw [this]
    congr 1
    omega

/-- When no entry matches, the loop changes nothing. -/
theorem find_loop_no_match (regex_match : ρ → String → Option Match) (srv : Server ρ)
    (list : HandlerList) (hs : List (ρ × Handler)) (k : Nat) (st : RouteState)
    (hno : ∀ e ∈ hs, regex_match e.1 st.req.path = none) :
    find_matching_handler_loop regex_match srv list hs k st = st := by
  have h := find_loop_skip regex_match srv list hs [] k st hno
  simpa [find_matching_handler_loop] using h

/-- The route-handler events of the log after the loop met its first match. -/
theorem find_loop_hit_filter (regex_match : ρ → String → Option Match) (srv : Server ρ)
    (list : HandlerList) (e : ρ × Handler) (rest : List (ρ × Handler)) (k : Nat)
    (st : RouteState) (m : Match) (hm : regex_match e.1 st.req.path = some m) :
    (find_matching_handler_loop regex_match srv list (e :: rest) k st).log.filter
        Event.is_route_handler
      = st.log.filter Event.is_route_handler ++ [Event.route_handler list k m] := by
  simp only [find_matching_handler_loop, hm]
  cases h1 : (e.2 { st.req with matches_ := m } st.res).thrown with
  | none => simp [List.filter_append, Event.is_route_handler]
  | some t =>
    cases t with
    | other => simp [List.filter_append, Event.is_route_handler]
    | std_exception w =>
      cases srv.exception_handler_ with
      | none => simp [List.filter_append, Event.is_route_handler]
      | some eh => simp [List.filter_append, Event.is_route_handler]

/-- The four blocks after the route lookup add no route-handler event. -/
theorem later_blocks_filter_route (fs : String → Option String) (srv : Server ρ)
    (st : RouteState) :
    ((((st.andThen (file_serving fs srv)).andThen (error_handling srv)).andThen
        (post_routing srv)).andThen (logging srv)).log.filter Event.is_route_handler
      = st.log.filter Event.is_route_handler := by
  rw [andThen_filter_log _ _ (logging_filter_log _ rfl srv),
    andThen_filter_log _ _ (post_routing_filter_log _ rfl srv),
    andThen_filter_log _ _ (error_handling_filter_log _ rfl srv),
    andThen_filter_log _ _ (file_serving_filter_log _ (fun _ => rfl) fs srv)]

/-- What the pre-routing block leaves when the hook, if there is one, returns. -/
theorem pre_routing_returns (srv : Server ρ) (req : Request) (res : Response)
    (hhook : ∀ hook, srv.pre_routing_handler_ = some hook → (hook req res).thrown = none) :
    (pre_routing srv { req := req, res := res }).thrown = none
      ∧ (pre_routing srv { req := req, res := res }).req = req
      ∧ (pre_routing srv { req := req, res := res }).handled = false := by
  unfold pre_routing
  cases h : srv.pre_routing_handler_ with
  | none => simp
  | some hook => simp [RouteState.call, hhook hook h]

/-- The events of the log after the loop: those before it, the call of the
exception handler, or the call of an entry whose pattern matched the path. -/
theorem find_loop_log_mem (regex_match : ρ → String → Option Match) (srv : Server ρ)
    (list : HandlerList) (ev : Event) :
    ∀ (hs : List (ρ × Handler)) (k : Nat) (st : RouteState),
      ev ∈ (find_matching_handler_loop regex_match srv list hs k st).log →
      ev ∈ st.log ∨ ev = Event.exception_handler ∨
        ∃ i e m, ev = Event.route_handler list (k + i) m ∧ hs[i]? = some e
          ∧ regex_match e.1 st.req.path = some m := by
  intro hs
  induction hs with
  | nil =>
    intro k st h
    exact Or.inl h
  | cons e rest ih =>
    intro k st h
    simp only [find_matching_handler_loop] at h
    cases hm : regex_match e.1 st.req.path with
    | none =>
      rw [hm] at h
      rcases ih (k + 1) st h with h1 | h1 | ⟨i, e2, m, h1, h2, h3⟩
      · exact Or.inl h1
      · exact Or.inr (Or.inl h1)
      · refine Or.inr (Or.inr ⟨i + 1, e2, m, ?_, ?_, h3⟩)
        · rw [h1]
          congr 1
          omega
        · simpa using h2
    | some m =>
      rw [hm] at h
      have hit : ev ∈ st.log ++ [Event.route_handler list k m, Event.exception_handler] →
          ev ∈ st.log ∨ ev = Event.exception_handler ∨
            ∃ i e2 m2, ev = Event.route_handler list (k + i) m2 ∧ (e :: rest)[i]? = some e2
              ∧ regex_match e2.1 st.req.path = some m2 := by
        intro h0
        simp only [List.mem_append, List.mem_cons, List.mem_singleton, List.not_mem_nil,
          or_false] at h0
        rcases h0 with h0 | h0 | h0
        · exact Or.inl h0
        · exact Or.inr (Or.inr ⟨0, e, m, by simpa using h0, by simp, hm⟩)
        · exact Or.inr (Or.inl h0)
      apply hit
      have hlog : (find_matching_handler_loop regex_match srv list (e :: rest) k st).log
            = st.log ++ [Event.route_handler list k m]
          ∨ (find_matching_handler_loop regex_match srv list (e :: rest) k st).log
            = st.log ++ [Event.route_handler list k m] ++ [Event.exception_handler] := by
        simp only [find_matching_handler_loop, hm]
        cases (e.2 { st.req with matches_ := m } st.res).thrown with
        | none => exact Or.inl rfl
        | some t =>
          cases t with
          | other => exact Or.inl rfl
          | std_exception w =>
            cases srv.exception_handler_ with
            | none => exact Or.inl rfl
            | some eh => exact Or.inr rfl
      have h2 : ev ∈ (find_matching_handler_loop regex_match srv list (e :: rest) k st).log := by
        simp only [find_matching_handler_loop, hm]
        exact h
      rcases hlog with hl | hl
      · rw [hl] at h2
        simp only [List.mem_append, List.mem_singleton] at h2
        simp only [List.mem_append, List.mem_cons, List.mem_singleton, List.not_mem_nil]
        tauto
      · rw [hl] at h2
        simp only [List.mem_append, List.mem_singleton] at h2
        simp only [List.mem_append, List.mem_cons, List.mem_singleton, List.not_mem_nil]
        tauto

/-- A stage that leaves the request alone still does so when it is sequenced
after a state. -/
theorem andThen_req (f : RouteState → RouteState) (hf : ∀ st, (f st).req = st.req)
    (st : RouteState) : (st.andThen f).req = st.req := by
  unfold RouteState.andThen
  cases st.thrown with
  | none => exact hf st
  | some t => rfl

theorem pre_routing_req (srv : Server ρ) (st : RouteState) :
    (pre_routing srv st).req = st.req := by
  unfold pre_routing
  cases srv.pre_routing_handler_ <;> rfl

theorem file_serving_req (fs : String → Option String) (srv : Server ρ) (st : RouteState) :
    (file_serving fs srv st).req = st.req := by
  unfold file_serving
  split <;> rfl

theorem error_handling_req (srv : Server ρ) (st : RouteState) :
    (error_handling srv st).req = st.req := by
  unfold error_handling
  split
  · cases srv.error_handler_ <;> rfl
  · rfl

theorem post_routing_req (srv : Server ρ) (st : RouteState) :
    (post_routing srv st).req = st.req := by
  unfold post_routing
  cases srv.post_routing_handler_ <;> rfl

theorem logging_req (srv : Server ρ) (st : RouteState) :
    (logging srv st).req = st.req := by
  unfold logging
  cases srv.logger_ <;> rfl

/-- The four blocks after the route lookup leave the request as it is. -/
theorem later_blocks_req (fs : String → Option String) (srv : Server ρ) (st : RouteState) :
    ((((st.andThen (file_serving fs srv)).andThen (error_handling srv)).andThen
        (post_routing srv)).andThen (logging srv)).req = st.req := by
  rw [andThen_req _ (logging_req srv), andThen_req _ (post_routing_req srv),
    andThen_req _ (error_handling_req srv), andThen_req _ (file_serving_req fs srv)]

/-- The request the loop leaves when it met its first match: the one it got,
with `matches` set. -/
theorem find_loop_hit_req (regex_match : ρ → String → Option Match) (srv : Server ρ)
    (list : HandlerList) (e : ρ × Handler) (rest : List (ρ × Handler)) (k : Nat)
    (st : RouteState) (m : Match) (hm : regex_match e.1 st.req.path = some m) :
    (find_matching_handler_loop regex_match srv list (e :: rest) k st).req
      = { st.req with matches_ := m } := by
  simp only [find_matching_handler_loop, hm]
  cases h1 : (e.2 { st.req with matches_ := m } st.res).thrown with
  | none => rfl
  | some t =>
    cases t with
    | other => rfl
    | std_exception w =>
      cases srv.exception_handler_ with
      | none => rfl
      | some eh => rfl

/-- The entry `emplace` adds is in the multimap. -/
theorem multimap_emplace_mem (m : List (String × String)) (key val : String) :
    (key, val) ∈ multimap_emplace m key val := by
  induction m with
  | nil => simp [multimap_emplace]
  | cons e rest ih =>
    unfold multimap_emplace
    split
    · simp
    · exact List.mem_cons_of_mem _ ih

/-- The route lookup does nothing when no entry of the consulted vector matches
the path. -/
theorem find_matching_handler_no_match (regex_match : ρ → String → Option Match)
    (srv : Server ρ) (st : RouteState)
    (hno : ∀ e ∈ srv.handlers (get_handlers_for_method st.req.method),
      regex_match e.1 st.req.path = none) :
    find_matching_handler regex_match srv st = st := by
  simp only [find_matching_handler]
  exact find_loop_no_match regex_match srv _ _ 0 st hno

/-- The route lookup at the first matching entry: the entries before it and
after it play no part. -/
theorem find_matching_handler_hit (regex_match : ρ → String → Option Match)
    (srv : Server ρ) (st : RouteState) (pre post : List (ρ × Handler)) (pattern : ρ)
    (handler : Handler) (m : Match)
    (hlist : srv.handlers (get_handlers_for_method st.req.method)
      = pre ++ (pattern, handler) :: post)
    (hpre : ∀ e ∈ pre, regex_match e.1 st.req.path = none)
    (hm : regex_match pattern st.req.path = some m) :
    find_matching_handler regex_match srv st
      = find_matching_handler_loop regex_match srv (get_handlers_for_method st.req.method)
          [(pattern, handler)] pre.length st := by
  simp only [find_matching_handler]
  rw [hlist, find_loop_skip regex_match srv _ pre _ 0 st hpre]
  simp only [find_matching_handler_loop, hm, Nat.zero_add]

/-- After its first match the loop has either thrown or set `handled`. -/
theorem find_loop_hit_handled (regex_match : ρ → String → Option Match) (srv : Server ρ)
    (list : HandlerList) (e : ρ × Handler) (rest : List (ρ × Handler)) (k : Nat)
    (st : RouteState) (m : Match) (hm : regex_match e.1 st.req.path = some m) :
    (find_matching_handler_loop regex_match srv list (e :: rest) k st).handled = true
      ∨ (find_matching_handler_loop regex_match srv list (e :: rest) k st).thrown ≠ none := by
  simp only [find_matching_handler_loop, hm]
  cases h1 : (e.2 { st.req with matches_ := m } st.res).thrown with
  | none => exact Or.inl rfl
  | some t =>
    cases t with
    | other => exact Or.inr (by simp)
    | std_exception w =>
      cases srv.exception_handler_ with
      | none => exact Or.inl rfl
      | some eh =>
        simp only
        cases (eh { st.req with matches_ := m }
          (e.2 { st.req with matches_ := m } st.res).res).thrown with
        | none => exact Or.inl rfl
        | some t => exact Or.inr (by simp)

/-- The blocks for static files and for the error handler do nothing once the
request is handled. -/
theorem file_and_error_of_handled (fs : String → Option String) (srv : Server ρ)
    (st : RouteState) (hh : st.handled = true) :
    (st.andThen (file_serving fs srv)).andThen (error_handling srv) = st := by
  have h1 : file_serving fs srv st = st := by simp [file_serving, hh]
  have h2 : error_handling srv st = st := by simp [error_handling, hh]
  cases ht : st.thrown with
  | none => rw [andThen_of_none _ ht, h1, andThen_of_none _ ht, h2]
  | some t => rw [andThen_of_some _ ht, andThen_of_some _ ht]

/-- Once an object is thrown out of a block, the blocks after it do not run. -/
theorem later_blocks_of_thrown (fs : String → Option String) (srv : Server ρ)
    (st : RouteState) (ht : st.thrown ≠ none) :
    (((st.andThen (file_serving fs srv)).andThen (error_handling srv)).andThen
        (post_routing srv)).andThen (logging srv) = st := by
  cases h : st.thrown with
  | none => exact absurd h ht
  | some t =>
    rw [andThen_of_some _ h, andThen_of_some _ h, andThen_of_some _ h, andThen_of_some _ h]

/-- Counting an event is counting through a filter. -/
theorem count_eq_filter (ev : Event) (log : List Event) :
    log.count ev = (log.filter (fun e => e == ev)).length := by
  rw [List.count_eq_countP, List.countP_eq_length_filter]

/-- The blocks for the post-routing hook and the logger add no event other than
their own. -/
theorem finish_filter_log (p : Event → Bool) (hp1 : p .post_routing_handler = false)
    (hp2 : p .logger = false) (srv : Server ρ) (st : RouteState) :
    ((st.andThen (post_routing srv)).andThen (logging srv)).log.filter p
      = st.log.filter p := by
  rw [andThen_filter_log _ _ (logging_filter_log _ hp2 srv),
    andThen_filter_log _ _ (post_routing_filter_log _ hp1 srv)]

/-- The block for static files when no file is served: nothing changes but the
log, which gets at most the lookup. -/
theorem file_serving_not_served (fs : String → Option String) (srv : Server ρ)
    (st : RouteState)
    (hstatic : srv.base_dir_ = "" ∨ fs (srv.base_dir_ ++ st.req.path) = none) :
    (file_serving fs srv st).thrown = st.thrown
      ∧ (file_serving fs srv st).handled = st.handled
      ∧ (file_serving fs srv st).req = st.req
      ∧ (file_serving fs srv st).res = st.res := by
  unfold file_serving
  split
  · rename_i hc
    rcases hstatic with h | h
    · simp [h] at hc
    · simp only [serve_static_file, h]
      simp only [Bool.and_eq_true, Bool.not_eq_true', Bool.not_eq_eq_eq_not, Bool.not_true,
        beq_eq_false_iff_ne, ne_eq] at hc
      simp [hc.1]
  · exact ⟨rfl, rfl, rfl, rfl⟩

/-- What `route_request` does when no entry of the consulted vector matches and
no static file is served: the error block runs on the response the pre-routing
hook left, then come the post-routing hook and the logger. -/
theorem route_request_no_match (regex_match : ρ → String → Option Match)
    (fs : String → Option String) (srv : Server ρ) (req : Request) (res : Response)
    (hno : ∀ e ∈ srv.handlers (get_handlers_for_method req.method),
      regex_match e.1 req.path = none)
    (hstatic : srv.base_dir_ = "" ∨ fs (srv.base_dir_ ++ req.path) = none)
    (hhook : ∀ hook, srv.pre_routing_handler_ = some hook → (hook req res).thrown = none) :
    ∃ st0 : RouteState,
      st0.thrown = none ∧ st0.handled = false ∧ st0.req = req
      ∧ st0.res = (pre_routing srv { req := req, res := res }).res
      ∧ st0.log.filter (fun e => e == Event.error_handler) = []
      ∧ st0.log.filter Event.is_route_handler = []
      ∧ route_request regex_match fs srv req res
          = ((error_handling srv st0).andThen (post_routing srv)).andThen (logging srv) := by
  obtain ⟨h1, h2, h3⟩ := pre_routing_returns srv req res hhook
  have hfind : find_matching_handler regex_match srv
      (pre_routing srv { req := req, res := res })
      = pre_routing srv { req := req, res := res } :=
    find_matching_handler_no_match regex_match srv _ (by rw [h2]; exact hno)
  obtain ⟨f1, f2, f3, f4⟩ := file_serving_not_served fs srv
    (pre_routing srv { req := req, res := res }) (by rw [h2]; exact hstatic)
  refine ⟨file_serving fs srv (pre_routing srv { req := req, res := res }),
    by rw [f1, h1], by rw [f2, h3], by rw [f3, h2], f4, ?_, ?_, ?_⟩
  · rw [file_serving_filter_log _ (fun _ => rfl), pre_routing_filter_log _ rfl]
    rfl
  · rw [file_serving_filter_log _ (fun _ => rfl), pre_routing_filter_log _ rfl]
    rfl
  · unfold route_request
    rw [andThen_of_none (pre_routing srv) rfl, andThen_of_none _ h1, hfind,
      andThen_of_none _ h1, andThen_of_none (error_handling srv) (by rw [f1, h1])]

/-- The loop at its first match when the handler throws a `std::exception`:
what the `catch` clause leaves. -/
theorem find_loop_hit_std (regex_match : ρ → String → Option Match) (srv : Server ρ)
    (list : HandlerList) (e : ρ × Handler) (rest : List (ρ × Handler)) (k : Nat)
    (st : RouteState) (m : Match) (what : String)
    (hm : regex_match e.1 st.req.path = some m)
    (hthrow : (e.2 { st.req with matches_ := m } st.res).thrown
      = some (.std_exception what)) :
    find_matching_handler_loop regex_match srv list (e :: rest) k st
      = match srv.exception_handler_ with
        | some eh =>
          { st with
              req := { st.req with matches_ := m },
              res := (eh { st.req with matches_ := m }
                (e.2 { st.req with matches_ := m } st.res).res).res,
              log := st.log ++ [Event.route_handler list k m] ++ [Event.exception_handler],
              handled := (eh { st.req with matches_ := m }
                (e.2 { st.req with matches_ := m } st.res).res).thrown.isNone,
              thrown := (eh { st.req with matches_ := m }
                (e.2 { st.req with matches_ := m } st.res).res).thrown }
        | none =>
          { st with
              req := { st.req with matches_ := m },
              res := (Response.set_content
                { (e.2 { st.req with matches_ := m } st.res).res with status := 500 }
                "Internal Server Error" "text/plain"),
              log := st.log ++ [Event.route_handler list k m],
              handled := true } := by
  simp only [find_matching_handler_loop, hm, hthrow]

/-- What `route_request` does when the handler of the first matching entry
throws a `std::exception`: the state `st` the `catch` clause leaves goes on to
the post-routing hook and the logger; the blocks for static files and for the
error handler are passed over. -/
theorem route_request_std_exception (regex_match : ρ → String → Option Match)
    (fs : String → Option String) (srv : Server ρ) (req : Request) (res : Response)
    (pre post : List (ρ × Handler)) (pattern : ρ) (handler : Handler) (m : Match)
    (what : String)
    (hlist : srv.handlers (get_handlers_for_method req.method)
      = pre ++ (pattern, handler) :: post)
    (hpre : ∀ e ∈ pre, regex_match e.1 req.path = none)
    (hm : regex_match pattern req.path = some m)
    (hhook : ∀ hook, srv.pre_routing_handler_ = some hook → (hook req res).thrown = none)
    (hthrow : (handler { req with matches_ := m }
        (pre_routing srv { req := req, res := res }).res).thrown
      = some (.std_exception what)) :
    ∃ st : RouteState,
      route_request regex_match fs srv req res
        = (st.andThen (post_routing srv)).andThen (logging srv)
      ∧ st.req = { req with matches_ := m }
      ∧ (srv.exception_handler_ = none →
          st.thrown = none ∧ st.handled = true
          ∧ st.res = Response.set_content
              { (handler { req with matches_ := m }
                  (pre_routing srv { req := req, res := res }).res).res with status := 500 }
              "Internal Server Error" "text/plain"
          ∧ st.log = (pre_routing srv { req := req, res := res }).log
              ++ [Event.route_handler (get_handlers_for_method req.method) pre.length m])
      ∧ (∀ eh, srv.exception_handler_ = some eh →
          st.res = (eh { req with matches_ := m }
              (handler { req with matches_ := m }
                (pre_routing srv { req := req, res := res }).res).res).res
          ∧ st.thrown = (eh { req with matches_ := m }
              (handler { req with matches_ := m }
                (pre_routing srv { req := req, res := res }).res).res).thrown
          ∧ st.handled = (eh { req with matches_ := m }
              (handler { req with matches_ := m }
                (pre_routing srv { req := req, res := res }).res).res).thrown.isNone
          ∧ st.log = (pre_routing srv { req := req, res := res }).log
              ++ [Event.route_handler (get_handlers_for_method req.method) pre.length m,
                  Event.exception_handler]) := by
  obtain ⟨h1, h2, _⟩ := pre_routing_returns srv req res hhook
  have hfind := find_matching_handler_hit regex_match srv
    (pre_routing srv { req := req, res := res }) pre post pattern handler m
    (by rw [h2]; exact hlist) (by rw [h2]; exact hpre) (by rw [h2]; exact hm)
  have hstate := find_loop_hit_handled regex_match srv
    (get_handlers_for_method (pre_routing srv { req := req, res := res }).req.method)
    (pattern, handler) [] pre.length (pre_routing srv { req := req, res := res }) m
    (by rw [h2]; exact hm)
  have hroute : route_request regex_match fs srv req res
      = ((find_matching_handler_loop regex_match srv
          (get_handlers_for_method (pre_routing srv { req := req, res := res }).req.method)
          [(pattern, handler)] pre.length
          (pre_routing srv { req := req, res := res })).andThen
            (post_routing srv)).andThen (logging srv) := by
    unfold route_request
    rw [andThen_of_none (pre_routing srv) rfl, andThen_of_none _ h1, hfind]
    rcases hstate with hh | ht
    · rw [file_and_error_of_handled fs srv _ hh]
    · rw [later_blocks_of_thrown fs srv _ ht]
      cases h : (find_matching_handler_loop regex_match srv
          (get_handlers_for_method (pre_routing srv { req := req, res := res }).req.method)
          [(pattern, handler)] pre.length
          (pre_routing srv { req := req, res := res })).thrown with
      | none => exact absurd h ht
      | some t => rw [andThen_of_some _ h, andThen_of_some _ h]
  have hm2 : regex_match pattern (pre_routing srv { req := req, res := res }).req.path
      = some m := by rw [h2]; exact hm
  have hthrow2 : (handler { (pre_routing srv { req := req, res := res }).req with
      matches_ := m } (pre_routing srv { req := req, res := res }).res).thrown
      = some (.std_exception what) := by rw [h2]; exact hthrow
  refine ⟨_, hroute, ?_, ?_, ?_⟩
  · rw [find_loop_hit_req regex_match srv _ _ [] _ _ m hm2, h2]
  · intro he
    rw [find_loop_hit_std regex_match srv _ _ [] _ _ m what hm2 hthrow2]
    simp [he, h2, h1]
  · intro eh he
    rw [find_loop_hit_std regex_match srv _ _ [] _ _ m what hm2 hthrow2]
    simp [he, h2]

/-- Without a post-routing hook the response is the one the blocks before it
left: the logger cannot change it. -/
theorem finish_res_without_post (srv : Server ρ) (st : RouteState)
    (hpost : srv.post_routing_handler_ = none) :
    ((st.andThen (post_routing srv)).andThen (logging srv)).res = st.res := by
  have h : post_routing srv st = st := by simp [post_routing, hpost]
  cases ht : st.thrown with
  | none =>
    rw [andThen_of_none _ ht, h, andThen_of_none _ ht]
    unfold logging
    cases srv.logger_ <;> rfl
  | some t => rw [andThen_of_some _ ht, andThen_of_some _ ht]

/-- What `route_request` does at the first matching entry: its handler is
called on the request with `req.matches` set and on the response the
pre-routing hook left, and the state `st` the `try` statement leaves goes on to
the post-routing hook and the logger. Its response is the one the handler
leaves when the handler returns or throws an object that is no
`std::exception` (which leaves the function); when the handler throws a
`std::exception`, it is the one the exception handler makes of the handler's
response, or that response with status 500 and the body
`Internal Server Error`. -/
theorem route_request_first_match (regex_match : ρ → String → Option Match)
    (fs : String → Option String) (srv : Server ρ) (req : Request) (res : Response)
    (pre post : List (ρ × Handler)) (pattern : ρ) (handler : Handler) (m : Match)
    (hlist : srv.handlers (get_handlers_for_method req.method)
      = pre ++ (pattern, handler) :: post)
    (hpre : ∀ e ∈ pre, regex_match e.1 req.path = none)
    (hm : regex_match pattern req.path = some m)
    (hhook : ∀ hook, srv.pre_routing_handler_ = some hook → (hook req res).thrown = none) :
    ∃ st : RouteState,
      route_request regex_match fs srv req res
        = (st.andThen (post_routing srv)).andThen (logging srv)
      ∧ st.req = { req with matches_ := m }
      ∧ st.log.filter Event.is_route_handler
          = [Event.route_handler (get_handlers_for_method req.method) pre.length m]
      ∧ ((handler { req with matches_ := m }
            (pre_routing srv { req := req, res := res }).res).thrown = none →
          st.thrown = none ∧ st.handled = true
          ∧ st.res = (handler { req with matches_ := m }
              (pre_routing srv { req := req, res := res }).res).res)
      ∧ ((handler { req with matches_ := m }
            (pre_routing srv { req := req, res := res }).res).thrown = some .other →
          st.thrown = some .other
          ∧ st.res = (handler { req with matches_ := m }
              (pre_routing srv { req := req, res := res }).res).res)
      ∧ (∀ what, (handler { req with matches_ := m }
            (pre_routing srv { req := req, res := res }).res).thrown
              = some (.std_exception what) →
          (srv.exception_handler_ = none →
            st.thrown = none ∧ st.handled = true
            ∧ st.res = Response.set_content
                { (handler { req with matches_ := m }
                    (pre_routing srv { req := req, res := res }).res).res with status := 500 }
                "Internal Server Error" "text/plain")
          ∧ (∀ eh, srv.exception_handler_ = some eh →
            st.thrown = (eh { req with matches_ := m }
                (handler { req with matches_ := m }
                  (pre_routing srv { req := req, res := res }).res).res).thrown
            ∧ st.res = (eh { req with matches_ := m }
                (handler { req with matches_ := m }
                  (pre_routing srv { req := req, res := res }).res).res).res)) := by
  obtain ⟨h1, h2, _⟩ := pre_routing_returns srv req res hhook
  have hfind := find_matching_handler_hit regex_match srv
    (pre_routing srv { req := req, res := res }) pre post pattern handler m
    (by rw [h2]; exact hlist) (by rw [h2]; exact hpre) (by rw [h2]; exact hm)
  have hstate := find_loop_hit_handled regex_match srv
    (get_handlers_for_method (pre_routing srv { req := req, res := res }).req.method)
    (pattern, handler) [] pre.length (pre_routing srv { req := req, res := res }) m
    (by rw [h2]; exact hm)
  have hroute : route_request regex_match fs srv req res
      = ((find_matching_handler_loop regex_match srv
          (get_handlers_for_method (pre_routing srv { req := req, res := res }).req.method)
          [(pattern, handler)] pre.length
          (pre_routing srv { req := req, res := res })).andThen
            (post_routing srv)).andThen (logging srv) := by
    unfold route_request
    rw [andThen_of_none (pre_routing srv) rfl, andThen_of_none _ h1, hfind]
    rcases hstate with hh | ht
    · rw [file_and_error_of_handled fs srv _ hh]
    · rw [later_blocks_of_thrown fs srv _ ht]
      cases h : (find_matching_handler_loop regex_match srv
          (get_handlers_for_method (pre_routing srv { req := req, res := res }).req.method)
          [(pattern, handler)] pre.length
          (pre_routing srv { req := req, res := res })).thrown with
      | none => exact absurd h ht
      | some t => rw [andThen_of_some _ h, andThen_of_some _ h]
  have hm2 : regex_match pattern (pre_routing srv { req := req, res := res }).req.path
      = some m := by rw [h2]; exact hm
  refine ⟨_, hroute, ?_, ?_, ?_, ?_, ?_⟩
  · rw [find_loop_hit_req regex_match srv _ _ [] _ _ m hm2, h2]
  · rw [find_loop_hit_filter regex_match srv _ _ [] _ _ m hm2, pre_routing_filter_log _ rfl,
      h2]
    rfl
  · intro hret
    have hret2 : (handler { (pre_routing srv { req := req, res := res }).req with
        matches_ := m } (pre_routing srv { req := req, res := res }).res).thrown = none := by
      rw [h2]; exact hret
    simp only [find_matching_handler_loop, hm2, hret2]
    refine ⟨h1, trivial, ?_⟩
    rw [h2]
  · intro hthrow
    have hthrow2 : (handler { (pre_routing srv { req := req, res := res }).req with
        matches_ := m } (pre_routing srv { req := req, res := res }).res).thrown
        = some .other := by
      rw [h2]; exact hthrow
    simp only [find_matching_handler_loop, hm2, hthrow2]
    refine ⟨trivial, ?_⟩
    rw [h2]
  · intro what hthrow
    have hthrow2 : (handler { (pre_routing srv { req := req, res := res }).req with
        matches_ := m } (pre_routing srv { req := req, res := res }).res).thrown
        = some (.std_exception what) := by rw [h2]; exact hthrow
    rw [find_loop_hit_std regex_match srv _ _ [] _ _ m what hm2 hthrow2]
    refine ⟨?_, ?_⟩
    · intro he
      simp [he, h2, h1]
    · intro eh he
      simp [he, h2]

/-- The result of the post-routing hook and the logger is not thrown out when
the state they start from is not and the two return. -/
theorem finish_thrown_none (srv : Server ρ) (st : RouteState) (hst : st.thrown = none)
    (hpost : ∀ ph, srv.post_routing_handler_ = some ph → ∀ q r, (ph q r).thrown = none)
    (hlog : ∀ l, srv.logger_ = some l → ∀ q r, l q r = none) :
    ((st.andThen (post_routing srv)).andThen (logging srv)).thrown = none := by
  have h1 : (post_routing srv st).thrown = none := by
    unfold post_routing
    cases hp : srv.post_routing_handler_ with
    | none => exact hst
    | some ph => exact hpost ph hp _ _
  have h2 : (logging srv (post_routing srv st)).thrown = none := by
    unfold logging
    cases hl : srv.logger_ with
    | none => exact h1
    | some l => exact hlog l hl _ _
  rw [andThen_of_none _ hst, andThen_of_none _ h1]
  exact h2

/-- Sequencing commutes with putting events in front of the log, for a stage
that does. -/
theorem andThen_with_earlier (f : RouteState → RouteState) (events : List Event)
    (hf : ∀ st, f (st.with_earlier events) = (f st).with_earlier events) (st : RouteState) :
    (st.with_earlier events).andThen f = (st.andThen f).with_earlier events := by
  unfold RouteState.andThen
  cases h : st.thrown with
  | none =>
    have : (st.with_earlier events).thrown = none := h
    rw [this]
    exact hf st
  | some t =>
    have : (st.with_earlier events).thrown = some t := h
    rw [this]

theorem find_loop_with_earlier (regex_match : ρ → String → Option Match) (srv : Server ρ)
    (list : HandlerList) (events : List Event) :
    ∀ (hs : List (ρ × Handler)) (k : Nat) (st : RouteState),
      find_matching_handler_loop regex_match srv list hs k (st.with_earlier events)
        = (find_matching_handler_loop regex_match srv list hs k st).with_earlier events := by
  intro hs
  induction hs with
  | nil =>
    intro k st
    rfl
  | cons e rest ih =>
    intro k st
    simp only [find_matching_handler_loop]
    have hreq : (st.with_earlier events).req = st.req := rfl
    have hres : (st.with_earlier events).res = st.res := rfl
    rw [hreq, hres]
    cases hm : regex_match e.1 st.req.path with
    | none => exact ih (k + 1) st
    | some m =>
      simp only
      cases (e.2 { st.req with matches_ := m } st.res).thrown with
      | none => simp [RouteState.with_earlier]
      | some t =>
        cases t with
        | other => simp [RouteState.with_earlier]
        | std_exception w =>
          cases srv.exception_handler_ with
          | none => simp [RouteState.with_earlier]
          | some eh => simp [RouteState.with_earlier]

theorem find_matching_handler_with_earlier (regex_match : ρ → String → Option Match)
    (srv : Server ρ) (events : List Event) (st : RouteState) :
    find_matching_handler regex_match srv (st.with_earlier events)
      = (find_matching_handler regex_match srv st).with_earlier events := by
  simp only [find_matching_handler]
  exact find_loop_with_earlier regex_match srv _ events _ 0 st

theorem file_serving_with_earlier (fs : String → Option String) (srv : Server ρ)
    (events : List Event) (st : RouteState) :
    file_serving fs srv (st.with_earlier events)
      = (file_serving fs srv st).with_earlier events := by
  unfold file_serving
  have hh : (st.with_earlier events).handled = st.handled := rfl
  rw [hh]
  split <;> simp [RouteState.with_earlier]

theorem error_handling_with_earlier (srv : Server ρ) (events : List Event)
    (st : RouteState) :
    error_handling srv (st.with_earlier events)
      = (error_handling srv st).with_earlier events := by
  unfold error_handling
  have hh : (st.with_earlier events).handled = st.handled := rfl
  rw [hh]
  split
  · cases srv.error_handler_ <;> simp [RouteState.with_earlier, RouteState.call]
  · rfl

theorem post_routing_with_earlier (srv : Server ρ) (events : List Event)
    (st : RouteState) :
    post_routing srv (st.with_earlier events)
      = (post_routing srv st).with_earlier events := by
  unfold post_routing
  cases srv.post_routing_handler_ <;> simp [RouteState.with_earlier, RouteState.call]

theorem logging_with_earlier (srv : Server ρ) (events : List Event) (st : RouteState) :
    logging srv (st.with_earlier events) = (logging srv st).with_earlier events := by
  unfold logging
  cases srv.logger_ <;> simp [RouteState.with_earlier]

/-- The route lookup does not read the pre-routing hook. -/
theorem find_loop_without_hook (regex_match : ρ → String → Option Match) (srv : Server ρ)
    (list : HandlerList) :
    ∀ (hs : List (ρ × Handler)) (k : Nat) (st : RouteState),
      find_matching_handler_loop regex_match { srv with pre_routing_handler_ := none }
          list hs k st
        = find_matching_handler_loop regex_match srv list hs k st := by
  intro hs
  induction hs with
  | nil =>
    intro k st
    rfl
  | cons e rest ih =>
    intro k st
    simp only [find_matching_handler_loop]
    cases regex_match e.1 st.req.path with
    | none => exact ih (k + 1) st
    | some m => rfl

end RoutingFacts

/-! ## Routing: the claims -/

section RoutingClaims

variable {ρ : Type}

/-- C1. For a request whose method is one of GET, POST, PUT, PATCH, DELETE,
OPTIONS and whose path is matched by some pattern registered for that method,
`route_request` calls exactly one route handler: the first entry of that
method's vector, in registration order, whose pattern matches the whole path.
The route-handler calls recorded in the log are that one call only, so no later
matching entry and no entry of another method is called; and the call is made:
the response that goes on to the post-routing hook and the logger is the one
this handler leaves when it is applied to the request with its match and to the
response the pre-routing hook left (when the handler throws a `std::exception`,
what the `catch` clause makes of the response the handler left), and without a
post-routing hook it is the response of `route_request`. (The pre-routing hook,
if one is set, is taken to return: routing starts after it.) -/
theorem route_request_invokes_first_match (regex_match : ρ → String → Option Match)
    (fs : String → Option String) (srv : Server ρ) (req : Request) (res : Response)
    (list : HandlerList) (pre post : List (ρ × Handler)) (pattern : ρ) (handler : Handler)
    (m : Match)
    (hmethod : (req.method, list) ∈
      [("GET", HandlerList.get_handlers_), ("POST", HandlerList.post_handlers_),
       ("PUT", HandlerList.put_handlers_), ("PATCH", HandlerList.patch_handlers_),
       ("DELETE", HandlerList.delete_handlers_), ("OPTIONS", HandlerList.options_handlers_)])
    (hlist : srv.handlers list = pre ++ (pattern, handler) :: post)
    (hpre : ∀ e ∈ pre, regex_match e.1 req.path = none)
    (hm : regex_match pattern req.path = some m)
    (hhook : ∀ hook, srv.pre_routing_handler_ = some hook → (hook req res).thrown = none) :
    (route_request regex_match fs srv req res).log.filter Event.is_route_handler
      = [Event.route_handler list pre.length m]
    ∧ ∃ st : RouteState,
        route_request regex_match fs srv req res
          = (st.andThen (post_routing srv)).andThen (logging srv)
        ∧ ((handler { req with matches_ := m }
              (pre_routing srv { req := req, res := res }).res).thrown = none →
            st.thrown = none
            ∧ st.res = (handler { req with matches_ := m }
                (pre_routing srv { req := req, res := res }).res).res
            ∧ (srv.post_routing_handler_ = none →
                (route_request regex_match fs srv req res).res
                  = (handler { req with matches_ := m }
                      (pre_routing srv { req := req, res := res }).res).res))
        ∧ ((handler { req with matches_ := m }
              (pre_routing srv { req := req, res := res }).res).thrown = some .other →
            (route_request regex_match fs srv req res).thrown = some .other
            ∧ (route_request regex_match fs srv req res).res
                = (handler { req with matches_ := m }
                    (pre_routing srv { req := req, res := res }).res).res)
        ∧ (∀ what, (handler { req with matches_ := m }
              (pre_routing srv { req := req, res := res }).res).thrown
                = some (.std_exception what) →
            (srv.exception_handler_ = none →
              st.res = Response.set_content
                { (handler { req with matches_ := m }
                    (pre_routing srv { req := req, res := res }).res).res with status := 500 }
                "Internal Server Error" "text/plain")
            ∧ (∀ eh, srv.exception_handler_ = some eh →
              st.res = (eh { req with matches_ := m }
                  (handler { req with matches_ := m }
                    (pre_routing srv { req := req, res := res }).res).res).res)) := by
  have hl : get_handlers_for_method req.method = list := by
    simp only [List.mem_cons, Prod.mk.injEq, List.mem_singleton, List.not_mem_nil,
      or_false] at hmethod
    rcases hmethod with h | h | h | h | h | h <;> rw [h.1, h.2] <;> decide
  obtain ⟨st, heq, _, hlog, hret, hother, hstd⟩ := route_request_first_match regex_match fs
    srv req res pre post pattern handler m (by rw [hl]; exact hlist) hpre hm hhook
  refine ⟨?_, st, heq, ?_, ?_, ?_⟩
  · rw [heq, finish_filter_log _ rfl rfl, hlog, hl]
  · intro h
    obtain ⟨t1, _, r1⟩ := hret h
    exact ⟨t1, r1, fun hp => by rw [heq, finish_res_without_post srv st hp, r1]⟩
  · intro h
    obtain ⟨t1, r1⟩ := hother h
    rw [heq, andThen_of_some _ t1, andThen_of_some _ t1]
    exact ⟨t1, r1⟩
  · intro what h
    exact ⟨fun he => ((hstd what h).1 he).2.2, fun eh he => ((hstd what h).2 eh he).2⟩

/-- Witness of C1: on `overlapping_server`, GET `/num/42` is matched by the
second and the third GET route and by a POST route; only the second GET route
is called, and the response is the `Number: 42` of its handler on top of the
header the pre-routing hook set, not the `Test OK` of the third route. -/
theorem route_request_invokes_first_match_witness :
    (route_request Regex.regex_match no_files overlapping_server
        { method := "GET", path := "/num/42" } {}).log.filter Event.is_route_handler
      = [Event.route_handler .get_handlers_ 1 ["/num/42", "42"]]
    ∧ (route_request Regex.regex_match no_files overlapping_server
        { method := "GET", path := "/num/42" } {}).res.body = "Number: 42"
    ∧ (route_request Regex.regex_match no_files overlapping_server
        { method := "GET", path := "/num/42" } {}).res.headers
        = [("Content-Type", "text/plain"), ("X-Pre", "1")]
    ∧ (route_request Regex.regex_match no_files overlapping_server
        { method := "GET", path := "/num/42" } {}).log
        = [Event.pre_routing_handler, Event.route_handler .get_handlers_ 1 ["/num/42", "42"]] :=
  ⟨(route_request_invokes_first_match Regex.regex_match no_files overlapping_server
      { method := "GET", path := "/num/42" } {} .get_handlers_
      [(Regex.lit "/test".data, test_handler)] [(num_any_pattern, test_handler)]
      num_pattern num_handler ["/num/42", "42"]
      (by decide) rfl (by decide) (by decide)
      (fun hook h => by
        have h2 : tagging_hook = hook := Option.some.inj h
        rw [← h2]
        rfl)).1,
    by decide, by decide, by decide⟩

/-- C2. When a route is matched, the `req.matches` handed to its handler (and
left in the request) is the request path followed by the captures of the match
of the pattern against the whole path: one entry per parenthesized group, in
the order of the opening parentheses, each holding the text that group matched
(`Regex.Matches`), a contiguous part of the path. The handler is applied to
the request carrying these sub-matches: the response that goes on to the
post-routing hook and the logger is the one the handler leaves on that request
(when it throws a `std::exception`, what the `catch` clause makes of it, the
exception handler getting the same request). -/
theorem route_handler_receives_capture_groups (fs : String → Option String)
    (srv : Server Regex) (req : Request) (res : Response)
    (pre post : List (Regex × Handler)) (pattern : Regex) (handler : Handler) (m : Match)
    (hlist : srv.handlers (get_handlers_for_method req.method)
      = pre ++ (pattern, handler) :: post)
    (hpre : ∀ e ∈ pre, Regex.regex_match e.1 req.path = none)
    (hm : Regex.regex_match pattern req.path = some m)
    (hhook : ∀ hook, srv.pre_routing_handler_ = some hook → (hook req res).thrown = none) :
    ∃ caps : List String,
      m = req.path :: caps
      ∧ caps.length = pattern.ngroups
      ∧ Regex.Matches pattern 0 req.path.data (List.replicate pattern.ngroups "") caps
      ∧ (∀ x ∈ caps, x.data <:+: req.path.data)
      ∧ (route_request Regex.regex_match fs srv req res).log.filter Event.is_route_handler
          = [Event.route_handler (get_handlers_for_method req.method) pre.length
              (req.path :: caps)]
      ∧ (route_request Regex.regex_match fs srv req res).req
          = { req with matches_ := req.path :: caps }
      ∧ ∃ st : RouteState,
          route_request Regex.regex_match fs srv req res
            = (st.andThen (post_routing srv)).andThen (logging srv)
          ∧ ((handler { req with matches_ := req.path :: caps }
                (pre_routing srv { req := req, res := res }).res).thrown = none →
              st.res = (handler { req with matches_ := req.path :: caps }
                  (pre_routing srv { req := req, res := res }).res).res
              ∧ (srv.post_routing_handler_ = none →
                  (route_request Regex.regex_match fs srv req res).res
                    = (handler { req with matches_ := req.path :: caps }
                        (pre_routing srv { req := req, res := res }).res).res))
          ∧ ((handler { req with matches_ := req.path :: caps }
                (pre_routing srv { req := req, res := res }).res).thrown = some .other →
              st.res = (handler { req with matches_ := req.path :: caps }
                  (pre_routing srv { req := req, res := res }).res).res)
          ∧ (∀ what, (handler { req with matches_ := req.path :: caps }
                (pre_routing srv { req := req, res := res }).res).thrown
                  = some (.std_exception what) →
              (srv.exception_handler_ = none →
                st.res = Response.set_content
                  { (handler { req with matches_ := req.path :: caps }
                      (pre_routing srv { req := req, res := res }).res).res with
                    status := 500 }
                  "Internal Server Error" "text/plain")
              ∧ (∀ eh, srv.exception_handler_ = some eh →
                st.res = (eh { req with matches_ := req.path :: caps }
                    (handler { req with matches_ := req.path :: caps }
                      (pre_routing srv { req := req, res := res }).res).res).res)) := by
  obtain ⟨caps, hm1, hlen, hmatch, hinfix⟩ := Regex.regex_match_sound pattern req.path m hm
  obtain ⟨st, heq, hreq, hlog, hret, hother, hstd⟩ := route_request_first_match
    Regex.regex_match fs srv req res pre post pattern handler m hlist hpre hm hhook
  subst hm1
  refine ⟨caps, rfl, hlen, hmatch, hinfix, ?_, ?_, st, heq, ?_, ?_, ?_⟩
  · rw [heq, finish_filter_log _ rfl rfl, hlog]
  · obtain ⟨h1, h2, _⟩ := pre_routing_returns srv req res hhook
    unfold route_request
    rw [later_blocks_req]
    rw [andThen_of_none (pre_routing srv) rfl, andThen_of_none _ h1]
    simp only [find_matching_handler]
    rw [h2, hlist]
    rw [find_loop_skip Regex.regex_match srv _ pre _ 0 _ (by rw [h2]; exact hpre)]
    rw [find_loop_hit_req Regex.regex_match srv _ _ post _ _ _ (by rw [h2]; exact hm)]
    rw [h2]
  · intro h
    obtain ⟨_, _, r1⟩ := hret h
    exact ⟨r1, fun hp => by rw [heq, finish_res_without_post srv st hp, r1]⟩
  · intro h
    exact (hother h).2
  · intro what h
    exact ⟨fun he => ((hstd what h).1 he).2.2, fun eh he => ((hstd what h).2 eh he).2⟩

/-- Witness of C2: on the server of the test, GET `/num/42` hands the handler
of `/num/(\d+)` the sub-matches `/num/42` and `42`, and the handler answers
`Number: 42`, the text of sub-match 1; for `/num/7` it answers `Number: 7`.
With two groups, `/(\d+)/(\d+)` on `/12/7` gives the path, `12` and `7`, in the
order of the opening parentheses. -/
theorem route_handler_receives_capture_groups_witness :
    (∃ caps : List String,
      ["/num/42", "42"] = "/num/42" :: caps
      ∧ caps.length = num_pattern.ngroups
      ∧ Regex.Matches num_pattern 0 "/num/42".data
          (List.replicate num_pattern.ngroups "") caps
      ∧ (∀ x ∈ caps, x.data <:+: "/num/42".data)
      ∧ (route_request Regex.regex_match no_files test_server
            { method := "GET", path := "/num/42" } {}).log.filter Event.is_route_handler
          = [Event.route_handler (get_handlers_for_method "GET") 1 ("/num/42" :: caps)]
      ∧ (route_request Regex.regex_match no_files test_server
            { method := "GET", path := "/num/42" } {}).req
          = { method := "GET", path := "/num/42", matches_ := "/num/42" :: caps })
    ∧ (route_request Regex.regex_match no_files test_server
          { method := "GET", path := "/num/42" } {}).res.body = "Number: 42"
    ∧ (route_request Regex.regex_match no_files test_server
          { method := "GET", path := "/num/7" } {}).res.body = "Number: 7"
    ∧ Regex.regex_match
          (.seq (.seq (.seq (.char '/') (.group (.plus .digit))) (.char '/'))
            (.group (.plus .digit))) "/12/7"
        = some ["/12/7", "12", "7"] :=
  ⟨(route_handler_receives_capture_groups no_files test_server
      { method := "GET", path := "/num/42" } {}
      [(Regex.lit "/test".data, test_handler)] [] num_pattern num_handler ["/num/42", "42"]
      rfl (by decide) (by decide) (fun hook h => by cases h)).elim
      (fun caps h => ⟨caps, h.1, h.2.1, h.2.2.1, h.2.2.2.1, h.2.2.2.2.1, h.2.2.2.2.2.1⟩),
    by decide, by decide, by decide⟩

/-- C3. Route matching is a match of the whole path. Whenever `route_request`
calls a route handler, the pattern of that entry matches the request path from
its first to its last character (`Regex.Matches`, which relates a pattern to
the whole of a text), and sub-match 0 is the path. In particular an entry
registered with the literal pattern `/test` is not the one called for the paths
`/test/extra`, `/testing` and `/a/test`. -/
theorem route_match_is_whole_path :
    (∀ (fs : String → Option String) (srv : Server Regex) (req : Request) (res : Response)
        (list : HandlerList) (index : Nat) (m : Match),
        Event.route_handler list index m
            ∈ (route_request Regex.regex_match fs srv req res).log →
        ∃ e caps, (srv.handlers list)[index]? = some e ∧ m = req.path :: caps
          ∧ Regex.Matches e.1 0 req.path.data (List.replicate e.1.ngroups "") caps)
    ∧ (∀ (fs : String → Option String) (srv : Server Regex) (req : Request) (res : Response)
        (list : HandlerList) (index : Nat) (m : Match) (h : Handler),
        req.path ∈ ["/test/extra", "/testing", "/a/test"] →
        Event.route_handler list index m
            ∈ (route_request Regex.regex_match fs srv req res).log →
        (srv.handlers list)[index]? ≠ some (Regex.lit "/test".data, h)) := by
  have part1 : ∀ (fs : String → Option String) (srv : Server Regex) (req : Request)
      (res : Response) (list : HandlerList) (index : Nat) (m : Match),
      Event.route_handler list index m
          ∈ (route_request Regex.regex_match fs srv req res).log →
      ∃ e caps, (srv.handlers list)[index]? = some e ∧ m = req.path :: caps
        ∧ Regex.Matches e.1 0 req.path.data (List.replicate e.1.ngroups "") caps := by
    intro fs srv req res list index m hev
    have hf : Event.route_handler list index m
        ∈ (route_request Regex.regex_match fs srv req res).log.filter
            Event.is_route_handler :=
      List.mem_filter.mpr ⟨hev, rfl⟩
    unfold route_request at hf
    rw [later_blocks_filter_route, andThen_of_none (pre_routing srv) rfl] at hf
    have hpre0 : (pre_routing srv { req := req, res := res }).log.filter
        Event.is_route_handler = [] := by
      rw [pre_routing_filter_log _ rfl]
      rfl
    cases h1 : (pre_routing srv { req := req, res := res }).thrown with
    | some t =>
      rw [andThen_of_some _ h1, hpre0] at hf
      cases hf
    | none =>
      rw [andThen_of_none _ h1] at hf
      have hmem := (List.mem_filter.mp hf).1
      simp only [find_matching_handler] at hmem
      rcases find_loop_log_mem Regex.regex_match srv _ _ _ 0 _ hmem with
        h0 | h0 | ⟨i, e, m2, h0, h2, h3⟩
      · have : Event.route_handler list index m
            ∈ (pre_routing srv { req := req, res := res }).log.filter
                Event.is_route_handler :=
          List.mem_filter.mpr ⟨h0, rfl⟩
        rw [hpre0] at this
        cases this
      · cases h0
      · simp only [pre_routing_req] at h0 h2 h3
        injection h0 with hl hi hm2
        obtain ⟨caps, hc1, _, hc3, _⟩ := Regex.regex_match_sound e.1 req.path m2 h3
        refine ⟨e, caps, ?_, ?_, hc3⟩
        · rw [hl, hi]
          simpa using h2
        · rw [hm2]
          exact hc1
  refine ⟨part1, ?_⟩
  intro fs srv req res list index m h hpath hev heq
  obtain ⟨e, caps, he, _, hmatch⟩ := part1 fs srv req res list index m hev
  rw [heq] at he
  injection he with he
  rw [← he] at hmatch
  have hdata := Regex.Matches.lit_eq _ _ _ _ _ hmatch
  have hp : req.path = "/test" := by
    cases hreq : req.path with
    | mk d =>
      rw [hreq] at hdata
      simp only at hdata
      rw [hdata]
  rw [hp] at hpath
  revert hpath
  decide

/-- Witness of C3: on the server of the test, GET `/test` calls the literal
route `/test`, whose pattern matches all of `/test`; GET `/test/extra`,
`/testing` and `/a/test` call no route handler. -/
theorem route_match_is_whole_path_witness :
    (∃ e caps, (test_server.handlers .get_handlers_)[0]? = some e
        ∧ ["/test"] = "/test" :: caps
        ∧ Regex.Matches e.1 0 "/test".data (List.replicate e.1.ngroups "") caps)
    ∧ (route_request Regex.regex_match no_files test_server
          { method := "GET", path := "/test/extra" } {}).log
        = []
    ∧ (route_request Regex.regex_match no_files test_server
          { method := "GET", path := "/testing" } {}).log
        = []
    ∧ (route_request Regex.regex_match no_files test_server
          { method := "GET", path := "/a/test" } {}).log
        = [] :=
  ⟨route_match_is_whole_path.1 no_files test_server { method := "GET", path := "/test" } {}
      .get_handlers_ 0 ["/test"] (by decide),
    by decide, by decide, by decide⟩

/-- C4, counterexample. On the server of the test, which registers `/test` for
GET only, a HEAD request for `/test` is not answered with "no route": the GET
handler is called and the response is its `200 Test OK`, not the 404 of the
error block. -/
theorem head_request_reaches_get_handler :
    (route_request Regex.regex_match no_files test_server
        { method := "HEAD", path := "/test" } {}).log
      = [Event.route_handler .get_handlers_ 0 ["/test"]]
    ∧ (route_request Regex.regex_match no_files test_server
        { method := "HEAD", path := "/test" } {}).res.status = 200
    ∧ (route_request Regex.regex_match no_files test_server
        { method := "HEAD", path := "/test" } {}).res.body = "Test OK" := by
  decide

/-- C4, as the code has it. For a request whose method is none of GET, POST,
PUT, PATCH, DELETE, OPTIONS, `get_handlers_for_method` falls back to the GET
vector. The first GET entry whose pattern matches the path is the one route
handler called, and it is called: the response that goes on to the
post-routing hook and the logger is the one this handler leaves on the request
with its match and the response the pre-routing hook left (when it throws a
`std::exception`, what the `catch` clause makes of it). When no GET entry
matches, no route handler is called, and unless a static file is served the
response that goes on is the one of the error block: what the error handler
leaves on the response the pre-routing hook left, the handler being called
once, or, without error handler, that response with status 404, body
`Not Found` and `Content-Type: text/plain`. Without a post-routing hook the
response that goes on is the response of `route_request`. -/
theorem unknown_method_uses_get_routes (regex_match : ρ → String → Option Match)
    (fs : String → Option String) (srv : Server ρ) (req : Request) (res : Response)
    (hmethod : req.method ∉ ["GET", "POST", "PUT", "PATCH", "DELETE", "OPTIONS"])
    (hhook : ∀ hook, srv.pre_routing_handler_ = some hook → (hook req res).thrown = none) :
    get_handlers_for_method req.method = HandlerList.get_handlers_
    ∧ (∀ (pre post : List (ρ × Handler)) (pattern : ρ) (handler : Handler) (m : Match),
        srv.get_handlers_ = pre ++ (pattern, handler) :: post →
        (∀ e ∈ pre, regex_match e.1 req.path = none) →
        regex_match pattern req.path = some m →
        (route_request regex_match fs srv req res).log.filter Event.is_route_handler
          = [Event.route_handler .get_handlers_ pre.length m]
        ∧ ∃ st : RouteState,
            route_request regex_match fs srv req res
              = (st.andThen (post_routing srv)).andThen (logging srv)
            ∧ ((handler { req with matches_ := m }
                  (pre_routing srv { req := req, res := res }).res).thrown = none →
                st.res = (handler { req with matches_ := m }
                    (pre_routing srv { req := req, res := res }).res).res
                ∧ (srv.post_routing_handler_ = none →
                    (route_request regex_match fs srv req res).res
                      = (handler { req with matches_ := m }
                          (pre_routing srv { req := req, res := res }).res).res))
            ∧ ((handler { req with matches_ := m }
                  (pre_routing srv { req := req, res := res }).res).thrown = some .other →
                st.res = (handler { req with matches_ := m }
                    (pre_routing srv { req := req, res := res }).res).res)
            ∧ (∀ what, (handler { req with matches_ := m }
                  (pre_routing srv { req := req, res := res }).res).thrown
                    = some (.std_exception what) →
                (srv.exception_handler_ = none →
                  st.res = Response.set_content
                    { (handler { req with matches_ := m }
                        (pre_routing srv { req := req, res := res }).res).res with
                      status := 500 }
                    "Internal Server Error" "text/plain")
                ∧ (∀ eh, srv.exception_handler_ = some eh →
                  st.res = (eh { req with matches_ := m }
                      (handler { req with matches_ := m }
                        (pre_routing srv { req := req, res := res }).res).res).res)))
    ∧ ((∀ e ∈ srv.get_handlers_, regex_match e.1 req.path = none) →
        (srv.base_dir_ = "" ∨ fs (srv.base_dir_ ++ req.path) = none) →
        (route_request regex_match fs srv req res).log.filter Event.is_route_handler = []
        ∧ ∃ st : RouteState,
            route_request regex_match fs srv req res
              = (st.andThen (post_routing srv)).andThen (logging srv)
            ∧ (srv.post_routing_handler_ = none →
                (route_request regex_match fs srv req res).res = st.res)
            ∧ (srv.error_handler_ = none →
                st.res = Response.set_content
                  { (pre_routing srv { req := req, res := res }).res with status := 404 }
                  "Not Found" "text/plain"
                ∧ st.res.status = 404 ∧ st.res.body = "Not Found"
                ∧ ("Content-Type", "text/plain") ∈ st.res.headers
                ∧ (route_request regex_match fs srv req res).log.count Event.error_handler
                    = 0)
            ∧ (∀ eh, srv.error_handler_ = some eh →
                st.res = (eh req (pre_routing srv { req := req, res := res }).res).res
                ∧ st.thrown = (eh req (pre_routing srv { req := req, res := res }).res).thrown
                ∧ (route_request regex_match fs srv req res).log.count Event.error_handler
                    = 1)) := by
  have hl : get_handlers_for_method req.method = HandlerList.get_handlers_ := by
    simp only [List.mem_cons, List.mem_singleton, List.not_mem_nil, or_false, not_or]
      at hmethod
    obtain ⟨h1, h2, h3, h4, h5, h6⟩ := hmethod
    simp [get_handlers_for_method, h1, h2, h3, h4, h5, h6]
  refine ⟨hl, ?_, ?_⟩
  · intro pre post pattern handler m hlist hpre hm
    obtain ⟨st, heq, _, hlog, hret, hother, hstd⟩ := route_request_first_match regex_match fs
      srv req res pre post pattern handler m (by rw [hl]; exact hlist) hpre hm hhook
    refine ⟨?_, st, heq, ?_, ?_, ?_⟩
    · rw [heq, finish_filter_log _ rfl rfl, hlog, hl]
    · intro h
      obtain ⟨_, _, r1⟩ := hret h
      exact ⟨r1, fun hp => by rw [heq, finish_res_without_post srv st hp, r1]⟩
    · intro h
      exact (hother h).2
    · intro what h
      exact ⟨fun he => ((hstd what h).1 he).2.2, fun eh he => ((hstd what h).2 eh he).2⟩
  · intro hno hstatic
    obtain ⟨st0, t0, hd0, q0, r0, c0, f0, heq⟩ := route_request_no_match regex_match fs srv
      req res (by rw [hl]; exact hno) hstatic hhook
    refine ⟨?_, error_handling srv st0, heq, ?_, ?_, ?_⟩
    · rw [heq, finish_filter_log _ rfl rfl, error_handling_filter_log _ rfl, f0]
    · intro hp
      rw [heq, finish_res_without_post srv _ hp]
    · intro he
      have hst : error_handling srv st0
          = { st0 with res := (Response.set_content { st0.res with status := 404 }
                "Not Found" "text/plain") } := by
        simp [error_handling, hd0, he]
      refine ⟨by rw [hst, r0], by rw [hst]; rfl, by rw [hst]; rfl, ?_, ?_⟩
      · rw [hst]
        exact multimap_emplace_mem _ _ _
      · rw [count_eq_filter, heq, finish_filter_log _ rfl rfl, hst]
        simp [c0]
    · intro eh he
      have hst : error_handling srv st0 = st0.call eh .error_handler := by
        simp [error_handling, hd0, he]
      refine ⟨by rw [hst, ← r0, ← q0]; rfl, by rw [hst, ← r0, ← q0]; rfl, ?_⟩
      rw [count_eq_filter, heq, finish_filter_log _ rfl rfl, hst]
      simp [RouteState.call, List.filter_append, c0]

/-- Witness of C4 as the code has it: the HEAD request for `/test` on the server
of the test calls GET entry 0 and gets the `Test OK` of its handler; a HEAD
request for `/missing` calls no route handler and gets `404 Not Found`, and
with the error handler of the example its body and status 200. -/
theorem unknown_method_uses_get_routes_witness :
    (route_request Regex.regex_match no_files test_server
        { method := "HEAD", path := "/test" } {}).log.filter Event.is_route_handler
      = [Event.route_handler .get_handlers_ 0 ["/test"]]
    ∧ (route_request Regex.regex_match no_files test_server
        { method := "HEAD", path := "/missing" } {}).log.filter Event.is_route_handler = []
    ∧ (route_request Regex.regex_match no_files test_server
        { method := "HEAD", path := "/test" } {}).res.body = "Test OK"
    ∧ (route_request Regex.regex_match no_files test_server
        { method := "HEAD", path := "/missing" } {}).res.status = 404
    ∧ (route_request Regex.regex_match no_files test_server
        { method := "HEAD", path := "/missing" } {}).res.body = "Not Found"
    ∧ (route_request Regex.regex_match no_files error_handler_server
        { method := "TRACE", path := "/missing" } {}).res.body
        = "<html><body><h1>404 Not Found</h1></body></html>"
    ∧ (route_request Regex.regex_match no_files error_handler_server
        { method := "TRACE", path := "/missing" } {}).res.status = 200 :=
  ⟨((unknown_method_uses_get_routes Regex.regex_match no_files test_server
      { method := "HEAD", path := "/test" } {} (by decide) (fun hook h => by cases h)).2.1
      [] [(num_pattern, num_handler)] (Regex.lit "/test".data) test_handler ["/test"]
      rfl (by decide) (by decide)).1,
    ((unknown_method_uses_get_routes Regex.regex_match no_files test_server
      { method := "HEAD", path := "/missing" } {} (by decide)
      (fun hook h => by cases h)).2.2 (by decide) (Or.inl rfl)).1,
    by decide, by decide, by decide, by decide, by decide⟩

/-- C6, counterexample. A route handler that throws an object whose type does
not derive from `std::exception` (`throw 42;`) is not caught by
`catch (std::exception const &)`: the object leaves `route_request`, no
response is made, and in `handle_session` no `catch` clause takes it either, so
nothing is written and the thread function is left by the exception. -/
theorem non_std_failure_leaves_route_request :
    (route_request Regex.regex_match no_files faulty_server
        { method := "GET", path := "/crash" } {}).thrown = some Thrown.other
    ∧ (route_request Regex.regex_match no_files faulty_server
        { method := "GET", path := "/crash" } {}).handled = false
    ∧ (handle_session Regex.regex_match no_files faulty_server
        { incoming := [.request { target := "/crash" } none] }).written = []
    ∧ (handle_session Regex.regex_match no_files faulty_server
        { incoming := [.request { target := "/crash" } none] }).ending = .terminate := by
  decide

/-- C6, as the code has it. When the handler of the matched route throws an
object derived from `std::exception`, the object does not leave
`route_request`: the state `st` the `catch` clause leaves is what the
post-routing hook and the logger get. Without an exception handler `st` has
status 500, body `Internal Server Error` and a `Content-Type: text/plain`
entry; with one, it is called exactly once and `st` holds the response it
leaves. The request counts as handled: neither the static file lookup nor the
error handler runs. -/
theorem handler_std_exception_becomes_response (regex_match : ρ → String → Option Match)
    (fs : String → Option String) (srv : Server ρ) (req : Request) (res : Response)
    (pre post : List (ρ × Handler)) (pattern : ρ) (handler : Handler) (m : Match)
    (what : String)
    (hlist : srv.handlers (get_handlers_for_method req.method)
      = pre ++ (pattern, handler) :: post)
    (hpre : ∀ e ∈ pre, regex_match e.1 req.path = none)
    (hm : regex_match pattern req.path = some m)
    (hhook : ∀ hook, srv.pre_routing_handler_ = some hook → (hook req res).thrown = none)
    (hthrow : (handler { req with matches_ := m }
        (pre_routing srv { req := req, res := res }).res).thrown
      = some (.std_exception what)) :
    ∃ st : RouteState,
      route_request regex_match fs srv req res
        = (st.andThen (post_routing srv)).andThen (logging srv)
      ∧ (srv.exception_handler_ = none →
          st.thrown = none ∧ st.handled = true ∧ st.res.status = 500
          ∧ st.res.body = "Internal Server Error"
          ∧ ("Content-Type", "text/plain") ∈ st.res.headers
          ∧ (route_request regex_match fs srv req res).log.count Event.exception_handler = 0)
      ∧ (∀ eh, srv.exception_handler_ = some eh →
          st.res = (eh { req with matches_ := m }
              (handler { req with matches_ := m }
                (pre_routing srv { req := req, res := res }).res).res).res
          ∧ st.thrown = (eh { req with matches_ := m }
              (handler { req with matches_ := m }
                (pre_routing srv { req := req, res := res }).res).res).thrown
          ∧ st.handled = (eh { req with matches_ := m }
              (handler { req with matches_ := m }
                (pre_routing srv { req := req, res := res }).res).res).thrown.isNone
          ∧ (route_request regex_match fs srv req res).log.count Event.exception_handler = 1)
      ∧ (route_request regex_match fs srv req res).log.count Event.error_handler = 0
      ∧ (∀ f, (route_request regex_match fs srv req res).log.count (Event.static_file f)
          = 0) := by
  obtain ⟨st, heq, _, hnone, hsome⟩ := route_request_std_exception regex_match fs srv req
    res pre post pattern handler m what hlist hpre hm hhook hthrow
  have hcount : ∀ ev : Event, ev ≠ .post_routing_handler → ev ≠ .logger →
      (route_request regex_match fs srv req res).log.count ev
        = (st.log.filter (fun e => e == ev)).length := by
    intro ev h1 h2
    rw [count_eq_filter, heq, finish_filter_log _ (by simpa using Ne.symm h1)
      (by simpa using Ne.symm h2)]
  have hpre0 : ∀ ev : Event, ev ≠ .pre_routing_handler →
      (pre_routing srv { req := req, res := res }).log.filter (fun e => e == ev) = [] := by
    intro ev h1
    rw [pre_routing_filter_log _ (by simpa using Ne.symm h1)]
    rfl
  refine ⟨st, heq, ?_, ?_, ?_, ?_⟩
  · intro he
    obtain ⟨a1, a2, a3, a4⟩ := hnone he
    refine ⟨a1, a2, by rw [a3]; rfl, by rw [a3]; rfl, ?_, ?_⟩
    · rw [a3]
      exact multimap_emplace_mem _ _ _
    · rw [hcount _ (by simp) (by simp), a4, List.filter_append, hpre0 _ (by simp)]
      rfl
  · intro eh he
    obtain ⟨a1, a2, a3, a4⟩ := hsome eh he
    refine ⟨a1, a2, a3, ?_⟩
    rw [hcount _ (by simp) (by simp), a4, List.filter_append, hpre0 _ (by simp)]
    rfl
  · rw [hcount _ (by simp) (by simp)]
    cases he : srv.exception_handler_ with
    | none =>
      rw [(hnone he).2.2.2, List.filter_append, hpre0 _ (by simp)]
      rfl
    | some eh =>
      rw [(hsome eh he).2.2.2, List.filter_append, hpre0 _ (by simp)]
      rfl
  · intro f
    rw [hcount _ (by simp) (by simp)]
    cases he : srv.exception_handler_ with
    | none =>
      rw [(hnone he).2.2.2, List.filter_append, hpre0 _ (by simp)]
      rfl
    | some eh =>
      rw [(hsome eh he).2.2.2, List.filter_append, hpre0 _ (by simp)]
      rfl

/-- Witness of C6 as the code has it: on `faulty_server` GET `/fail`, whose
handler throws a `std::exception`, ends with nothing thrown, status 500 and
body `Internal Server Error`; on `recovering_server` the exception handler is
called once and its 503 is the response. -/
theorem handler_std_exception_becomes_response_witness :
    (∃ st : RouteState,
      route_request Regex.regex_match no_files faulty_server
          { method := "GET", path := "/fail" } {}
        = (st.andThen (post_routing faulty_server)).andThen (logging faulty_server)
      ∧ (faulty_server.exception_handler_ = none →
          st.thrown = none ∧ st.handled = true ∧ st.res.status = 500
          ∧ st.res.body = "Internal Server Error"
          ∧ ("Content-Type", "text/plain") ∈ st.res.headers
          ∧ (route_request Regex.regex_match no_files faulty_server
              { method := "GET", path := "/fail" } {}).log.count Event.exception_handler = 0))
    ∧ (route_request Regex.regex_match no_files faulty_server
        { method := "GET", path := "/fail" } {}).thrown = none
    ∧ (route_request Regex.regex_match no_files faulty_server
        { method := "GET", path := "/fail" } {}).res.status = 500
    ∧ (route_request Regex.regex_match no_files faulty_server
        { method := "GET", path := "/fail" } {}).res.body = "Internal Server Error"
    ∧ (route_request Regex.regex_match no_files recovering_server
        { method := "GET", path := "/fail" } {}).log
          = [Event.route_handler .get_handlers_ 0 ["/fail"], Event.exception_handler]
    ∧ (route_request Regex.regex_match no_files recovering_server
        { method := "GET", path := "/fail" } {}).res.status = 503 := by
  refine ⟨?_, by decide, by decide, by decide, by decide, by decide⟩
  obtain ⟨st, h1, h2, _⟩ := handler_std_exception_becomes_response Regex.regex_match
    no_files faulty_server { method := "GET", path := "/fail" } {} []
    [(Regex.lit "/crash".data, throwing_other_handler), (Regex.lit "/test".data, test_handler)]
    (Regex.lit "/fail".data) failing_handler ["/fail"] "boom"
    rfl (by decide) (by decide) (fun hook h => by cases h) rfl
  exact ⟨st, h1, h2⟩

/-- C8, counterexample. On `hooked_server` the pre-routing hook sets a whole
response (403, `blocked`) and returns; a `Handler` returns nothing, so it has no
way to say that routing is over. GET `/test` still goes through the route
lookup and gets the body of the route handler; GET `/missing` still goes to the
error block, which turns the response into `404 Not Found`. In neither case is
the hook's response the one that results. -/
theorem hook_response_is_routed_on :
    (route_request Regex.regex_match no_files hooked_server
        { method := "GET", path := "/test" } {}).log
      = [Event.pre_routing_handler, Event.route_handler .get_handlers_ 0 ["/test"]]
    ∧ (route_request Regex.regex_match no_files hooked_server
        { method := "GET", path := "/test" } {}).res.body = "Test OK"
    ∧ (blocking_hook { method := "GET", path := "/missing" } {}).res.status = 403
    ∧ (blocking_hook { method := "GET", path := "/missing" } {}).res.body = "blocked"
    ∧ (route_request Regex.regex_match no_files hooked_server
        { method := "GET", path := "/missing" } {}).res.status = 404
    ∧ (route_request Regex.regex_match no_files hooked_server
        { method := "GET", path := "/missing" } {}).res.body = "Not Found" := by
  decide

/-- C8, as the code has it. The pre-routing hook runs first and cannot end
routing: when it returns, `route_request` goes on exactly as a server without
the hook does on the response the hook left, with route lookup, static file
fallback, error handler, post-routing hook and logger. -/
theorem pre_routing_hook_cannot_short_circuit (regex_match : ρ → String → Option Match)
    (fs : String → Option String) (srv : Server ρ) (req : Request) (res : Response)
    (hook : Handler) (hset : srv.pre_routing_handler_ = some hook)
    (hret : (hook req res).thrown = none) :
    route_request regex_match fs srv req res
      = (route_request regex_match fs { srv with pre_routing_handler_ := none } req
          (hook req res).res).with_earlier [Event.pre_routing_handler] := by
  have hA : pre_routing srv { req := req, res := res }
      = ({ req := req, res := (hook req res).res } : RouteState).with_earlier
          [Event.pre_routing_handler] := by
    simp [pre_routing, hset, RouteState.call, RouteState.with_earlier, hret]
  have hB : pre_routing { srv with pre_routing_handler_ := none }
      { req := req, res := (hook req res).res }
      = { req := req, res := (hook req res).res } := rfl
  have hfind : find_matching_handler regex_match { srv with pre_routing_handler_ := none }
      = find_matching_handler regex_match srv := by
    funext st
    simp only [find_matching_handler]
    rw [find_loop_without_hook]
    cases get_handlers_for_method st.req.method <;> rfl
  have hfile : file_serving fs { srv with pre_routing_handler_ := none }
      = file_serving fs srv := rfl
  have herr : error_handling { srv with pre_routing_handler_ := none }
      = error_handling srv := rfl
  have hpost : post_routing { srv with pre_routing_handler_ := none }
      = post_routing srv := rfl
  have hlogg : logging { srv with pre_routing_handler_ := none } = logging srv := rfl
  unfold route_request
  rw [andThen_of_none (pre_routing srv) rfl, andThen_of_none (pre_routing _) rfl, hA, hB,
    hfind, hfile, herr, hpost, hlogg]
  rw [andThen_with_earlier _ _ (find_matching_handler_with_earlier regex_match srv _),
    andThen_with_earlier _ _ (file_serving_with_earlier fs srv _),
    andThen_with_earlier _ _ (error_handling_with_earlier srv _),
    andThen_with_earlier _ _ (post_routing_with_earlier srv _),
    andThen_with_earlier _ _ (logging_with_earlier srv _)]

/-- Witness of C8 as the code has it, on `hooked_server` and GET `/test`. -/
theorem pre_routing_hook_cannot_short_circuit_witness :
    route_request Regex.regex_match no_files hooked_server
        { method := "GET", path := "/test" } {}
      = (route_request Regex.regex_match no_files
          { hooked_server with pre_routing_handler_ := none }
          { method := "GET", path := "/test" }
          (blocking_hook { method := "GET", path := "/test" } {}).res).with_earlier
          [Event.pre_routing_handler] :=
  pre_routing_hook_cannot_short_circuit Regex.regex_match no_files hooked_server
    { method := "GET", path := "/test" } {} blocking_hook rfl rfl

end RoutingClaims

/-! ## The connection loop: auxiliary facts -/

section SessionFacts

variable {ρ : Type}

/-- One turn of the loop when the request converts, routing returns and the
response is written: the loop goes on with the rest of the input exactly when
the request asked for keep-alive. -/
theorem session_loop_written (regex_match : ρ → String → Option Match)
    (fs : String → Option String) (srv : Server ρ) (remote : Option (String × Int))
    (breq : BeastRequest) (rest : List Transport) (request : Request)
    (hconv : convert_request breq remote = .ok request)
    (hroute : (route_request regex_match fs srv request {}).thrown = none) :
    session_loop regex_match fs srv remote (.request breq none :: rest)
      = if breq.keep_alive then
          { reads := (session_loop regex_match fs srv remote rest).reads + 1,
            routed := route_request regex_match fs srv request {}
              :: (session_loop regex_match fs srv remote rest).routed,
            written := convert_response breq (route_request regex_match fs srv request {}).res
              :: (session_loop regex_match fs srv remote rest).written,
            ending := (session_loop regex_match fs srv remote rest).ending }
        else
          { reads := 1,
            routed := [route_request regex_match fs srv request {}],
            written := [convert_response breq (route_request regex_match fs srv request {}).res],
            ending := .shutdown_send } := by
  rw [session_loop]
  simp only [hconv, hroute]
  cases breq.keep_alive <;> rfl

/-- Every response written is made from the response of a routed request: its
status, its headers and its body field. -/
theorem session_loop_written_from_routed (regex_match : ρ → String → Option Match)
    (fs : String → Option String) (srv : Server ρ) (remote : Option (String × Int)) :
    ∀ (incoming : List Transport) (w : BeastResponse),
      w ∈ (session_loop regex_match fs srv remote incoming).written →
      ∃ st ∈ (session_loop regex_match fs srv remote incoming).routed,
        w.body = st.res.body ∧ w.fields = st.res.headers ∧ w.result = st.res.status := by
  intro incoming
  induction incoming with
  | nil =>
    intro w hw
    simp [session_loop] at hw
  | cons t rest ih =>
    intro w hw
    cases t with
    | end_of_stream => simp [session_loop] at hw
    | read_error what => simp [session_loop] at hw
    | request breq write_fails =>
      rw [session_loop] at hw ⊢
      cases hconv : convert_request breq remote with
      | error e =>
        rw [hconv] at hw
        cases e <;> simp at hw
      | ok request =>
        rw [hconv] at hw
        simp only at hw ⊢
        cases hroute : (route_request regex_match fs srv request {}).thrown with
        | some t =>
          rw [hroute] at hw
          cases t <;> simp at hw
        | none =>
          rw [hroute] at hw
          simp only at hw ⊢
          cases write_fails with
          | some what => simp at hw
          | none =>
            simp only at hw ⊢
            cases hka : breq.keep_alive with
            | false =>
              rw [hka] at hw
              simp only [Bool.not_false, if_true, List.mem_singleton] at hw
              simp only [Bool.not_false, if_true, List.mem_singleton, exists_eq_left]
              rw [hw]
              exact ⟨rfl, rfl, rfl⟩
            | true =>
              rw [hka] at hw
              simp only [Bool.not_true, Bool.false_eq_true, if_false, List.mem_cons] at hw
              simp only [Bool.not_true, Bool.false_eq_true, if_false, List.mem_cons,
                exists_eq_or_imp]
              rcases hw with hw | hw
              · left
                rw [hw]
                exact ⟨rfl, rfl, rfl⟩
              · right
                exact ih w hw

end SessionFacts

/-! ## The connection loop: the claims -/

section SessionClaims

variable {ρ : Type}

/-- C7, counterexample. On a keep-alive connection that carries GET `/crash`
and then GET `/test`, the handler of `/crash` throws an object that is no
`std::exception`; no `catch` clause of `route_request` or `handle_session` takes
it: no response is written for the first request, the second request is never
read, and the thread function is left by the exception. -/
theorem non_std_failure_ends_connection :
    (handle_session Regex.regex_match no_files faulty_server
        { incoming := [.request { target := "/crash" } none,
                       .request { target := "/test" } none] }).written = []
    ∧ (handle_session Regex.regex_match no_files faulty_server
        { incoming := [.request { target := "/crash" } none,
                       .request { target := "/test" } none] }).reads = 1
    ∧ (handle_session Regex.regex_match no_files faulty_server
        { incoming := [.request { target := "/crash" } none,
                       .request { target := "/test" } none] }).ending = .terminate := by
  decide

/-- C7, as the code has it. A `std::exception` thrown by a route handler does
not end the connection. For a keep-alive request whose matched handler throws
an object derived from `std::exception`, when nothing else fails (the hooks,
the exception handler and the logger return, the response can be written),
`route_request` returns, `handle_session` writes the response made from its
result, and then goes on with the rest of the connection as it would from the
start: it reads the next request and serves it. -/
theorem std_failure_keeps_connection (regex_match : ρ → String → Option Match)
    (fs : String → Option String) (srv : Server ρ) (remote : Option (String × Int))
    (breq : BeastRequest) (rest : List Transport) (request : Request)
    (pre post : List (ρ × Handler)) (pattern : ρ) (handler : Handler) (m : Match)
    (what : String)
    (hka : breq.keep_alive = true)
    (hconv : convert_request breq remote = .ok request)
    (hlist : srv.handlers (get_handlers_for_method request.method)
      = pre ++ (pattern, handler) :: post)
    (hpre : ∀ e ∈ pre, regex_match e.1 request.path = none)
    (hm : regex_match pattern request.path = some m)
    (hhook : ∀ hook, srv.pre_routing_handler_ = some hook → (hook request {}).thrown = none)
    (hthrow : (handler { request with matches_ := m }
        (pre_routing srv { req := request, res := {} }).res).thrown
      = some (.std_exception what))
    (hexc : ∀ eh, srv.exception_handler_ = some eh → ∀ q r, (eh q r).thrown = none)
    (hpost : ∀ ph, srv.post_routing_handler_ = some ph → ∀ q r, (ph q r).thrown = none)
    (hlog : ∀ l, srv.logger_ = some l → ∀ q r, l q r = none) :
    (route_request regex_match fs srv request {}).thrown = none
    ∧ session_loop regex_match fs srv remote (.request breq none :: rest)
      = { reads := (session_loop regex_match fs srv remote rest).reads + 1,
          routed := route_request regex_match fs srv request {}
            :: (session_loop regex_match fs srv remote rest).routed,
          written := convert_response breq (route_request regex_match fs srv request {}).res
            :: (session_loop regex_match fs srv remote rest).written,
          ending := (session_loop regex_match fs srv remote rest).ending } := by
  obtain ⟨st, heq, _, hnone, hsome⟩ := route_request_std_exception regex_match fs srv
    request {} pre post pattern handler m what hlist hpre hm hhook hthrow
  have hst : st.thrown = none := by
    cases he : srv.exception_handler_ with
    | none => exact (hnone he).1
    | some eh =>
      rw [(hsome eh he).2.1]
      exact hexc eh he _ _
  have hroute : (route_request regex_match fs srv request {}).thrown = none := by
    rw [heq]
    exact finish_thrown_none srv st hst hpost hlog
  refine ⟨hroute, ?_⟩
  rw [session_loop_written regex_match fs srv remote breq rest request hconv hroute, hka]
  rfl

/-- Witness of C7 as the code has it: on `faulty_server`, a keep-alive
connection carries GET `/fail`, whose handler throws a `std::exception`, and
then GET `/test`; both are read, the answers are 500 and 200 in that order, and
the loop ends only when the peer closes. -/
theorem std_failure_keeps_connection_witness :
    ((route_request Regex.regex_match no_files faulty_server
        { method := "GET", path := "/fail", version := "HTTP/1.1" } {}).thrown = none
      ∧ session_loop Regex.regex_match no_files faulty_server none
          [.request { target := "/fail" } none, .request { target := "/test" } none]
        = { reads := (session_loop Regex.regex_match no_files faulty_server none
              [.request { target := "/test" } none]).reads + 1,
            routed := route_request Regex.regex_match no_files faulty_server
                { method := "GET", path := "/fail", version := "HTTP/1.1" } {}
              :: (session_loop Regex.regex_match no_files faulty_server none
                [.request { target := "/test" } none]).routed,
            written := convert_response { target := "/fail" }
                (route_request Regex.regex_match no_files faulty_server
                  { method := "GET", path := "/fail", version := "HTTP/1.1" } {}).res
              :: (session_loop Regex.regex_match no_files faulty_server none
                [.request { target := "/test" } none]).written,
            ending := (session_loop Regex.regex_match no_files faulty_server none
              [.request { target := "/test" } none]).ending })
    ∧ (handle_session Regex.regex_match no_files faulty_server
        { incoming := [.request { target := "/fail" } none,
                       .request { target := "/test" } none] }).written.map
          (fun w => (w.result, w.body))
        = [(500, "Internal Server Error"), (200, "Test OK")]
    ∧ (handle_session Regex.regex_match no_files faulty_server
        { incoming := [.request { target := "/fail" } none,
                       .request { target := "/test" } none] }).reads = 3
    ∧ (handle_session Regex.regex_match no_files faulty_server
        { incoming := [.request { target := "/fail" } none,
                       .request { target := "/test" } none] }).ending = .end_of_stream :=
  ⟨std_failure_keeps_connection Regex.regex_match no_files faulty_server none
      { target := "/fail" } [.request { target := "/test" } none]
      { method := "GET", path := "/fail", version := "HTTP/1.1" } []
      [(Regex.lit "/crash".data, throwing_other_handler),
       (Regex.lit "/test".data, test_handler)]
      (Regex.lit "/fail".data) failing_handler ["/fail"] "boom"
      rfl (by decide) rfl (by decide) (by decide) (fun hook h => by cases h) rfl
      (fun eh h => by cases h) (fun ph h => by cases h) (fun l h => by cases h),
    by decide, by decide, by decide⟩

/-- C9, counterexample. On `closing_server` the handler sets `Connection: close`
on the response to a keep-alive request. The loop does not look at the
response: it reads the second request on the same connection and serves it,
and ends only when the peer closes, without shutting the stream down. -/
theorem handler_close_is_not_honoured :
    (handle_session Regex.regex_match no_files closing_server
        { incoming := [.request { target := "/bye" } none,
                       .request { target := "/bye" } none] }).written.map
          (fun w => (w.fields, w.body))
        = [([("Connection", "close"), ("Content-Type", "text/plain")], "bye"),
           ([("Connection", "close"), ("Content-Type", "text/plain")], "bye")]
    ∧ (handle_session Regex.regex_match no_files closing_server
        { incoming := [.request { target := "/bye" } none,
                       .request { target := "/bye" } none] }).reads = 3
    ∧ (handle_session Regex.regex_match no_files closing_server
        { incoming := [.request { target := "/bye" } none,
                       .request { target := "/bye" } none] }).ending = .end_of_stream := by
  decide

/-- C9, as the code has it. After writing a response (the request was converted,
routing returned, the write did not fail), the loop reads a further request on
the same connection if and only if the request asked for keep-alive
(`req.keep_alive()`); what the handler put on the response plays no part.
Otherwise it leaves the loop and shuts the stream down for writing. -/
theorem keep_alive_follows_request_only (regex_match : ρ → String → Option Match)
    (fs : String → Option String) (srv : Server ρ) (remote : Option (String × Int))
    (breq : BeastRequest) (rest : List Transport) (request : Request)
    (hconv : convert_request breq remote = .ok request)
    (hroute : (route_request regex_match fs srv request {}).thrown = none) :
    (breq.keep_alive = true →
      (session_loop regex_match fs srv remote (.request breq none :: rest)).reads
          = (session_loop regex_match fs srv remote rest).reads + 1
      ∧ (session_loop regex_match fs srv remote (.request breq none :: rest)).written
          = convert_response breq (route_request regex_match fs srv request {}).res
            :: (session_loop regex_match fs srv remote rest).written
      ∧ (session_loop regex_match fs srv remote (.request breq none :: rest)).routed
          = route_request regex_match fs srv request {}
            :: (session_loop regex_match fs srv remote rest).routed
      ∧ (session_loop regex_match fs srv remote (.request breq none :: rest)).ending
          = (session_loop regex_match fs srv remote rest).ending)
    ∧ (breq.keep_alive = false →
      (session_loop regex_match fs srv remote (.request breq none :: rest)).reads = 1
      ∧ (session_loop regex_match fs srv remote (.request breq none :: rest)).written
          = [convert_response breq (route_request regex_match fs srv request {}).res]
      ∧ (session_loop regex_match fs srv remote (.request breq none :: rest)).ending
          = .shutdown_send) := by
  rw [session_loop_written regex_match fs srv remote breq rest request hconv hroute]
  refine ⟨?_, ?_⟩
  · intro hka
    rw [hka]
    exact ⟨rfl, rfl, rfl, rfl⟩
  · intro hka
    rw [hka]
    exact ⟨rfl, rfl, rfl⟩

/-- Witness of C9 as the code has it: on `closing_server`, a request without
keep-alive is answered and the loop ends with the shutdown, although a second
request is waiting; with keep-alive the second request is read. -/
theorem keep_alive_follows_request_only_witness :
    ((session_loop Regex.regex_match no_files closing_server none
        [.request { target := "/bye", keep_alive := false } none,
         .request { target := "/bye" } none]).reads = 1
      ∧ (session_loop Regex.regex_match no_files closing_server none
        [.request { target := "/bye", keep_alive := false } none,
         .request { target := "/bye" } none]).written
          = [convert_response { target := "/bye", keep_alive := false }
              (route_request Regex.regex_match no_files closing_server
                { method := "GET", path := "/bye", version := "HTTP/1.1" } {}).res]
      ∧ (session_loop Regex.regex_match no_files closing_server none
        [.request { target := "/bye", keep_alive := false } none,
         .request { target := "/bye" } none]).ending = .shutdown_send)
    ∧ (session_loop Regex.regex_match no_files closing_server none
        [.request { target := "/bye" } none,
         .request { target := "/bye", keep_alive := false } none]).reads = 2 :=
  ⟨(keep_alive_follows_request_only Regex.regex_match no_files closing_server none
      { target := "/bye", keep_alive := false } [.request { target := "/bye" } none]
      { method := "GET", path := "/bye", version := "HTTP/1.1" } (by decide)
      (by decide)).2 rfl,
    by decide⟩

/-- C10, counterexample. On `streaming_server` the handler installs a content
source that produces `hello` (the body the specification describes is `hello`)
and sets no body. `handle_session` never calls the source: the body it writes
is the empty body field. -/
theorem content_provider_is_not_drained :
    (handle_session Regex.regex_match no_files streaming_server
        { incoming := [.request { target := "/stream" } none] }).routed.map
          (fun st => (st.res.content_provider.isSome, st.res.content_length))
        = [(true, 5)]
    ∧ spec_drained_body hello_provider 5 8 0 = "hello"
    ∧ (handle_session Regex.regex_match no_files streaming_server
        { incoming := [.request { target := "/stream" } none] }).written.map
          (fun w => w.body)
        = [""] := by
  decide

/-- C10, as the code has it. The content source a handler installs with
`set_content_provider` is stored and never called: every response
`handle_session` writes takes its status, headers and body from the fields of
the routed `Response`, and the response made from a `Response` on which a
source was installed is the one made from it with only the `Content-Type` entry
added; its body is the body field as it was. -/
theorem written_body_is_body_field :
    (∀ (regex_match : ρ → String → Option Match) (fs : String → Option String)
        (srv : Server ρ) (socket : Socket) (w : BeastResponse),
        w ∈ (handle_session regex_match fs srv socket).written →
        ∃ st ∈ (handle_session regex_match fs srv socket).routed,
          w.body = st.res.body ∧ w.fields = st.res.headers ∧ w.result = st.res.status)
    ∧ (∀ (req : BeastRequest) (response : Response) (length : Nat) (content_type : String)
        (provider : ContentProvider),
        convert_response req (response.set_content_provider length content_type provider)
          = convert_response req (response.set_header "Content-Type" content_type)
        ∧ (convert_response req
            (response.set_content_provider length content_type provider)).body
          = response.body) := by
  refine ⟨?_, ?_⟩
  · intro regex_match fs srv socket w hw
    exact session_loop_written_from_routed regex_match fs srv _ _ w hw
  · intro req response length content_type provider
    exact ⟨rfl, rfl⟩

end SessionClaims

/-! ## Query strings: auxiliary facts -/

section QueryFacts

/-- The characters `hex_digit` accepts, with their values. -/
theorem hex_digit_cases (c : Char) (n : Nat) (h : hex_digit c = some n) :
    (48 ≤ c.toNat ∧ c.toNat ≤ 57 ∧ n = c.toNat - 48)
      ∨ (97 ≤ c.toNat ∧ c.toNat ≤ 102 ∧ n = c.toNat - 87)
      ∨ (65 ≤ c.toNat ∧ c.toNat ≤ 70 ∧ n = c.toNat - 55) := by
  unfold hex_digit at h
  have e1 : '0'.toNat = 48 := rfl
  have e2 : '9'.toNat = 57 := rfl
  have e3 : 'a'.toNat = 97 := rfl
  have e4 : 'f'.toNat = 102 := rfl
  have e5 : 'A'.toNat = 65 := rfl
  have e6 : 'F'.toNat = 70 := rfl
  rw [e1, e2, e3, e4, e5, e6] at h
  split at h
  · injection h with h
    omega
  · split at h
    · injection h with h
      omega
    · split at h
      · injection h with h
        omega
      · cases h

theorem hex_digit_not_space (c : Char) (n : Nat) (h : hex_digit c = some n) :
    isspace c = false := by
  have hc := hex_digit_cases c n h
  unfold isspace
  have h32 : c = ' ' → c.toNat = 32 := fun h => by rw [h]; rfl
  by_cases hs : c = ' '
  · have := h32 hs
    omega
  · simp only [hs, decide_False, Bool.false_or, Bool.and_eq_false_imp, decide_eq_true_eq,
      decide_eq_false_iff_not]
    omega

/-- The call `std::stoi(hex, nullptr, 16)` on two hexadecimal digits. -/
theorem stoi_two_hex (x1 x2 : Char) (h1 h2 : Nat) (hx1 : hex_digit x1 = some h1)
    (hx2 : hex_digit x2 = some h2) : stoi [x1, x2] = .ok ((16 * h1 + h2 : Nat) : Int) := by
  have hs := hex_digit_not_space x1 h1 hx1
  have hc1 := hex_digit_cases x1 h1 hx1
  have hc2 := hex_digit_cases x2 h2 hx2
  have hm : x1 ≠ '-' := fun h => by
    have : x1.toNat = 45 := by rw [h]; rfl
    omega
  have hp : x1 ≠ '+' := fun h => by
    have : x1.toNat = 43 := by rw [h]; rfl
    omega
  unfold stoi
  simp only [List.dropWhile, hs]
  have hsign : (match x1 :: [x2] with
      | '-' :: r => (true, r)
      | '+' :: r => (false, r)
      | _ => (false, x1 :: [x2])) = (false, [x1, x2]) := by
    split
    · rename_i h
      injection h with h _
      exact absurd h hm
    · rename_i h
      injection h with h _
      exact absurd h hp
    · rfl
  simp only [hsign, strtol_digits, hx1, hx2]
  have hval : (0 * 16 + h1) * 16 + h2 = 16 * h1 + h2 := by omega
  simp only [Bool.false_eq_true, if_false, hval]
  rw [if_pos (by constructor <;> omega)]

/-- The decoder at an escape `%XX` with two hexadecimal digits. -/
theorem parse_query_loop_escape (x1 x2 : Char) (h1 h2 : Nat) (hx1 : hex_digit x1 = some h1)
    (hx2 : hex_digit x2 = some h2) (rest : List Char) (in_val : Bool) (key val : List Char)
    (params : Params) :
    parse_query_loop ('%' :: x1 :: x2 :: rest) in_val key val params
      = parse_query_loop rest in_val
          (if in_val then key else key ++ [Char.ofNat (16 * h1 + h2)])
          (if in_val then val ++ [Char.ofNat (16 * h1 + h2)] else val) params := by
  have hc1 := hex_digit_cases x1 h1 hx1
  have hc2 := hex_digit_cases x2 h2 hx2
  have hchar : int_to_char ((16 * h1 + h2 : Nat) : Int) = Char.ofNat (16 * h1 + h2) := by
    unfold int_to_char
    congr 1
    omega
  rw [parse_query_loop, stoi_two_hex x1 x2 h1 h2 hx1 hx2]
  cases in_val <;> simp only [Bool.false_eq_true, if_false, if_true, hchar]

/-- The decoder at `+`. -/
theorem parse_query_loop_plus (rest : List Char) (in_val : Bool) (key val : List Char)
    (params : Params) :
    parse_query_loop ('+' :: rest) in_val key val params
      = parse_query_loop rest in_val (if in_val then key else key ++ [' '])
          (if in_val then val ++ [' '] else val) params := by
  cases in_val <;> simp [parse_query_loop]

/-- The decoder at a character that is no `%`, no `+` and no separator. -/
theorem parse_query_loop_copy (c : Char) (rest : List Char) (in_val : Bool)
    (key val : List Char) (params : Params)
    (h1 : c ≠ '%') (h2 : c ≠ '+') (h3 : c ≠ '&') (h4 : c = '=' → in_val = true) :
    parse_query_loop (c :: rest) in_val key val params
      = parse_query_loop rest in_val (if in_val then key else key ++ [c])
          (if in_val then val ++ [c] else val) params := by
  rw [parse_query_loop]
  · cases in_val <;> simp [h2, h3]
    intro h
    exact absurd (h4 h) (by simp)
  · intro a b r h
    exact absurd h h1

/-- The decoder at a `%` with fewer than two characters after it. -/
theorem parse_query_loop_percent_short (rest : List Char) (in_val : Bool)
    (key val : List Char) (params : Params) (hshort : rest.length < 2) :
    parse_query_loop ('%' :: rest) in_val key val params
      = parse_query_loop rest in_val (if in_val then key else key ++ ['%'])
          (if in_val then val ++ ['%'] else val) params := by
  rw [parse_query_loop]
  · cases in_val <;> simp
  · intro a b r _ h
    rw [h] at hshort
    simp at hshort
    omega

/-- The decoder at `&`: the pair is stored and a new one begins. -/
theorem parse_query_loop_amp (rest : List Char) (in_val : Bool) (key val : List Char)
    (params : Params) :
    parse_query_loop ('&' :: rest) in_val key val params
      = parse_query_loop rest false [] [] (emplace_param params key val) := by
  simp [parse_query_loop]

/-- The decoder at the `=` that ends a key. -/
theorem parse_query_loop_eq (rest : List Char) (key val : List Char) (params : Params) :
    parse_query_loop ('=' :: rest) false key val params
      = parse_query_loop rest true key val params := by
  simp [parse_query_loop]

/-- The key loop over characters that are neither escapes nor separators. -/
theorem parse_query_loop_key_scan (ks : List Char)
    (hks : ∀ c ∈ ks, c ≠ '&' ∧ c ≠ '=' ∧ c ≠ '+' ∧ c ≠ '%') :
    ∀ (rest key val : List Char) (params : Params),
      parse_query_loop (ks ++ rest) false key val params
        = parse_query_loop rest false (key ++ ks) val params := by
  induction ks with
  | nil =>
    intro rest key val params
    simp
  | cons c ks ih =>
    intro rest key val params
    obtain ⟨h1, h2, h3, h4⟩ := hks c (List.mem_cons_self _ _)
    rw [List.cons_append, parse_query_loop_copy c _ false key val params h4 h3 h1
      (fun h => absurd h h2)]
    simp only [Bool.false_eq_true, if_false]
    rw [ih (fun x hx => hks x (List.mem_cons_of_mem _ hx))]
    simp

/-- The value loop over characters that are neither escapes nor `&`. -/
theorem parse_query_loop_val_scan (vs : List Char)
    (hvs : ∀ c ∈ vs, c ≠ '&' ∧ c ≠ '+' ∧ c ≠ '%') :
    ∀ (rest key val : List Char) (params : Params),
      parse_query_loop (vs ++ rest) true key val params
        = parse_query_loop rest true key (val ++ vs) params := by
  induction vs with
  | nil =>
    intro rest key val params
    simp
  | cons c vs ih =>
    intro rest key val params
    obtain ⟨h1, h3, h4⟩ := hvs c (List.mem_cons_self _ _)
    rw [List.cons_append, parse_query_loop_copy c _ true key val params h4 h3 h1
      (fun _ => rfl)]
    simp only [if_true]
    rw [ih (fun x hx => hvs x (List.mem_cons_of_mem _ hx))]
    simp

/-- An entry whose key is not below any key of the multimap goes to its end. -/
theorem multimap_emplace_last (m : List (String × String)) (key val : String)
    (h : ∀ e ∈ m, str_less key.data e.1.data = false) :
    multimap_emplace m key val = m ++ [(key, val)] := by
  induction m with
  | nil => rfl
  | cons e rest ih =>
    unfold multimap_emplace
    rw [h e (List.mem_cons_self _ _)]
    simp only [Bool.false_eq_true, if_false, List.cons_append]
    rw [ih (fun x hx => h x (List.mem_cons_of_mem _ hx))]

/-- What the loop of `Client::Post(path, params)` writes: the pairs joined by
`&`, after a `&` when it is not at its first entry. -/
theorem form_body_loop_eq (params : Params) :
    ∀ (p : String × String) (ss : List Char),
      form_body_loop (p :: params) true ss = ss ++ plain_form_body (p :: params)
      ∧ form_body_loop (p :: params) false ss
          = ss ++ ['&'] ++ plain_form_body (p :: params) := by
  induction params with
  | nil =>
    intro p ss
    simp [form_body_loop, plain_form_body]
  | cons q rest ih =>
    intro p ss
    have e1 : ∀ (first : Bool) (ss : List Char),
        form_body_loop (p :: q :: rest) first ss
          = form_body_loop (q :: rest) false
              ((if first then ss else ss ++ ['&']) ++ p.1.data ++ ['='] ++ p.2.data) :=
      fun _ _ => rfl
    rw [e1, e1, (ih q _).2, (ih q _).2]
    simp [plain_form_body, List.append_assoc]

/-- The text of the form body is the pairs joined by `&`, written as they are. -/
theorem form_body_eq_plain (params : Params) :
    (form_body params).data = plain_form_body params := by
  cases params with
  | nil => rfl
  | cons p rest =>
    unfold form_body
    rw [(form_body_loop_eq rest p []).1]
    simp

/-- Decoding the plain form body of entries that hold no character the decoder
treats specially, on top of entries `done` that come before them in key order:
the entries are added one by one at the end. -/
theorem parse_plain_form_body (params : Params) :
    ∀ (done : Params),
      (∀ p ∈ params, p.1.data ≠ []
        ∧ (∀ c ∈ p.1.data, c ≠ '&' ∧ c ≠ '=' ∧ c ≠ '+' ∧ c ≠ '%')
        ∧ (∀ c ∈ p.2.data, c ≠ '&' ∧ c ≠ '+' ∧ c ≠ '%')) →
      multimap_ordered (done ++ params) →
      parse_query_loop (plain_form_body params) false [] [] done = .ok (done ++ params) := by
  induction params with
  | nil =>
    intro done _ _
    simp [plain_form_body, parse_query_loop, emplace_param]
  | cons p rest ih =>
    intro done hclean hord
    obtain ⟨hk0, hk, hv⟩ := hclean p (List.mem_cons_self _ _)
    have hlast : multimap_emplace done p.1 p.2 = done ++ [p] := by
      rw [multimap_emplace_last done p.1 p.2]
      intro e he
      have := List.pairwise_append.mp hord
      exact this.2.2 e he p (List.mem_cons_self _ _)
    have hstore : emplace_param done p.1.data p.2.data = done ++ [p] := by
      unfold emplace_param
      have : p.1.data.isEmpty = false := by
        cases hd : p.1.data with
        | nil => exact absurd hd hk0
        | cons a b => rfl
      rw [this]
      exact hlast
    cases rest with
    | nil =>
      simp only [plain_form_body, List.append_assoc]
      rw [parse_query_loop_key_scan p.1.data hk, List.singleton_append,
        parse_query_loop_eq]
      have := parse_query_loop_val_scan p.2.data hv [] ([] ++ p.1.data) [] done
      rw [List.append_nil] at this
      rw [this]
      simp only [parse_query_loop, List.nil_append, hstore]
    | cons q rest =>
      simp only [plain_form_body, List.append_assoc]
      rw [parse_query_loop_key_scan p.1.data hk, List.singleton_append,
        parse_query_loop_eq, parse_query_loop_val_scan p.2.data hv, List.singleton_append,
        parse_query_loop_amp]
      simp only [List.nil_append, hstore]
      rw [ih (done ++ [p]) (fun x hx => hclean x (List.mem_cons_of_mem _ hx))
        (by simpa [List.append_assoc] using hord)]
      simp

/-- Percent-encoding leaves a text of alphanumeric bytes as it is. -/
theorem spec_percent_encode_alnum (s : String) (h : ∀ c ∈ s.data, isalnum c = true) :
    spec_percent_encode s = s.data := by
  unfold spec_percent_encode
  generalize s.data = l at h
  induction l with
  | nil => rfl
  | cons c cs ih =>
    simp only [List.flatMap_cons, spec_percent_encode_char, h c (List.mem_cons_self _ _),
      if_true, List.singleton_append]
    rw [ih (fun x hx => h x (List.mem_cons_of_mem _ hx))]

/-- On keys and values of alphanumeric bytes the plain form body is the
percent-encoded one. -/
theorem plain_form_body_alnum (params : Params)
    (h : ∀ p ∈ params, (∀ c ∈ p.1.data, isalnum c = true) ∧ (∀ c ∈ p.2.data, isalnum c = true)) :
    plain_form_body params = spec_form_body params := by
  induction params with
  | nil => rfl
  | cons p rest ih =>
    obtain ⟨h1, h2⟩ := h p (List.mem_cons_self _ _)
    cases rest with
    | nil =>
      simp only [plain_form_body, spec_form_body, spec_percent_encode_alnum _ h1,
        spec_percent_encode_alnum _ h2]
    | cons q rest =>
      simp only [plain_form_body, spec_form_body, spec_percent_encode_alnum _ h1,
        spec_percent_encode_alnum _ h2]
      rw [ih (fun x hx => h x (List.mem_cons_of_mem _ hx))]

/-- The first three network calls of `Client::Post(path, params)` when the
host resolves and the connection is made: the third hands the request to
`http::write`. -/
theorem post_params_events (cli : Client) (path : String) (params : Params) (net : Exchange)
    (hresolve : net.resolve_fails = none) (hconnect : net.connect_fails = none) :
    (cli.Post_params path params net).events.take 3
      = [NetEvent.resolve cli.host_ (toString cli.port_), NetEvent.connect,
         NetEvent.write
           { method := "POST", target := path, version := 11,
             fields := [("Host", cli.host_), ("User-Agent", "httplib/0.1.0"),
                        ("Content-Type", "application/x-www-form-urlencoded")],
             body := form_body params,
             payload_prepared := !(form_body params).isEmpty }] := by
  have hverb : string_to_verb "POST" = some "POST" := by decide
  simp only [Client.Post_params, Client.Post, Client.send_request, hresolve, hconnect, hverb]
  cases net.write_fails with
  | some w => rfl
  | none =>
    cases net.read with
    | error e => rfl
    | ok res =>
      cases net.shutdown_fails with
      | some w => rfl
      | none => rfl

end QueryFacts

/-! ## Query strings and form bodies: the claims -/

section QueryClaims

/-- C11, counterexample. A multimap whose value holds a `+` does not come back:
`Client::Post(path, params)` writes the pair as it is, `a=1+1`, and
`parse_query_text` decodes the `+` to a space. A value that holds `&` is split
into two entries. -/
theorem round_trip_loses_special_characters :
    form_body [("a", "1+1")] = "a=1+1"
    ∧ parse_query_text (form_body [("a", "1+1")]) [] = .ok [("a", "1 1")]
    ∧ form_body [("q", "a&b")] = "q=a&b"
    ∧ parse_query_text (form_body [("q", "a&b")]) [] = .ok [("b", ""), ("q", "a")] := by
  decide

/-- C11, as the code has it. Query-string round trip: for every multimap whose
keys are not empty and hold none of `&`, `=`, `+`, `%`, and whose values hold
none of `&`, `+`, `%`, the query string `Client::Post(path, params)` builds
(the pairs `key=value` joined by `&`, nothing encoded) is decoded by
`parse_query_text` to the identical multimap. -/
theorem query_round_trip_of_plain_entries (params : Params)
    (hord : multimap_ordered params)
    (hclean : ∀ p ∈ params, p.1 ≠ ""
      ∧ (∀ c ∈ p.1.data, c ≠ '&' ∧ c ≠ '=' ∧ c ≠ '+' ∧ c ≠ '%')
      ∧ (∀ c ∈ p.2.data, c ≠ '&' ∧ c ≠ '+' ∧ c ≠ '%')) :
    parse_query_text (form_body params) [] = .ok params := by
  unfold parse_query_text
  rw [form_body_eq_plain]
  have h := parse_plain_form_body params []
    (fun p hp => ⟨fun hd => (hclean p hp).1 (by
        cases hk : p.1 with
        | mk d =>
          rw [hk] at hd
          simp only at hd
          rw [hd]),
      (hclean p hp).2.1, (hclean p hp).2.2⟩)
    (by simpa using hord)
  simpa using h

/-- Witness of C11 as the code has it: the multimap made by inserting
`name=Alice` and then `city=Wonderland` is encoded as
`city=Wonderland&name=Alice` and decoded to itself. -/
theorem query_round_trip_of_plain_entries_witness :
    multimap_emplace (multimap_emplace [] "name" "Alice") "city" "Wonderland"
      = [("city", "Wonderland"), ("name", "Alice")]
    ∧ form_body [("city", "Wonderland"), ("name", "Alice")] = "city=Wonderland&name=Alice"
    ∧ parse_query_text (form_body [("city", "Wonderland"), ("name", "Alice")]) []
      = .ok [("city", "Wonderland"), ("name", "Alice")] :=
  ⟨by decide, by decide,
    query_round_trip_of_plain_entries [("city", "Wonderland"), ("name", "Alice")]
      (by unfold multimap_ordered; decide) (by decide)⟩

/-- C12. The decoding rules of `parse_query_text`, at whatever point of a key
(`in_val` false) or of a value (`in_val` true) the decoder stands: for every
byte value `b`, an escape `%XX` whose two hexadecimal digits, upper or lower
case, write `b` is decoded to the one byte `b`; `+` is decoded to a space;
every other character that is neither `&` nor the `=` that ends a key is copied
unchanged, a `%` included when fewer than two characters follow it. Seen from
`parse_query_text`: `k=%XX` gives the value `b` and `%XX=v` the key `b`. -/
theorem query_decoding_rules :
    (∀ (b : Nat) (x1 x2 : Char), b < 256 →
        hex_digit x1 = some (b / 16) → hex_digit x2 = some (b % 16) →
        ∀ (rest : List Char) (in_val : Bool) (key val : List Char) (params : Params),
          parse_query_loop ('%' :: x1 :: x2 :: rest) in_val key val params
            = parse_query_loop rest in_val (if in_val then key else key ++ [Char.ofNat b])
                (if in_val then val ++ [Char.ofNat b] else val) params)
    ∧ (∀ (rest : List Char) (in_val : Bool) (key val : List Char) (params : Params),
          parse_query_loop ('+' :: rest) in_val key val params
            = parse_query_loop rest in_val (if in_val then key else key ++ [' '])
                (if in_val then val ++ [' '] else val) params)
    ∧ (∀ (c : Char) (rest : List Char) (in_val : Bool) (key val : List Char)
          (params : Params),
          c ≠ '%' → c ≠ '+' → c ≠ '&' → (c = '=' → in_val = true) →
          parse_query_loop (c :: rest) in_val key val params
            = parse_query_loop rest in_val (if in_val then key else key ++ [c])
                (if in_val then val ++ [c] else val) params)
    ∧ (∀ (rest : List Char) (in_val : Bool) (key val : List Char) (params : Params),
          rest.length < 2 →
          parse_query_loop ('%' :: rest) in_val key val params
            = parse_query_loop rest in_val (if in_val then key else key ++ ['%'])
                (if in_val then val ++ ['%'] else val) params)
    ∧ (∀ (b : Nat) (x1 x2 : Char), b < 256 →
        hex_digit x1 = some (b / 16) → hex_digit x2 = some (b % 16) →
        parse_query_text (String.mk ['k', '=', '%', x1, x2]) []
            = .ok [("k", String.mk [Char.ofNat b])]
        ∧ parse_query_text (String.mk ['%', x1, x2, '=', 'v']) []
            = .ok [(String.mk [Char.ofNat b], "v")]) := by
  have hbyte : ∀ b : Nat, 16 * (b / 16) + b % 16 = b := fun b => by omega
  refine ⟨?_, parse_query_loop_plus, parse_query_loop_copy, parse_query_loop_percent_short, ?_⟩
  · intro b x1 x2 _ hx1 hx2 rest in_val key val params
    rw [parse_query_loop_escape x1 x2 _ _ hx1 hx2, hbyte]
  · intro b x1 x2 _ hx1 hx2
    refine ⟨?_, ?_⟩
    · unfold parse_query_text
      rw [parse_query_loop_copy 'k' _ false _ _ _ (by decide) (by decide) (by decide)
        (by decide), parse_query_loop_eq, parse_query_loop_escape x1 x2 _ _ hx1 hx2, hbyte]
      simp [parse_query_loop, emplace_param, multimap_emplace]
    · unfold parse_query_text
      rw [parse_query_loop_escape x1 x2 _ _ hx1 hx2, hbyte, parse_query_loop_eq,
        parse_query_loop_copy 'v' _ true _ _ _ (by decide) (by decide) (by decide)
        (fun _ => rfl)]
      simp [parse_query_loop, emplace_param, multimap_emplace]

/-- Witness of C12: `%4a` and `%4A` are both the byte 74 (`J`), `%ff` is the
byte 255; in `a+b=%41+x=y%2` the `+` are spaces, `%41` is `A`, the `=` inside
the value and the `%` with one character after it are copied. -/
theorem query_decoding_rules_witness :
    parse_query_text "k=%4a" [] = .ok [("k", "J")]
    ∧ parse_query_text "k=%4A" [] = .ok [("k", "J")]
    ∧ parse_query_text "k=%ff" [] = .ok [("k", String.mk [Char.ofNat 255])]
    ∧ parse_query_text "a+b=%41+x=y%2" [] = .ok [("a b", "A x=y%2")]
    ∧ parse_query_loop ['%', '4', 'a'] true ['k'] [] []
      = parse_query_loop [] true ['k'] ([] ++ [Char.ofNat 74]) [] :=
  ⟨by decide, by decide, by decide, by decide,
    query_decoding_rules.1 74 '4' 'a' (by decide) (by decide) (by decide) [] true ['k'] [] []⟩

/-- C13, counterexample. For the multimap that holds `a b` = `c&d`,
`Client::Post(path, params)` sends the body `a b=c&d`: the space and the `&`
are written as they are. The body the claim describes is `a+b=c%26d`. -/
theorem form_body_is_not_percent_encoded :
    form_body [("a b", "c&d")] = "a b=c&d"
    ∧ String.mk (spec_form_body [("a b", "c&d")]) = "a+b=c%26d"
    ∧ (({ host_ := "localhost", port_ := 8080 } : Client).Post_params "/login"
        [("a b", "c&d")] { read := .error "eof" }).events
      = [NetEvent.resolve "localhost" "8080", NetEvent.connect,
         NetEvent.write
           { method := "POST", target := "/login", version := 11,
             fields := [("Host", "localhost"), ("User-Agent", "httplib/0.1.0"),
                        ("Content-Type", "application/x-www-form-urlencoded")],
             body := "a b=c&d", payload_prepared := true },
         NetEvent.read] := by
  decide

/-- C13, as the code has it. For every multimap, the body that
`Client::Post(path, params)` hands to `http::write` is the pairs `key=value`
joined by `&`, in the order of the multimap, every key and value written as it
is: nothing is percent-encoded. The request is a POST with
`Content-Type: application/x-www-form-urlencoded`. When the keys and values
hold alphanumeric bytes only, that body is the percent-encoded one. -/
theorem post_params_sends_plain_pairs (cli : Client) (path : String) (params : Params)
    (net : Exchange) (hresolve : net.resolve_fails = none)
    (hconnect : net.connect_fails = none) :
    (cli.Post_params path params net).events.take 3
      = [NetEvent.resolve cli.host_ (toString cli.port_), NetEvent.connect,
         NetEvent.write
           { method := "POST", target := path, version := 11,
             fields := [("Host", cli.host_), ("User-Agent", "httplib/0.1.0"),
                        ("Content-Type", "application/x-www-form-urlencoded")],
             body := form_body params,
             payload_prepared := !(form_body params).isEmpty }]
    ∧ (form_body params).data = plain_form_body params
    ∧ ((∀ p ∈ params, (∀ c ∈ p.1.data, isalnum c = true) ∧ (∀ c ∈ p.2.data, isalnum c = true)) →
        (form_body params).data = spec_form_body params) := by
  refine ⟨post_params_events cli path params net hresolve hconnect,
    form_body_eq_plain params, ?_⟩
  intro h
  rw [form_body_eq_plain, plain_form_body_alnum params h]

/-- Witness of C13 as the code has it, for the client and the form of
`examples/http_client.cpp`. -/
theorem post_params_sends_plain_pairs_witness :
    (({ host_ := "localhost", port_ := 8080 } : Client).Post_params "/login"
        [("password", "secret"), ("username", "testuser")]
        { read := .error "eof" }).events.take 3
      = [NetEvent.resolve "localhost" (toString (8080 : Int)), NetEvent.connect,
         NetEvent.write
           { method := "POST", target := "/login", version := 11,
             fields := [("Host", "localhost"), ("User-Agent", "httplib/0.1.0"),
                        ("Content-Type", "application/x-www-form-urlencoded")],
             body := form_body [("password", "secret"), ("username", "testuser")],
             payload_prepared :=
               !(form_body [("password", "secret"), ("username", "testuser")]).isEmpty }]
    ∧ (form_body [("password", "secret"), ("username", "testuser")]).data
      = plain_form_body [("password", "secret"), ("username", "testuser")]
    ∧ (form_body [("password", "secret"), ("username", "testuser")]).data
      = spec_form_body [("password", "secret"), ("username", "testuser")] :=
  have h := post_params_sends_plain_pairs { host_ := "localhost", port_ := 8080 } "/login"
    [("password", "secret"), ("username", "testuser")] { read := .error "eof" } rfl rfl
  ⟨h.1, h.2.1, h.2.2 (by decide)⟩

/-- C14, counterexample. `Params` is a `std::multimap`, which keeps its entries
in key order: after `username=testuser` and `password=secret` are inserted in
that order, `password` comes first, and the body `Client::Post(path, params)`
sends is `password=secret&username=testuser`, not
`username=testuser&password=secret`. -/
theorem login_body_is_in_key_order :
    multimap_emplace (multimap_emplace [] "username" "testuser") "password" "secret"
      = [("password", "secret"), ("username", "testuser")]
    ∧ form_body
        (multimap_emplace (multimap_emplace [] "username" "testuser") "password" "secret")
      = "password=secret&username=testuser"
    ∧ form_body
        (multimap_emplace (multimap_emplace [] "username" "testuser") "password" "secret")
      ≠ "username=testuser&password=secret" := by
  decide

/-- C14, as the code has it. `Client::Post(path, params)` with `params` holding
`username=testuser` and `password=secret`, inserted in that order, hands
`http::write` a POST whose body is exactly `password=secret&username=testuser`
(the pairs in the key order of the multimap) with
`Content-Type: application/x-www-form-urlencoded`. -/
theorem login_form_request (cli : Client) (path : String) (net : Exchange)
    (hresolve : net.resolve_fails = none) (hconnect : net.connect_fails = none) :
    (cli.Post_params path
        (multimap_emplace (multimap_emplace [] "username" "testuser") "password" "secret")
        net).events.take 3
      = [NetEvent.resolve cli.host_ (toString cli.port_), NetEvent.connect,
         NetEvent.write
           { method := "POST", target := path, version := 11,
             fields := [("Host", cli.host_), ("User-Agent", "httplib/0.1.0"),
                        ("Content-Type", "application/x-www-form-urlencoded")],
             body := "password=secret&username=testuser",
             payload_prepared := true }] := by
  rw [post_params_events cli path _ net hresolve hconnect]
  have hbody : form_body
      (multimap_emplace (multimap_emplace [] "username" "testuser") "password" "secret")
      = "password=secret&username=testuser" := by decide
  rw [hbody]
  rfl

/-- Witness of C14 as the code has it, for the client of
`examples/http_client.cpp` and a server that answers 200. -/
theorem login_form_request_witness :
    (({ host_ := "localhost", port_ := 8080 } : Client).Post_params "/login"
        (multimap_emplace (multimap_emplace [] "username" "testuser") "password" "secret")
        { read := .ok { version := 11, result := 200, keep_alive := false, fields := [],
                        body := "ok" } }).events.take 3
      = [NetEvent.resolve "localhost" (toString (8080 : Int)), NetEvent.connect,
         NetEvent.write
           { method := "POST", target := "/login", version := 11,
             fields := [("Host", "localhost"), ("User-Agent", "httplib/0.1.0"),
                        ("Content-Type", "application/x-www-form-urlencoded")],
             body := "password=secret&username=testuser",
             payload_prepared := true }] :=
  login_form_request { host_ := "localhost", port_ := 8080 } "/login" _ rfl rfl

end QueryClaims

/-! ## Header lookup and the HTTP client: auxiliary facts -/

section ClientFacts

/-- Entries under another key are counted as before an `emplace`. -/
theorem multimap_count_emplace_other (m : List (String × String)) (key val k : String)
    (hk : k ≠ key) : multimap_count (multimap_emplace m key val) k = multimap_count m k := by
  unfold multimap_count
  induction m with
  | nil =>
    have : (key == k) = false := by simpa using Ne.symm hk
    simp [multimap_emplace, List.filter, this]
  | cons e rest ih =>
    unfold multimap_emplace
    have hne : (key == k) = false := by simpa using Ne.symm hk
    split
    · simp [List.filter, hne]
    · simp only [List.filter_cons]
      split
      · simp only [List.length_cons]
        rw [ih]
      · exact ih

/-- An `emplace` adds one to the count of its own key. -/
theorem multimap_count_emplace_same (m : List (String × String)) (key val : String) :
    multimap_count (multimap_emplace m key val) key = multimap_count m key + 1 := by
  unfold multimap_count
  induction m with
  | nil => simp [multimap_emplace, List.filter]
  | cons e rest ih =>
    unfold multimap_emplace
    split
    · simp [List.filter]
    · simp only [List.filter_cons]
      split
      · simp only [List.length_cons]
        rw [ih]
      · exact ih

/-- The first entry `find` reaches under another key is the same after an
`emplace`. -/
theorem multimap_find_emplace_other (m : List (String × String)) (key val k : String)
    (hk : k ≠ key) :
    (multimap_find (multimap_emplace m key val) k).head? = (multimap_find m k).head? := by
  unfold multimap_find
  have hne : (key != k) = true := by simpa using Ne.symm hk
  induction m with
  | nil => simp [multimap_emplace, List.dropWhile, hne]
  | cons e rest ih =>
    unfold multimap_emplace
    split
    · simp [List.dropWhile, hne]
    · simp only [List.dropWhile]
      split
      · exact ih
      · rfl

/-- After an `emplace`, `find` reaches an entry under the key given. -/
theorem multimap_find_emplace_same (m : List (String × String)) (key val : String) :
    (multimap_find (multimap_emplace m key val) key).isEmpty = false := by
  unfold multimap_find
  induction m with
  | nil => simp [multimap_emplace, List.dropWhile]
  | cons e rest ih =>
    unfold multimap_emplace
    split
    · simp [List.dropWhile]
    · simp only [List.dropWhile]
      split
      · exact ih
      · rfl

/-- Whether `find` reaches an entry, and the value read at it, depend on the
first entry reached only. -/
theorem multimap_lookup_of_head (m1 m2 : List (String × String)) (k : String)
    (h : (multimap_find m1 k).head? = (multimap_find m2 k).head?) :
    (multimap_find m1 k).isEmpty = (multimap_find m2 k).isEmpty
      ∧ multimap_value m1 k 0 = multimap_value m2 k 0 := by
  unfold multimap_value
  simp only [List.drop_zero]
  cases h1 : multimap_find m1 k with
  | nil =>
    cases h2 : multimap_find m2 k with
    | nil => exact ⟨rfl, rfl⟩
    | cons b bs =>
      rw [h1, h2] at h
      cases h
  | cons a as =>
    cases h2 : multimap_find m2 k with
    | nil =>
      rw [h1, h2] at h
      cases h
    | cons b bs =>
      rw [h1, h2] at h
      simp only [List.head?_cons, Option.some.injEq] at h
      rw [h]
      exact ⟨rfl, rfl⟩

/-- `send_request` returns a response exactly when every network call
succeeds and the method is a verb; the response is the one made from the
complete response read. -/
theorem send_request_response (cli : Client) (method path : String) (headers : Headers)
    (body : String) (net : Exchange) (r : Response)
    (h : (cli.send_request method path headers body net).response = some r) :
    net.resolve_fails = none ∧ net.connect_fails = none ∧ net.write_fails = none
      ∧ net.shutdown_fails = none
      ∧ ∃ res, net.read = .ok res ∧ r = convert_client_response res := by
  unfold Client.send_request at h
  cases h1 : net.resolve_fails with
  | some w => simp [h1] at h
  | none =>
    cases h2 : net.connect_fails with
    | some w => simp [h1, h2] at h
    | none =>
      cases h3 : string_to_verb method with
      | none => simp [h1, h2, h3] at h
      | some verb =>
        cases h4 : net.write_fails with
        | some w => simp [h1, h2, h3, h4] at h
        | none =>
          cases h5 : net.read with
          | error e => simp [h1, h2, h3, h4, h5] at h
          | ok res =>
            cases h6 : net.shutdown_fails with
            | some w => simp [h1, h2, h3, h4, h5, h6] at h
            | none =>
              simp only [h1, h2, h3, h4, h5, h6, Option.some.injEq] at h
              exact ⟨rfl, rfl, rfl, rfl, res, rfl, h.symm⟩

/-- A failure of `resolve`, `net::connect`, `http::write` or `http::read` makes
`send_request` return `nullptr`. -/
theorem send_request_failure (cli : Client) (method path : String) (headers : Headers)
    (body : String) (net : Exchange)
    (h : net.resolve_fails ≠ none ∨ net.connect_fails ≠ none ∨ net.write_fails ≠ none
      ∨ ∃ w, net.read = .error w) :
    (cli.send_request method path headers body net).response = none := by
  cases hr : (cli.send_request method path headers body net).response with
  | none => rfl
  | some r =>
    obtain ⟨h1, h2, h3, _, res, h5, _⟩ :=
      send_request_response cli method path headers body net r hr
    rcases h with h | h | h | ⟨w, h⟩
    · exact absurd h1 h
    · exact absurd h2 h
    · exact absurd h3 h
    · rw [h5] at h
      cases h

/-- The network calls of a `Get` when nothing fails. -/
theorem get_events (cli : Client) (path : String) (net : Exchange) (res : BeastResponse)
    (h1 : net.resolve_fails = none) (h2 : net.connect_fails = none)
    (h3 : net.write_fails = none) (h4 : net.read = .ok res)
    (h5 : net.shutdown_fails = none) :
    cli.Get path net
      = { response := some (convert_client_response res),
          events := [NetEvent.resolve cli.host_ (toString cli.port_), NetEvent.connect,
            NetEvent.write
              { method := "GET", target := path, version := 11,
                fields := [("Host", cli.host_), ("User-Agent", "httplib/0.1.0")],
                body := "", payload_prepared := false },
            NetEvent.read, NetEvent.shutdown_both] } := by
  have hverb : string_to_verb "GET" = some "GET" := by decide
  simp only [Client.Get, Client.Get_headers, Client.send_request, h1, h2, h3, h4, h5, hverb]
  rfl

/-- Every `Get` whose host resolves begins by opening a connection. -/
theorem get_connects (cli : Client) (path : String) (net : Exchange)
    (h1 : net.resolve_fails = none) :
    (cli.Get path net).events.take 2
        = [NetEvent.resolve cli.host_ (toString cli.port_), NetEvent.connect]
      ∧ (cli.Get path net).events.count NetEvent.connect = 1 := by
  have hverb : string_to_verb "GET" = some "GET" := by decide
  simp only [Client.Get, Client.Get_headers, Client.send_request, h1, hverb]
  cases net.connect_fails with
  | some w => exact ⟨rfl, by simp [List.count_cons]⟩
  | none =>
    cases net.write_fails with
    | some w => exact ⟨rfl, by simp [List.count_cons]⟩
    | none =>
      cases net.read with
      | error e => exact ⟨rfl, by simp [List.count_cons]⟩
      | ok res =>
        cases net.shutdown_fails with
        | some w => exact ⟨rfl, by simp [List.count_cons]⟩
        | none => exact ⟨rfl, by simp [List.count_cons]⟩

end ClientFacts

/-! ## Header lookup and the HTTP client: the claims -/

section ClientClaims

/-- C15, counterexample. A request and a response that hold the header
`Content-Type: text/plain`: under `Content-Type` the header is found, under
`content-type`, the same key in another casing, it is not: `has_header` is
false, `get_header_value` is empty and `get_header_value_count` is 0. -/
theorem header_lookup_misses_other_casing :
    to_lower "Content-Type" = to_lower "content-type"
    ∧ (({ } : Request).set_header "Content-Type" "text/plain").has_header "Content-Type" = true
    ∧ (({ } : Request).set_header "Content-Type" "text/plain").has_header "content-type" = false
    ∧ (({ } : Request).set_header "Content-Type" "text/plain").get_header_value
        "Content-Type" 0 = "text/plain"
    ∧ (({ } : Request).set_header "Content-Type" "text/plain").get_header_value
        "content-type" 0 = ""
    ∧ (({ } : Request).set_header "Content-Type" "text/plain").get_header_value_count
        "Content-Type" = 1
    ∧ (({ } : Request).set_header "Content-Type" "text/plain").get_header_value_count
        "content-type" = 0
    ∧ (({ } : Response).set_header "Content-Type" "text/plain").has_header "content-type" = false
    ∧ (({ } : Response).set_header "Content-Type" "text/plain").get_header_value
        "content-type" 0 = ""
    ∧ (({ } : Response).set_header "Content-Type" "text/plain").get_header_value_count
        "content-type" = 0 := by
  decide

/-- C15, as the code has it. Header lookup is case-sensitive and keys are stored
as received: a header set under `key` is stored with that very key, is found
under `key` and adds one to its count, and changes the result of `has_header`,
`get_header_value` and `get_header_value_count` under no other key `k`,
whatever the casing of `k`; this holds for `Request` and for `Response`. -/
theorem header_lookup_is_case_sensitive :
    (∀ (req : Request) (key val : String),
        (key, val) ∈ (req.set_header key val).headers
        ∧ (req.set_header key val).has_header key = true
        ∧ (req.set_header key val).get_header_value_count key
            = req.get_header_value_count key + 1
        ∧ ∀ k : String, k ≠ key →
            (req.set_header key val).has_header k = req.has_header k
            ∧ (req.set_header key val).get_header_value k 0 = req.get_header_value k 0
            ∧ (req.set_header key val).get_header_value_count k
                = req.get_header_value_count k)
    ∧ (∀ (res : Response) (key val : String),
        (key, val) ∈ (res.set_header key val).headers
        ∧ (res.set_header key val).has_header key = true
        ∧ (res.set_header key val).get_header_value_count key
            = res.get_header_value_count key + 1
        ∧ ∀ k : String, k ≠ key →
            (res.set_header key val).has_header k = res.has_header k
            ∧ (res.set_header key val).get_header_value k 0 = res.get_header_value k 0
            ∧ (res.set_header key val).get_header_value_count k
                = res.get_header_value_count k) := by
  have core : ∀ (m : List (String × String)) (key val : String),
      (key, val) ∈ multimap_emplace m key val
      ∧ (!(multimap_find (multimap_emplace m key val) key).isEmpty) = true
      ∧ multimap_count (multimap_emplace m key val) key = multimap_count m key + 1
      ∧ ∀ k : String, k ≠ key →
          (!(multimap_find (multimap_emplace m key val) k).isEmpty)
              = (!(multimap_find m k).isEmpty)
          ∧ multimap_value (multimap_emplace m key val) k 0 = multimap_value m k 0
          ∧ multimap_count (multimap_emplace m key val) k = multimap_count m k := by
    intro m key val
    refine ⟨multimap_emplace_mem m key val, ?_, multimap_count_emplace_same m key val, ?_⟩
    · rw [multimap_find_emplace_same]
      rfl
    · intro k hk
      obtain ⟨h1, h2⟩ := multimap_lookup_of_head _ _ k
        (multimap_find_emplace_other m key val k hk)
      exact ⟨by rw [h1], h2, multimap_count_emplace_other m key val k hk⟩
  exact ⟨fun req key val => core req.headers key val,
    fun res key val => core res.headers key val⟩

/-- Witness of C15 as the code has it: setting `content-type` on a request that
holds `Content-Type: text/plain` leaves every lookup under `Content-Type` as it
was, and both keys are kept as written. -/
theorem header_lookup_is_case_sensitive_witness :
    ((({ } : Request).set_header "Content-Type" "text/plain").set_header
        "content-type" "text/html").get_header_value "Content-Type" 0
      = (({ } : Request).set_header "Content-Type" "text/plain").get_header_value
          "Content-Type" 0
    ∧ ((({ } : Request).set_header "Content-Type" "text/plain").set_header
        "content-type" "text/html").headers
      = [("Content-Type", "text/plain"), ("content-type", "text/html")] :=
  ⟨((header_lookup_is_case_sensitive.1
      (({ } : Request).set_header "Content-Type" "text/plain") "content-type"
      "text/html").2.2.2 "Content-Type" (by decide)).2.1,
    by decide⟩

/-- C16. For every failure of the transport during a `send_request` call, in
`resolve`, `net::connect`, `http::write` or `http::read`, the call returns
`nullptr` (the model has no other outcome: the function catches every
`std::exception`, and the network calls throw nothing else). A `Response` is
returned only when a complete response was read, and it is the one made from
that response: its status, body and headers. -/
theorem send_request_returns_response_or_nothing (cli : Client) (method path : String)
    (headers : Headers) (body : String) (net : Exchange) :
    ((net.resolve_fails ≠ none ∨ net.connect_fails ≠ none ∨ net.write_fails ≠ none
        ∨ ∃ w, net.read = .error w) →
      (cli.send_request method path headers body net).response = none)
    ∧ (∀ r : Response, (cli.send_request method path headers body net).response = some r →
        ∃ res : BeastResponse, net.read = .ok res
          ∧ r = convert_client_response res
          ∧ r.status = res.result ∧ r.body = res.body
          ∧ r.headers = res.fields.foldl (fun h field => multimap_emplace h field.1 field.2) []
          ∧ net.resolve_fails = none ∧ net.connect_fails = none ∧ net.write_fails = none) := by
  refine ⟨send_request_failure cli method path headers body net, ?_⟩
  intro r hr
  obtain ⟨h1, h2, h3, _, res, h5, h6⟩ :=
    send_request_response cli method path headers body net r hr
  exact ⟨res, h5, h6, by rw [h6]; rfl, by rw [h6]; rfl, by rw [h6]; rfl, h1, h2, h3⟩

/-- Witness of C16: a `Get` whose connection is refused, or whose read fails
after the request was written, returns no response; a `Get` that reads
`200 Test OK` returns it. -/
theorem send_request_returns_response_or_nothing_witness :
    (({ host_ := "127.0.0.1", port_ := 18080 } : Client).send_request "GET" "/test" [] ""
        { connect_fails := some "Connection refused", read := .error "unused" }).response.isNone
      = true
    ∧ (({ host_ := "127.0.0.1", port_ := 18080 } : Client).send_request "GET" "/test" [] ""
        { read := .error "end of stream" }).response.isNone = true
    ∧ (({ host_ := "127.0.0.1", port_ := 18080 } : Client).send_request "GET" "/test" [] ""
        { read := .ok { version := 11, result := 200, keep_alive := false,
                        fields := [("Content-Type", "text/plain")],
                        body := "Test OK" } }).response.map
          (fun r => (r.status, r.body, r.headers))
      = some (200, "Test OK", [("Content-Type", "text/plain")]) :=
  ⟨by
      rw [(send_request_returns_response_or_nothing _ "GET" "/test" [] ""
        { connect_fails := some "Connection refused", read := .error "unused" }).1
        (Or.inr (Or.inl (by simp)))]
      rfl,
    by decide, by decide⟩

/-- C17, counterexample. A client with keep-alive enabled makes two `Get`
calls that both succeed: each call resolves the host, opens a connection,
writes, reads and shuts the connection down, so the second request opens a
second connection. -/
theorem keep_alive_client_connects_twice :
    ((({ host_ := "127.0.0.1", port_ := 18080 } : Client).set_keep_alive true).Get "/test"
        { read := .ok { version := 11, result := 200, keep_alive := true, fields := [],
                        body := "Test OK" } }).events
      = [NetEvent.resolve "127.0.0.1" "18080", NetEvent.connect,
         NetEvent.write
           { method := "GET", target := "/test", version := 11,
             fields := [("Host", "127.0.0.1"), ("User-Agent", "httplib/0.1.0")],
             body := "", payload_prepared := false },
         NetEvent.read, NetEvent.shutdown_both]
    ∧ ((({ host_ := "127.0.0.1", port_ := 18080 } : Client).set_keep_alive true).Get "/num/42"
        { read := .ok { version := 11, result := 200, keep_alive := true, fields := [],
                        body := "Number: 42" } }).events
      = [NetEvent.resolve "127.0.0.1" "18080", NetEvent.connect,
         NetEvent.write
           { method := "GET", target := "/num/42", version := 11,
             fields := [("Host", "127.0.0.1"), ("User-Agent", "httplib/0.1.0")],
             body := "", payload_prepared := false },
         NetEvent.read, NetEvent.shutdown_both] := by
  decide

/-- C17, as the code has it. `keep_alive_` is read nowhere: with keep-alive
enabled or not, a `Get` does what it does without the setting; every `Get`
whose host resolves opens a connection of its own, and a `Get` on which nothing
fails shuts that connection down after reading its response. So two sequential
`Get` calls on one client use two connections; each call returns its own
response before the next begins. -/
theorem every_get_opens_a_connection (cli : Client) (on_ : Bool) (path : String)
    (net : Exchange) :
    (cli.set_keep_alive on_).Get path net = cli.Get path net
    ∧ (net.resolve_fails = none →
        ((cli.set_keep_alive on_).Get path net).events.take 2
            = [NetEvent.resolve cli.host_ (toString cli.port_), NetEvent.connect]
        ∧ ((cli.set_keep_alive on_).Get path net).events.count NetEvent.connect = 1)
    ∧ (∀ res : BeastResponse, net.resolve_fails = none → net.connect_fails = none →
        net.write_fails = none → net.read = .ok res → net.shutdown_fails = none →
        ((cli.set_keep_alive on_).Get path net).events.getLast? = some NetEvent.shutdown_both
        ∧ ((cli.set_keep_alive on_).Get path net).response
            = some (convert_client_response res)) := by
  have hsame : (cli.set_keep_alive on_).Get path net = cli.Get path net := rfl
  refine ⟨hsame, ?_, ?_⟩
  · intro h1
    rw [hsame]
    exact get_connects cli path net h1
  · intro res h1 h2 h3 h4 h5
    rw [hsame, get_events cli path net res h1 h2 h3 h4 h5]
    exact ⟨rfl, rfl⟩

/-- Witness of C17 as the code has it: the second `Get` of a client with
keep-alive enabled begins with `resolve` and `connect`. -/
theorem every_get_opens_a_connection_witness :
    ((({ host_ := "127.0.0.1", port_ := 18080 } : Client).set_keep_alive true).Get "/num/42"
        { read := .ok { version := 11, result := 200, keep_alive := true, fields := [],
                        body := "Number: 42" } }).events.take 2
      = [NetEvent.resolve "127.0.0.1" (toString (18080 : Int)), NetEvent.connect]
    ∧ ((({ host_ := "127.0.0.1", port_ := 18080 } : Client).set_keep_alive true).Get
        "/num/42"
        { read := .ok { version := 11, result := 200, keep_alive := true, fields := [],
                        body := "Number: 42" } }).events.count NetEvent.connect = 1 :=
  (every_get_opens_a_connection { host_ := "127.0.0.1", port_ := 18080 } true "/num/42"
    { read := .ok { version := 11, result := 200, keep_alive := true, fields := [],
                    body := "Number: 42" } }).2.1 rfl

end ClientClaims

/-! ## WebSocket, the server session: auxiliary facts -/

section WsServerFacts

/-- The close handler after the loop, when it returns. -/
theorem after_loop_returns (srv : WebSocketServer) (log : List WsEvent)
    (hclose : ∀ r, srv.close_handler_ = some r → r.thrown = none) :
    srv.after_loop log
      = { log := log ++ [WsEvent.on_close].filter srv.has_handler, terminated := false } := by
  unfold WebSocketServer.after_loop
  cases h : srv.close_handler_ with
  | none => simp [WebSocketServer.has_handler, h]
  | some r => simp [WebSocketServer.has_handler, h, hclose r h]

/-- The loop of the session when the callbacks return and leave the connection
open: the callbacks that are set are called in the order of the lifecycle. -/
theorem session_loop_follows_lifecycle (srv : WebSocketServer)
    (hmsg : ∀ h, srv.message_handler_ = some h →
      ∀ m, (h m).thrown = none ∧ (h m).open_after = true)
    (herr : ∀ h, srv.error_handler_ = some h → ∀ e, (h e).thrown = none)
    (hclose : ∀ r, srv.close_handler_ = some r → r.thrown = none) :
    ∀ (reads : List WsRead) (log : List WsEvent),
      srv.session_loop true reads log
        = { log := log ++ (lifecycle_after_open reads).filter srv.has_handler,
            terminated := false } := by
  intro reads
  induction reads with
  | nil =>
    intro log
    simp only [WebSocketServer.session_loop, lifecycle_after_open]
    exact after_loop_returns srv log hclose
  | cons r rest ih =>
    intro log
    cases r with
    | message data is_binary =>
      simp only [WebSocketServer.session_loop, lifecycle_after_open]
      cases h : srv.message_handler_ with
      | none =>
        simp only [List.filter_cons, WebSocketServer.has_handler, h, Option.isSome_none,
          Bool.false_eq_true, if_false]
        exact ih log
      | some f =>
        obtain ⟨h1, h2⟩ := hmsg f h { data := data, is_binary := is_binary }
        simp only [h1, h2, List.filter_cons, WebSocketServer.has_handler, h,
          Option.isSome_some, if_true]
        rw [ih]
        simp
    | failed closed open_after =>
      simp only [WebSocketServer.session_loop, lifecycle_after_open]
      cases open_after with
      | false =>
        simp only [Bool.false_eq_true, if_false]
        exact after_loop_returns srv log hclose
      | true =>
        simp only [if_true]
        cases h : srv.error_handler_ with
        | none =>
          simp only [List.filter_cons, WebSocketServer.has_handler, h, Option.isSome_none,
            Bool.false_eq_true, if_false]
          rw [after_loop_returns srv log hclose]
          simp only [List.filter_cons, WebSocketServer.has_handler]
        | some f =>
          simp only [herr f h, List.filter_cons, WebSocketServer.has_handler, h,
            Option.isSome_some, if_true]
          rw [after_loop_returns srv _ hclose]
          simp [WebSocketServer.has_handler, List.filter_cons]

end WsServerFacts

/-! ## WebSocket, the server session: the claims -/

section WsServerClaims

/-- C18, counterexample. On a server with all four callbacks set, a session
reads `Test Message` and then a read fails with an error that is not the
orderly close; as after any error of the stream, `is_open()` then reports
false. The guard `ws_conn->is_open() && error_handler_` keeps `onError` from
being called: the callbacks are `onOpen`, `onMessage`, `onClose`. -/
theorem read_error_without_on_error :
    (echo_ws_server.handle_websocket_session
        { reads := [.message "Test Message" false, .failed false false] }).log
      = [WsEvent.on_open, WsEvent.on_message { data := "Test Message", is_binary := false },
         WsEvent.on_close]
    ∧ (echo_ws_server.handle_websocket_session
        { reads := [.message "Test Message" false, .failed false false] }).terminated
      = false := by
  decide

/-- C18, as the code has it. For a server session whose upgrade succeeds and
whose callbacks return and leave the connection open, and for every finite
sequence of read outcomes, the callbacks that are set are called in this order:
`onOpen` once; `onMessage` once for each message read, in the order read, with
its payload and binary flag; after the read that fails, `onError` with
`WebSocket read error` if and only if the stream still reports open
(`is_open()`), whatever the reason of the failure; then `onClose` once. -/
theorem server_callbacks_follow_lifecycle (srv : WebSocketServer) (socket : WsSocket)
    (haccept : socket.accept_fails = none)
    (hopen : ∀ r, srv.open_handler_ = some r → r.thrown = none ∧ r.open_after = true)
    (hmsg : ∀ h, srv.message_handler_ = some h →
      ∀ m, (h m).thrown = none ∧ (h m).open_after = true)
    (herr : ∀ h, srv.error_handler_ = some h → ∀ e, (h e).thrown = none)
    (hclose : ∀ r, srv.close_handler_ = some r → r.thrown = none) :
    (srv.handle_websocket_session socket).log
        = (WsEvent.on_open :: lifecycle_after_open socket.reads).filter srv.has_handler
      ∧ (srv.handle_websocket_session socket).terminated = false := by
  unfold WebSocketServer.handle_websocket_session
  rw [haccept]
  cases h : srv.open_handler_ with
  | none =>
    simp only [List.filter_cons, WebSocketServer.has_handler, h, Option.isSome_none,
      Bool.false_eq_true, if_false]
    rw [session_loop_follows_lifecycle srv hmsg herr hclose]
    simp
  | some r =>
    obtain ⟨h1, h2⟩ := hopen r h
    simp only [h1, h2, List.filter_cons, WebSocketServer.has_handler, h, Option.isSome_some,
      if_true]
    rw [session_loop_follows_lifecycle srv hmsg herr hclose]
    simp

/-- Witness of C18 as the code has it: the echo scenario of the test, where the
session reads `Test Message` and the peer then closes; and a session whose read
fails while the stream still reports open. -/
theorem server_callbacks_follow_lifecycle_witness :
    ((echo_ws_server.handle_websocket_session
        { reads := [.message "Test Message" false, .failed true false] }).log
        = (WsEvent.on_open ::
            lifecycle_after_open [.message "Test Message" false, .failed true false]).filter
            echo_ws_server.has_handler
      ∧ (echo_ws_server.handle_websocket_session
        { reads := [.message "Test Message" false, .failed true false] }).terminated = false)
    ∧ (echo_ws_server.handle_websocket_session
        { reads := [.message "Test Message" false, .failed true false] }).log
      = [WsEvent.on_open, WsEvent.on_message { data := "Test Message", is_binary := false },
         WsEvent.on_close]
    ∧ (echo_ws_server.handle_websocket_session
        { reads := [.message "a" true, .message "b" false, .failed false true] }).log
      = [WsEvent.on_open, WsEvent.on_message { data := "a", is_binary := true },
         WsEvent.on_message { data := "b", is_binary := false },
         WsEvent.on_error "WebSocket read error", WsEvent.on_close] :=
  ⟨server_callbacks_follow_lifecycle echo_ws_server
      { reads := [.message "Test Message" false, .failed true false] } rfl
      (fun r h => by cases h; exact ⟨rfl, rfl⟩)
      (fun f h => by cases h; exact fun _ => ⟨rfl, rfl⟩)
      (fun f h => by cases h; exact fun _ => rfl)
      (fun r h => by cases h; rfl),
    by decide, by decide⟩

end WsServerClaims


/-! ## WebSocket client: the close() calls and the receive loop -/

section WsClientFacts

theorem any_is_message_append (l : List WsEvent) (e : WsEvent) :
    (l ++ [e]).any WsEvent.is_message = (l.any WsEvent.is_message || e.is_message) := by
  simp [List.any_append]

/-- Appending an event that is not an `onMessage` call adds no message after a close. -/
theorem message_after_close_append_other (l : List WsEvent) (e : WsEvent)
    (he : e.is_message = false) :
    message_after_close (l ++ [e]) = message_after_close l := by
  induction l with
  | nil => cases e <;> simp_all [message_after_close, WsEvent.is_message]
  | cons x rest ih =>
    cases x <;> simp [message_after_close, ih, List.any_append, he]

/-- Appending to a log without `onClose` call adds no message after a close. -/
theorem message_after_close_append_of_no_close (l : List WsEvent) (e : WsEvent)
    (hl : l.count WsEvent.on_close = 0) (he : e ≠ WsEvent.on_close) :
    message_after_close (l ++ [e]) = false := by
  induction l with
  | nil => cases e <;> simp_all [message_after_close]
  | cons x rest ih =>
    cases x <;> simp_all [message_after_close, List.count_cons]

/-- In a log without message after a close, what follows an `onClose` call
holds no `onMessage` call. -/
theorem no_message_after_split (log : List WsEvent) (h : message_after_close log = false)
    (before after : List WsEvent) (hsplit : log = before ++ WsEvent.on_close :: after)
    (msg : WebSocketMessage) : WsEvent.on_message msg ∉ after := by
  induction before generalizing log with
  | nil =>
    subst hsplit
    simp only [List.nil_append, message_after_close, Bool.or_eq_false_iff] at h
    intro hmem
    have := List.any_eq_true.mpr ⟨_, hmem, (rfl : (WsEvent.on_message msg).is_message = true)⟩
    rw [h.1] at this
    exact Bool.noConfusion this
  | cons x rest ih =>
    subst hsplit
    refine ih (rest ++ WsEvent.on_close :: after) ?_ rfl
    cases x <;> simp_all [message_after_close]

/-- The call `connect()` does not move the caller into `close()`. -/
theorem connect_caller (cli : WebSocketClient) (net : ConnectNet) (s : ClientState) :
    (cli.connect net s).2.caller = s.caller := by
  have hcatch : ∀ (t : ClientState) (what : String),
      (cli.connect_catch t what).2.caller = t.caller := by
    intro t what
    unfold WebSocketClient.connect_catch
    cases cli.error_handler_ with
    | none => rfl
    | some f =>
      simp only
      cases f ("Connect error: " ++ what) <;> rfl
  unfold WebSocketClient.connect
  rcases net.resolve_fails with _ | w
  swap
  · exact hcatch s w
  rcases net.connect_fails with _ | w
  swap
  · exact hcatch s w
  rcases net.handshake_fails with _ | w
  swap
  · exact hcatch s w
  rcases cli.open_handler_ with _ | (_ | (w | _))
  · simp only
    cases s.receiver <;> rfl
  · simp only
    cases s.receiver <;> rfl
  · exact hcatch _ w
  · rfl

/-- A step of either thread keeps: `close()` is about to call `onClose` only
when the receive loop has stopped. -/
theorem step_close_after_join (cli : WebSocketClient) (s : ClientState) (tid : Tid)
    (h : s.caller = .call_handler → s.receive_stopped = true) :
    (cli.step s tid).caller = .call_handler → (cli.step s tid).receive_stopped = true := by
  unfold WebSocketClient.step
  split
  · exact h
  · cases tid with
    | caller =>
      unfold WebSocketClient.close_step
      rcases hc : s.caller with _ | _ | _ | _
      · rcases s.pending_closes with _ | n
        · simp only [hc]
          intro h0
          cases h0
        · intro h0
          cases h0
      · intro h0
        cases h0
      · rcases hr : s.receiver with _ | _ | _ | m | o | _ | _ | _ <;>
          simp [hc, hr, ClientState.receive_stopped]
      · cases cli.close_handler_ <;> (intro h0; cases h0)
    | receiver =>
      by_cases hs : s.receive_stopped = true
      · have : cli.receive_step s = s := by
          unfold WebSocketClient.receive_step
          unfold ClientState.receive_stopped at hs
          rcases hr : s.receiver with _ | _ | _ | m | o | _ | _ | _ <;> simp [hr] at hs ⊢
        rw [this]
        exact h
      · have hcaller : (cli.receive_step s).caller = s.caller := by
          unfold WebSocketClient.receive_step
          rcases s.receiver with _ | _ | _ | m | o | _ | _ | _
          · rfl
          · simp only
            split <;> rfl
          · simp only
            rcases s.incoming with _ | ⟨(⟨d, b⟩ | ⟨c, o⟩), rest⟩
            · simp only
              split <;> rfl
            · rfl
            · rfl
          · simp only
            cases cli.message_handler_ <;> rfl
          · simp only
            split
            · cases cli.error_handler_ <;> rfl
            · rfl
          · rfl
          · rfl
          · rfl
        intro h0
        rw [hcaller] at h0
        exact absurd (h h0) hs

/-- Every state of an execution: `close()` is about to call `onClose` only
when the receive loop has stopped. -/
theorem execute_close_after_join (cli : WebSocketClient) (closes : Nat) (moves : List Move) :
    (cli.execute closes moves).caller = .call_handler →
      (cli.execute closes moves).receive_stopped = true := by
  have hgen : ∀ (moves : List Move) (s : ClientState),
      (s.caller = .call_handler → s.receive_stopped = true) →
      (moves.foldl cli.move s).caller = .call_handler →
        (moves.foldl cli.move s).receive_stopped = true := by
    intro moves
    induction moves with
    | nil => exact fun s h => h
    | cons mv rest ih =>
      intro s h
      refine ih _ ?_
      cases mv with
      | step tid => exact step_close_after_join cli s tid h
      | connect net incoming =>
        simp only [WebSocketClient.move]
        by_cases hguard : (s.terminated || !(s.caller == .idle)) = true
        · rw [if_pos hguard]
          exact h
        · rw [if_neg hguard]
          have hidle : s.caller = .idle := by
            simp only [Bool.or_eq_true, Bool.not_eq_true', beq_eq_false_iff_ne, ne_eq,
              not_or, Bool.not_eq_true, Decidable.not_not] at hguard
            exact hguard.2
          intro h0
          exfalso
          split at h0
          · rw [connect_caller] at h0
            simp only [hidle] at h0
            cases h0
          · rw [connect_caller, hidle] at h0
            cases h0
  exact hgen moves _ (fun h => by cases h)

/-- The receive thread, once stopped, takes no step. -/
theorem receive_step_of_stopped (cli : WebSocketClient) (s : ClientState)
    (hs : s.receive_stopped = true) : cli.receive_step s = s := by
  unfold WebSocketClient.receive_step
  unfold ClientState.receive_stopped at hs
  rcases hr : s.receiver with _ | _ | _ | m | o | _ | _ | _ <;> simp [hr] at hs ⊢

/-- A step of the caller through `close()` adds nothing to the log, or the call
of `onClose`, made from the last statement of `close()`; it leaves a stopped
receive loop stopped. -/
theorem close_step_log (cli : WebSocketClient) (s : ClientState) :
    ((cli.close_step s).log = s.log
        ∨ ((cli.close_step s).log = s.log ++ [WsEvent.on_close] ∧ s.caller = .call_handler))
    ∧ (s.receive_stopped = true → (cli.close_step s).receive_stopped = true) := by
  obtain ⟨ic, wc, sc, rc, ca, pc, cr, inc, lg, tm⟩ := s
  cases ca with
  | idle => cases pc <;> simp [WebSocketClient.close_step, ClientState.receive_stopped]
  | close_stream => simp [WebSocketClient.close_step, ClientState.receive_stopped]
  | join_thread => cases rc <;> simp [WebSocketClient.close_step, ClientState.receive_stopped]
  | call_handler =>
    cases hh : cli.close_handler_ <;>
      simp [WebSocketClient.close_step, ClientState.receive_stopped, hh]

/-- A step of the receive thread adds nothing to the log, or one call that is
not the call of `onClose`. -/
theorem receive_step_log (cli : WebSocketClient) (s : ClientState) :
    (cli.receive_step s).log = s.log
      ∨ ∃ e, e ≠ WsEvent.on_close ∧ (cli.receive_step s).log = s.log ++ [e] := by
  obtain ⟨ic, wc, sc, rc, ca, pc, cr, inc, lg, tm⟩ := s
  cases rc with
  | not_started => exact Or.inl rfl
  | loop_head => cases ic <;> exact Or.inl rfl
  | reading =>
    rcases inc with _ | ⟨(⟨d, b⟩ | ⟨c, o⟩), rest⟩
    · cases sc <;> exact Or.inl rfl
    · exact Or.inl rfl
    · exact Or.inl rfl
  | got_message m =>
    cases hm : cli.message_handler_ with
    | none => exact Or.inl (by simp [WebSocketClient.receive_step, hm])
    | some f =>
      exact Or.inr ⟨WsEvent.on_message m, by simp, by simp [WebSocketClient.receive_step, hm]⟩
  | read_failed o =>
    cases he : cli.error_handler_ with
    | none =>
      refine Or.inl ?_
      cases o <;> cases sc <;> simp [WebSocketClient.receive_step, he]
    | some f =>
      cases o <;> cases sc
      · exact Or.inl (by simp [WebSocketClient.receive_step])
      · exact Or.inl (by simp [WebSocketClient.receive_step])
      · exact Or.inr ⟨WsEvent.on_error "WebSocket client read error", by simp,
          by simp [WebSocketClient.receive_step, he]⟩
      · exact Or.inl (by simp [WebSocketClient.receive_step])
  | after_loop => exact Or.inl rfl
  | finished => exact Or.inl rfl
  | joined => exact Or.inl rfl

/-- A step of either thread keeps the segment invariant. -/
theorem step_segment_invariant (cli : WebSocketClient) (base : List WsEvent) (s : ClientState)
    (tid : Tid) (h : s.segment_invariant base) : (cli.step s tid).segment_invariant base := by
  have hcall := step_close_after_join cli s tid h.1
  by_cases hterm : s.terminated = true
  · have hsame : cli.step s tid = s := by simp [WebSocketClient.step, hterm]
    rw [hsame]
    exact h
  obtain ⟨hk, seg, h1, h2, h3⟩ := h
  cases tid with
  | caller =>
    have hstep : cli.step s .caller = cli.close_step s := by
      simp [WebSocketClient.step, hterm]
    rw [hstep] at hcall ⊢
    obtain ⟨hlog, hstop⟩ := close_step_log cli s
    rcases hlog with hlog | ⟨hlog, hc⟩
    · exact ⟨hcall, seg, by rw [hlog, h1], fun hm => hstop (h2 hm), h3⟩
    · refine ⟨hcall, seg ++ [WsEvent.on_close], by rw [hlog, h1, List.append_assoc],
        fun _ => hstop (hk hc), ?_⟩
      rw [message_after_close_append_other seg WsEvent.on_close rfl]
      exact h3
  | receiver =>
    have hstep : cli.step s .receiver = cli.receive_step s := by
      simp [WebSocketClient.step, hterm]
    rw [hstep] at hcall ⊢
    by_cases hs : s.receive_stopped = true
    · rw [receive_step_of_stopped cli s hs]
      exact ⟨hk, seg, h1, h2, h3⟩
    · have hno : WsEvent.on_close ∉ seg := fun hm => hs (h2 hm)
      rcases receive_step_log cli s with hlog | ⟨e, he, hlog⟩
      · exact ⟨hcall, seg, by rw [hlog, h1], fun hm => absurd hm hno, h3⟩
      · refine ⟨hcall, seg ++ [e], by rw [hlog, h1, List.append_assoc], ?_, ?_⟩
        · intro hm
          rcases List.mem_append.mp hm with h0 | h0
          · exact absurd h0 hno
          · exact absurd (List.mem_singleton.mp h0).symm he
        · exact message_after_close_append_of_no_close seg e (List.count_eq_zero.mpr hno) he

/-- The steps of a schedule keep the segment invariant. -/
theorem run_segment_invariant (cli : WebSocketClient) (base : List WsEvent)
    (schedule : List Tid) (s : ClientState) (h : s.segment_invariant base) :
    (cli.run s schedule).segment_invariant base := by
  induction schedule generalizing s with
  | nil => exact h
  | cons tid rest ih => exact ih _ (step_segment_invariant cli base s tid h)

end WsClientFacts

section WsClientClaims

/-- C20, counterexample. A client with all four callbacks set is connected,
closed by `close()`, which calls `onClose` after joining the receive thread,
and connected again; the receive thread the second `connect()` starts hands
the message `late` to `onMessage`. In this execution an `onMessage` call is
observed after `onClose` has been called. -/
theorem message_after_reconnect :
    (echo_ws_client.execute 1
        [.connect {} [], .step .caller, .step .caller, .step .receiver, .step .receiver,
         .step .caller, .step .caller, .connect {} [.message "late" false],
         .step .receiver, .step .receiver, .step .receiver]).log
      = [WsEvent.on_open, WsEvent.on_close, WsEvent.on_open,
         WsEvent.on_message { data := "late" }]
    ∧ message_after_close (echo_ws_client.execute 1
        [.connect {} [], .step .caller, .step .caller, .step .receiver, .step .receiver,
         .step .caller, .step .caller, .connect {} [.message "late" false],
         .step .receiver, .step .receiver, .step .receiver]).log = true := by
  decide

/-- C20, as the code has it. In every execution of a client (any number of
`connect()` and `close()` calls by the caller, the steps of the caller and of
the receive thread interleaved in any order), `close()` is about to call
`onClose` only when the receive loop has fully stopped: no thread was started
or the thread has been joined. And from every state of such an execution, as
long as `connect()` is not called again (the steps of any schedule of the two
threads): once `onClose` has been called the receive loop has stopped, and no
`onMessage` call comes after an `onClose` call. -/
theorem no_message_after_close_until_reconnect (cli : WebSocketClient) (closes : Nat)
    (moves : List Move) (schedule : List Tid) :
    ((cli.execute closes moves).caller = .call_handler →
      (cli.execute closes moves).receive_stopped = true)
    ∧ ((cli.run (cli.execute closes moves) schedule).caller = .call_handler →
      (cli.run (cli.execute closes moves) schedule).receive_stopped = true)
    ∧ ∀ before after : List WsEvent,
        (cli.run (cli.execute closes moves) schedule).log
          = (cli.execute closes moves).log ++ (before ++ WsEvent.on_close :: after) →
        (cli.run (cli.execute closes moves) schedule).receive_stopped = true
        ∧ ∀ msg : WebSocketMessage, WsEvent.on_message msg ∉ after := by
  have hk := execute_close_after_join cli closes moves
  have hinv : (cli.execute closes moves).segment_invariant (cli.execute closes moves).log :=
    ⟨hk, [], by simp, (fun h => by cases h), rfl⟩
  obtain ⟨hcall, seg, h1, h2, h3⟩ := run_segment_invariant cli _ schedule _ hinv
  refine ⟨hk, hcall, ?_⟩
  intro before after hsplit
  have hseg : seg = before ++ WsEvent.on_close :: after :=
    List.append_cancel_left (h1.symm.trans hsplit)
  refine ⟨h2 (by rw [hseg]; simp), ?_⟩
  intro msg
  exact no_message_after_split seg h3 before after hseg msg

/-- C20, as the code has it, at the execution of the counterexample: cut
before the second `connect()`, the callbacks are `onOpen` and `onClose`, with
the receive loop stopped; the message comes after the second `connect()`. Cut
after it, no `onClose` comes with the message. -/
theorem no_message_after_close_until_reconnect_witness :
    (∀ before after : List WsEvent,
        (echo_ws_client.run
            (echo_ws_client.execute 1 [.connect {} [.message "early" false]])
            [.receiver, .receiver, .receiver, .caller, .caller, .receiver, .receiver,
             .caller, .caller, .receiver]).log
          = (echo_ws_client.execute 1 [.connect {} [.message "early" false]]).log
              ++ (before ++ WsEvent.on_close :: after) →
        (echo_ws_client.run
            (echo_ws_client.execute 1 [.connect {} [.message "early" false]])
            [.receiver, .receiver, .receiver, .caller, .caller, .receiver, .receiver,
             .caller, .caller, .receiver]).receive_stopped = true
        ∧ ∀ msg : WebSocketMessage, WsEvent.on_message msg ∉ after)
    ∧ (echo_ws_client.run
          (echo_ws_client.execute 1 [.connect {} [.message "early" false]])
          [.receiver, .receiver, .receiver, .caller, .caller, .receiver, .receiver,
           .caller, .caller, .receiver]).log
        = [WsEvent.on_open, WsEvent.on_message { data := "early" }, WsEvent.on_close]
    ∧ (echo_ws_client.run
          (echo_ws_client.execute 1 [.connect {} [.message "early" false]])
          [.receiver, .receiver, .receiver, .caller, .caller, .receiver, .receiver,
           .caller, .caller, .receiver]).receive_stopped = true :=
  ⟨(no_message_after_close_until_reconnect echo_ws_client 1
      [.connect {} [.message "early" false]]
      [.receiver, .receiver, .receiver, .caller, .caller, .receiver, .receiver,
       .caller, .caller, .receiver]).2.2,
    by decide, by decide⟩

/-- C20, as the code has it, at an execution of one connection: `close()` is
called while the second of three messages is being read; that message is
still handed to `onMessage`, then the
loop stops, `close()` joins the thread and calls `onClose`, and the third
message is never delivered. -/
theorem close_waits_for_message_in_flight :
    (echo_ws_client.session {} [.message "a" false, .message "b" false, .message "c" false] 1
        [.receiver, .receiver, .receiver, .receiver, .caller, .receiver, .caller, .caller,
         .receiver, .receiver, .receiver, .caller, .caller, .receiver, .receiver]).log
      = [WsEvent.on_open, WsEvent.on_message { data := "a" }, WsEvent.on_message { data := "b" },
         WsEvent.on_close]
    ∧ (echo_ws_client.session {} [.message "a" false, .message "b" false, .message "c" false] 1
        [.receiver, .receiver, .receiver, .receiver, .caller, .receiver, .caller, .caller,
         .receiver, .receiver, .receiver, .caller, .caller, .receiver, .receiver]).incoming
      = [.message "c" false] := by
  decide

end WsClientClaims

/-! ## Static files: auxiliary facts -/

section StaticFacts

variable {ρ : Type}

/-- A file that can be opened is served: status 200, the contents as body,
and the `Content-Type` of the table for the text from the last dot of the file
path on; without a dot the headers stay as they are. -/
theorem serve_static_file_served (fs : String → Option String) (srv : Server ρ)
    (req : Request) (res : Response) (contents : String)
    (hfile : fs (srv.base_dir_ ++ req.path) = some contents) :
    ∃ headers : Headers,
      serve_static_file fs srv req res
        = ({ res with status := 200, body := contents, headers := headers }, true)
      ∧ (∀ ext, rfind_dot (srv.base_dir_ ++ req.path).data = some ext →
          headers = multimap_emplace res.headers "Content-Type"
            (spec_content_type (String.mk ext)))
      ∧ (rfind_dot (srv.base_dir_ ++ req.path).data = none → headers = res.headers) := by
  unfold serve_static_file
  simp only [hfile]
  cases hdot : rfind_dot (srv.base_dir_ ++ req.path).data with
  | none => exact ⟨res.headers, rfl, (fun ext h => by cases h), fun _ => rfl⟩
  | some e =>
    refine ⟨multimap_emplace res.headers "Content-Type" (spec_content_type (String.mk e)),
      ?_, (fun ext h => by cases h; rfl), (fun h => by cases h)⟩
    simp only [spec_content_type, Response.set_header]
    by_cases h1 : String.mk e = ".html"
    · simp [h1]
    by_cases h2 : String.mk e = ".htm"
    · simp [h2]
    by_cases h3 : String.mk e = ".css"
    · simp [h3]
    by_cases h4 : String.mk e = ".js"
    · simp [h4]
    by_cases h5 : String.mk e = ".json"
    · simp [h5]
    by_cases h6 : String.mk e = ".png"
    · simp [h6]
    by_cases h7 : String.mk e = ".jpg"
    · simp [h7]
    by_cases h8 : String.mk e = ".jpeg"
    · simp [h8]
    by_cases h9 : String.mk e = ".gif"
    · simp [h9]
    by_cases h10 : String.mk e = ".svg"
    · simp [h10]
    simp [h1, h2, h3, h4, h5, h6, h7, h8, h9, h10]

/-- A file that cannot be opened leaves the response as it is. -/
theorem serve_static_file_missing (fs : String → Option String) (srv : Server ρ)
    (req : Request) (res : Response) (hfile : fs (srv.base_dir_ ++ req.path) = none) :
    serve_static_file fs srv req res = (res, false) := by
  unfold serve_static_file
  simp only [hfile]

/-- The route lookup adds no event other than the calls of a route handler and
of the exception handler. -/
theorem find_loop_filter_other (p : Event → Bool)
    (hp1 : ∀ l i m, p (.route_handler l i m) = false) (hp2 : p .exception_handler = false)
    (regex_match : ρ → String → Option Match) (srv : Server ρ) (list : HandlerList)
    (hs : List (ρ × Handler)) (k : Nat) (st : RouteState) :
    (find_matching_handler_loop regex_match srv list hs k st).log.filter p
      = st.log.filter p := by
  induction hs generalizing k with
  | nil => rfl
  | cons e rest ih =>
    simp only [find_matching_handler_loop]
    cases hm : regex_match e.1 st.req.path with
    | none => exact ih (k + 1)
    | some m =>
      simp only
      cases (e.2 { st.req with matches_ := m } st.res).thrown with
      | none => simp [List.filter_append, hp1]
      | some t =>
        cases t with
        | other => simp [List.filter_append, hp1]
        | std_exception w =>
          cases srv.exception_handler_ with
          | none => simp [List.filter_append, hp1]
          | some eh => simp [List.filter_append, hp1, hp2]

/-- Either no entry of a vector matches the path, or there is a first one that
does. -/
theorem first_match_cases (regex_match : ρ → String → Option Match) (path : String)
    (hs : List (ρ × Handler)) :
    (∀ e ∈ hs, regex_match e.1 path = none)
      ∨ ∃ (pre post : List (ρ × Handler)) (pattern : ρ) (handler : Handler) (m : Match),
          hs = pre ++ (pattern, handler) :: post
          ∧ (∀ e ∈ pre, regex_match e.1 path = none)
          ∧ regex_match pattern path = some m := by
  induction hs with
  | nil => exact Or.inl (fun e he => by cases he)
  | cons e rest ih =>
    cases hm : regex_match e.1 path with
    | some m => exact Or.inr ⟨[], rest, e.1, e.2, m, rfl, (fun x hx => by cases hx), hm⟩
    | none =>
      rcases ih with h | ⟨pre, post, pattern, handler, m, h1, h2, h3⟩
      · refine Or.inl (fun x hx => ?_)
        rcases List.mem_cons.mp hx with h0 | h0
        · rw [h0]; exact hm
        · exact h x h0
      · refine Or.inr ⟨e :: pre, post, pattern, handler, m, by rw [h1]; rfl, ?_, h3⟩
        intro x hx
        rcases List.mem_cons.mp hx with h0 | h0
        · rw [h0]; exact hm
        · exact h2 x h0

/-- When an entry of the consulted vector matches the path, no static file is
looked up. -/
theorem route_request_matched_no_static (regex_match : ρ → String → Option Match)
    (fs : String → Option String) (srv : Server ρ) (req : Request) (res : Response)
    (hhook : ∀ hook, srv.pre_routing_handler_ = some hook → (hook req res).thrown = none)
    (pre post : List (ρ × Handler)) (pattern : ρ) (handler : Handler) (m : Match)
    (hlist : srv.handlers (get_handlers_for_method req.method)
      = pre ++ (pattern, handler) :: post)
    (hpre : ∀ e ∈ pre, regex_match e.1 req.path = none)
    (hm : regex_match pattern req.path = some m) :
    (route_request regex_match fs srv req res).log.filter Event.is_static_file = [] := by
  obtain ⟨h1, h2, _⟩ := pre_routing_returns srv req res hhook
  have hfilter : (find_matching_handler regex_match srv
      (pre_routing srv { req := req, res := res })).log.filter Event.is_static_file = [] := by
    unfold find_matching_handler
    rw [find_loop_filter_other _ (fun _ _ _ => rfl) rfl, pre_routing_filter_log _ rfl]
    rfl
  have hstate := find_loop_hit_handled regex_match srv
    (get_handlers_for_method (pre_routing srv { req := req, res := res }).req.method)
    (pattern, handler) [] pre.length (pre_routing srv { req := req, res := res }) m
    (by rw [h2]; exact hm)
  rw [← find_matching_handler_hit regex_match srv _ pre post pattern handler m
      (by rw [h2]; exact hlist) (by rw [h2]; exact hpre) (by rw [h2]; exact hm)] at hstate
  unfold route_request
  rw [andThen_of_none (pre_routing srv) rfl, andThen_of_none _ h1]
  rcases hstate with hh | ht
  · rw [file_and_error_of_handled fs srv _ hh, finish_filter_log _ rfl rfl, hfilter]
  · rw [later_blocks_of_thrown fs srv _ ht, hfilter]

/-- What `route_request` does when no entry of the consulted vector matches:
the block for static files runs on what the pre-routing hook left. -/
theorem route_request_unmatched (regex_match : ρ → String → Option Match)
    (fs : String → Option String) (srv : Server ρ) (req : Request) (res : Response)
    (hhook : ∀ hook, srv.pre_routing_handler_ = some hook → (hook req res).thrown = none)
    (hno : ∀ e ∈ srv.handlers (get_handlers_for_method req.method),
      regex_match e.1 req.path = none) :
    route_request regex_match fs srv req res
      = (((file_serving fs srv (pre_routing srv { req := req, res := res })).andThen
          (error_handling srv)).andThen (post_routing srv)).andThen (logging srv) := by
  obtain ⟨h1, h2, h3⟩ := pre_routing_returns srv req res hhook
  have hfind : find_matching_handler regex_match srv
      (pre_routing srv { req := req, res := res })
      = pre_routing srv { req := req, res := res } :=
    find_matching_handler_no_match regex_match srv _ (by rw [h2]; exact hno)
  unfold route_request
  rw [andThen_of_none (pre_routing srv) rfl, andThen_of_none _ h1, hfind,
    andThen_of_none _ h1]

/-- The block for static files when the file can be read: the request is
handled with the file as response. -/
theorem file_serving_served (fs : String → Option String) (srv : Server ρ) (st : RouteState)
    (hh : st.handled = false) (hbase : srv.base_dir_ ≠ "") (contents : String)
    (hfile : fs (srv.base_dir_ ++ st.req.path) = some contents) :
    ∃ headers : Headers,
      file_serving fs srv st
        = { st with
            res := { st.res with status := 200, body := contents, headers := headers },
            handled := true,
            log := st.log ++ [Event.static_file (srv.base_dir_ ++ st.req.path)] }
      ∧ (∀ ext, rfind_dot (srv.base_dir_ ++ st.req.path).data = some ext →
          headers = multimap_emplace st.res.headers "Content-Type"
            (spec_content_type (String.mk ext)))
      ∧ (rfind_dot (srv.base_dir_ ++ st.req.path).data = none → headers = st.res.headers) := by
  obtain ⟨headers, h1, h2, h3⟩ := serve_static_file_served fs srv st.req st.res contents hfile
  refine ⟨headers, ?_, h2, h3⟩
  unfold file_serving
  rw [h1]
  simp [hh, hbase]

/-- The text from the last dot on, for a text cut at its last dot. -/
theorem rfind_dot_append (stem tail : List Char) (htail : '.' ∉ tail) :
    rfind_dot (stem ++ '.' :: tail) = some ('.' :: tail) := by
  have hnone : ∀ l : List Char, '.' ∉ l → rfind_dot l = none := by
    intro l
    induction l with
    | nil => intro _; rfl
    | cons c cs ih =>
      intro h
      have hc : c ≠ '.' := fun e => h (by rw [e]; exact List.mem_cons_self _ _)
      simp only [rfind_dot, ih (fun h0 => h (List.mem_cons_of_mem _ h0)), hc, if_false]
  induction stem with
  | nil => simp only [List.nil_append, rfind_dot, hnone tail htail, if_true]
  | cons c stem ih => simp only [List.cons_append, rfind_dot, List.append_eq, ih]

/-- A text without dot has no last dot. -/
theorem rfind_dot_none (l : List Char) (h : '.' ∉ l) : rfind_dot l = none := by
  induction l with
  | nil => rfl
  | cons c cs ih =>
    have hc : c ≠ '.' := fun e => h (by rw [e]; exact List.mem_cons_self _ _)
    simp only [rfind_dot, ih (fun h0 => h (List.mem_cons_of_mem _ h0)), hc, if_false]

/-- The text after the last separator, for a text cut there. -/
theorem spec_after_last_append (sep : Char) (stem tail : List Char) (htail : sep ∉ tail) :
    spec_after_last sep (stem ++ sep :: tail) = some tail := by
  have hnone : ∀ l : List Char, sep ∉ l → spec_after_last sep l = none := by
    intro l
    induction l with
    | nil => intro _; rfl
    | cons c cs ih =>
      intro h
      have hc : c ≠ sep := fun e => h (by rw [e]; exact List.mem_cons_self _ _)
      simp only [spec_after_last, ih (fun h0 => h (List.mem_cons_of_mem _ h0)), hc, if_false]
  induction stem with
  | nil => simp only [List.nil_append, spec_after_last, hnone tail htail, if_true]
  | cons c stem ih => simp only [List.cons_append, spec_after_last, List.append_eq, ih]

/-- A text without the separator has no text after it. -/
theorem spec_after_last_none (sep : Char) (l : List Char) (h : sep ∉ l) :
    spec_after_last sep l = none := by
  induction l with
  | nil => rfl
  | cons c cs ih =>
    have hc : c ≠ sep := fun e => h (by rw [e]; exact List.mem_cons_self _ _)
    simp only [spec_after_last, ih (fun h0 => h (List.mem_cons_of_mem _ h0)), hc, if_false]

/-- A text that holds a character can be cut at the last occurrence of it. -/
theorem cut_at_last (sep : Char) (l : List Char) (h : sep ∈ l) :
    ∃ stem tail, l = stem ++ sep :: tail ∧ sep ∉ tail := by
  induction l with
  | nil => cases h
  | cons c cs ih =>
    by_cases hcs : sep ∈ cs
    · obtain ⟨stem, tail, h1, h2⟩ := ih hcs
      exact ⟨c :: stem, tail, by rw [h1]; rfl, h2⟩
    · rcases List.mem_cons.mp h with h0 | h0
      · exact ⟨[], cs, by rw [h0]; rfl, hcs⟩
      · exact absurd h0 hcs

/-- An extension that holds a `/` is none of the table: its content type is
`application/octet-stream`. -/
theorem spec_content_type_of_slash (tail : List Char) (h : '/' ∈ tail) :
    spec_content_type (String.mk ('.' :: tail)) = "application/octet-stream" := by
  have hne : ∀ t : String, '/' ∉ t.data → String.mk ('.' :: tail) ≠ t := by
    intro t ht heq
    apply ht
    rw [← heq]
    exact List.mem_cons_of_mem _ h
  unfold spec_content_type
  simp only [hne ".html" (by decide), hne ".htm" (by decide), hne ".css" (by decide),
    hne ".js" (by decide), hne ".json" (by decide), hne ".png" (by decide),
    hne ".jpg" (by decide), hne ".jpeg" (by decide), hne ".gif" (by decide),
    hne ".svg" (by decide), if_false]

/-- For a file path that holds a dot, the content type of the table for the
text from its last dot on is the content type for the extension of the file:
when the file name has no dot, both are `application/octet-stream`. -/
theorem content_type_of_last_dot (stem tail : List Char) (htail : '.' ∉ tail) :
    spec_content_type (String.mk ('.' :: tail))
      = spec_content_type (spec_extension (String.mk (stem ++ '.' :: tail))) := by
  unfold spec_extension
  simp only
  by_cases hslash : '/' ∈ tail
  · obtain ⟨t1, t2, h1, h2⟩ := cut_at_last '/' tail hslash
    have hcut : stem ++ '.' :: tail = (stem ++ '.' :: t1) ++ '/' :: t2 := by
      rw [h1]
      simp
    have hdot2 : '.' ∉ t2 := fun h => htail (by rw [h1]; simp [h])
    rw [hcut, spec_after_last_append '/' _ t2 h2]
    simp only [Option.getD_some, spec_after_last_none '.' t2 hdot2]
    rw [spec_content_type_of_slash tail hslash]
    rfl
  · by_cases hs : '/' ∈ stem
    · obtain ⟨s1, s2, h1, h2⟩ := cut_at_last '/' stem hs
      have hcut : stem ++ '.' :: tail = s1 ++ '/' :: (s2 ++ '.' :: tail) := by
        rw [h1]
        simp
      have hno : '/' ∉ s2 ++ '.' :: tail := by
        intro h
        rcases List.mem_append.mp h with h0 | h0
        · exact h2 h0
        · rcases List.mem_cons.mp h0 with h3 | h3
          · exact absurd h3 (by decide)
          · exact hslash h3
      rw [hcut, spec_after_last_append '/' s1 _ hno]
      simp only [Option.getD_some, spec_after_last_append '.' s2 tail htail]
    · have hno : '/' ∉ stem ++ '.' :: tail := by
        intro h
        rcases List.mem_append.mp h with h0 | h0
        · exact hs h0
        · rcases List.mem_cons.mp h0 with h3 | h3
          · exact absurd h3 (by decide)
          · exact hslash h3
      rw [spec_after_last_none '/' _ hno]
      simp only [Option.getD_none, spec_after_last_append '.' stem tail htail]

/-- The events of an unmatched request other than the calls of the hooks, the
error handler and the logger: the lookup of the file, when a base directory is
set. -/
theorem route_request_unmatched_events (p : Event → Bool)
    (hp1 : p .pre_routing_handler = false) (hp2 : p .error_handler = false)
    (hp3 : p .post_routing_handler = false) (hp4 : p .logger = false)
    (regex_match : ρ → String → Option Match)
    (fs : String → Option String) (srv : Server ρ) (req : Request) (res : Response)
    (hhook : ∀ hook, srv.pre_routing_handler_ = some hook → (hook req res).thrown = none)
    (hno : ∀ e ∈ srv.handlers (get_handlers_for_method req.method),
      regex_match e.1 req.path = none) :
    (route_request regex_match fs srv req res).log.filter p
      = if srv.base_dir_ = "" then []
        else [Event.static_file (srv.base_dir_ ++ req.path)].filter p := by
  obtain ⟨_, h2, h3⟩ := pre_routing_returns srv req res hhook
  have hpre : (pre_routing srv { req := req, res := res }).log.filter p = [] := by
    rw [pre_routing_filter_log _ hp1]
    rfl
  rw [route_request_unmatched regex_match fs srv req res hhook hno,
    finish_filter_log _ hp3 hp4, andThen_filter_log _ _ (error_handling_filter_log _ hp2 srv)]
  unfold file_serving
  by_cases hb : srv.base_dir_ = ""
  · simp [hb, hpre]
  · simp [hb, h3, hpre, h2, List.filter_append]

end StaticFacts

/-! ## Static files and the error handler: the claims -/

section StaticClaims

variable {ρ : Type}

/-- C21, counterexample. With base directory `www`, GET `/LICENSE` matches no
route and the file `www/LICENSE` is read and served with status 200, but the
response has no `Content-Type` at all: the file path holds no dot, and
`serve_static_file` sets a content type only after finding one. By the table of
the claim a file with any other extension than the listed ones, so also one
without extension, is `application/octet-stream`. -/
theorem file_without_dot_has_no_content_type :
    (route_request Regex.regex_match plain_dir_files plain_dir_server
        { method := "GET", path := "/LICENSE" } {}).log
      = [Event.static_file "www/LICENSE"]
    ∧ (route_request Regex.regex_match plain_dir_files plain_dir_server
        { method := "GET", path := "/LICENSE" } {}).res.status = 200
    ∧ (route_request Regex.regex_match plain_dir_files plain_dir_server
        { method := "GET", path := "/LICENSE" } {}).res.body = "MIT"
    ∧ (route_request Regex.regex_match plain_dir_files plain_dir_server
        { method := "GET", path := "/LICENSE" } {}).res.headers = []
    ∧ spec_static_headers [] "www/LICENSE" = [("Content-Type", "application/octet-stream")]
    ∧ (route_request Regex.regex_match plain_dir_files plain_dir_server
        { method := "GET", path := "/LICENSE" } {}).res.headers
        ≠ spec_static_headers [] "www/LICENSE" := by
  decide

/-- C21, as the code has it. The static file fallback of `route_request` (the
pre-routing hook, if any, returning). A file is looked up only when no entry of
the vector consulted for the method matches the path and a base directory is
set, and the file is the base directory followed by the request path. When that
file can be read, the response handed on to the post-routing hook and the
logger has status 200 and the contents of the file as body, and the error
handler is not called. Its headers are those the pre-routing hook left, with a
`Content-Type` added only when the file path holds a dot: the one of the table
for the text from the last dot of the whole path on, which is the content type
the specification gives for the extension of the file (a file name without dot
in a path with a dot gets `application/octet-stream`); when the file path holds
no dot, no `Content-Type` is added. When the file cannot be read, the error
block runs on the response the pre-routing hook left. -/
theorem static_file_fallback (regex_match : ρ → String → Option Match)
    (fs : String → Option String) (srv : Server ρ) (req : Request) (res : Response)
    (hhook : ∀ hook, srv.pre_routing_handler_ = some hook → (hook req res).thrown = none) :
    (∀ file_path, Event.static_file file_path ∈ (route_request regex_match fs srv req res).log →
        file_path = srv.base_dir_ ++ req.path ∧ srv.base_dir_ ≠ ""
        ∧ ∀ e ∈ srv.handlers (get_handlers_for_method req.method),
            regex_match e.1 req.path = none)
    ∧ ((∀ e ∈ srv.handlers (get_handlers_for_method req.method),
          regex_match e.1 req.path = none) →
      srv.base_dir_ ≠ "" →
      (route_request regex_match fs srv req res).log.count
          (Event.static_file (srv.base_dir_ ++ req.path)) = 1
      ∧ (∀ contents, fs (srv.base_dir_ ++ req.path) = some contents →
          ∃ st : RouteState,
            route_request regex_match fs srv req res
              = (st.andThen (post_routing srv)).andThen (logging srv)
            ∧ st.thrown = none
            ∧ st.res.status = 200
            ∧ st.res.body = contents
            ∧ (∀ stem tail : List Char,
                (srv.base_dir_ ++ req.path).data = stem ++ '.' :: tail → '.' ∉ tail →
                st.res.headers
                  = multimap_emplace (pre_routing srv { req := req, res := res }).res.headers
                      "Content-Type" (spec_content_type (String.mk ('.' :: tail))))
            ∧ ('.' ∈ (srv.base_dir_ ++ req.path).data →
                st.res.headers
                  = spec_static_headers (pre_routing srv { req := req, res := res }).res.headers
                      (srv.base_dir_ ++ req.path))
            ∧ ('.' ∉ (srv.base_dir_ ++ req.path).data →
                st.res.headers = (pre_routing srv { req := req, res := res }).res.headers)
            ∧ (route_request regex_match fs srv req res).log.count Event.error_handler = 0)
      ∧ (fs (srv.base_dir_ ++ req.path) = none →
          ∃ st0 : RouteState,
            route_request regex_match fs srv req res
              = ((error_handling srv st0).andThen (post_routing srv)).andThen (logging srv)
            ∧ st0.thrown = none ∧ st0.handled = false
            ∧ st0.res = (pre_routing srv { req := req, res := res }).res)) := by
  obtain ⟨h1, h2, h3⟩ := pre_routing_returns srv req res hhook
  refine ⟨?_, ?_⟩
  · intro file_path hmem
    have hf : Event.static_file file_path
        ∈ (route_request regex_match fs srv req res).log.filter Event.is_static_file :=
      List.mem_filter.mpr ⟨hmem, rfl⟩
    rcases first_match_cases regex_match req.path
        (srv.handlers (get_handlers_for_method req.method)) with
      hno | ⟨pre, post, pattern, handler, m, hl, hp, hm⟩
    · rw [route_request_unmatched_events _ rfl rfl rfl rfl regex_match fs srv req res hhook
        hno] at hf
      by_cases hb : srv.base_dir_ = ""
      · simp [hb] at hf
      · simp only [hb, if_false, List.filter, Event.is_static_file, List.mem_singleton] at hf
        injection hf with hf
        exact ⟨hf, hb, hno⟩
    · rw [route_request_matched_no_static regex_match fs srv req res hhook pre post pattern
        handler m hl hp hm] at hf
      cases hf
  · intro hno hbase
    refine ⟨?_, ?_, ?_⟩
    · rw [count_eq_filter, route_request_unmatched_events _ rfl rfl rfl rfl regex_match fs srv
        req res hhook hno]
      simp [hbase]
    · intro contents hfile
      obtain ⟨headers, hserved, hdot, hnodot⟩ := file_serving_served fs srv
        (pre_routing srv { req := req, res := res }) h3 hbase contents (by rw [h2]; exact hfile)
      rw [h2] at hdot hnodot
      have herr : error_handling srv
          (file_serving fs srv (pre_routing srv { req := req, res := res }))
          = file_serving fs srv (pre_routing srv { req := req, res := res }) := by
        rw [hserved]
        simp [error_handling]
      have hthrown : (file_serving fs srv (pre_routing srv { req := req, res := res })).thrown
          = none := by
        rw [hserved]
        exact h1
      have hheaders : (file_serving fs srv (pre_routing srv { req := req, res := res })).res.headers
          = headers := by
        rw [hserved]
      have hcut : ∀ stem tail : List Char,
          (srv.base_dir_ ++ req.path).data = stem ++ '.' :: tail → '.' ∉ tail →
          headers = multimap_emplace (pre_routing srv { req := req, res := res }).res.headers
            "Content-Type" (spec_content_type (String.mk ('.' :: tail))) := by
        intro stem tail hdata htail
        exact hdot ('.' :: tail) (by rw [hdata]; exact rfind_dot_append stem tail htail)
      refine ⟨file_serving fs srv (pre_routing srv { req := req, res := res }), ?_, hthrown,
        by rw [hserved], by rw [hserved], ?_, ?_, ?_, ?_⟩
      · rw [route_request_unmatched regex_match fs srv req res hhook hno,
          andThen_of_none _ hthrown, herr]
      · intro stem tail hdata htail
        rw [hheaders]
        exact hcut stem tail hdata htail
      · intro hmem
        obtain ⟨stem, tail, hdata, htail⟩ := cut_at_last '.' _ hmem
        rw [hheaders, hcut stem tail hdata htail]
        unfold spec_static_headers
        rw [content_type_of_last_dot stem tail htail, ← hdata]
      · intro hmem
        rw [hheaders]
        exact hnodot (rfind_dot_none _ hmem)
      · have hpre : (pre_routing srv { req := req, res := res }).log.filter
            (fun e => e == Event.error_handler) = [] := by
          rw [pre_routing_filter_log _ rfl]
          rfl
        rw [count_eq_filter, route_request_unmatched regex_match fs srv req res hhook hno,
          andThen_of_none _ hthrown, herr, finish_filter_log _ rfl rfl, hserved]
        simp only [List.filter_append, hpre]
        rfl
    · intro hfile
      obtain ⟨f1, f2, _, f4⟩ := file_serving_not_served fs srv
        (pre_routing srv { req := req, res := res }) (Or.inr (by rw [h2]; exact hfile))
      have hthrown : (file_serving fs srv (pre_routing srv { req := req, res := res })).thrown
          = none := by
        rw [f1, h1]
      refine ⟨file_serving fs srv (pre_routing srv { req := req, res := res }), ?_,
        hthrown, by rw [f2, h3], f4⟩
      rw [route_request_unmatched regex_match fs srv req res hhook hno,
        andThen_of_none _ hthrown]

/-- Witness of C21 as the code has it, on the server of the test with base
directory `./www`: GET `/index.html` matches no route, the one file looked up
is `./www/index.html`, and it is served as `text/html` with status 200;
`/style.css` is served as `text/css`, `/LICENSE` (the last dot of
`./www/LICENSE` is the first character of the path) as
`application/octet-stream`; GET `/test` is answered by its route without a file
being looked up; for GET `/missing.html` the lookup fails and the error block
answers 404. -/
theorem static_file_fallback_witness :
    (∀ file_path,
        Event.static_file file_path
          ∈ (route_request Regex.regex_match www_files static_server
              { method := "GET", path := "/index.html" } {}).log →
        file_path = static_server.base_dir_ ++ "/index.html" ∧ static_server.base_dir_ ≠ ""
        ∧ ∀ e ∈ static_server.handlers (get_handlers_for_method "GET"),
            Regex.regex_match e.1 "/index.html" = none)
    ∧ (route_request Regex.regex_match www_files static_server
          { method := "GET", path := "/index.html" } {}).log
        = [Event.static_file "./www/index.html"]
    ∧ (route_request Regex.regex_match www_files static_server
          { method := "GET", path := "/index.html" } {}).res.status = 200
    ∧ (route_request Regex.regex_match www_files static_server
          { method := "GET", path := "/index.html" } {}).res.body = "<h1>Home</h1>"
    ∧ (route_request Regex.regex_match www_files static_server
          { method := "GET", path := "/index.html" } {}).res.headers
        = [("Content-Type", "text/html")]
    ∧ (route_request Regex.regex_match www_files static_server
          { method := "GET", path := "/style.css" } {}).res.headers
        = [("Content-Type", "text/css")]
    ∧ (route_request Regex.regex_match www_files static_server
          { method := "GET", path := "/LICENSE" } {}).res.headers
        = [("Content-Type", "application/octet-stream")]
    ∧ (route_request Regex.regex_match www_files static_server
          { method := "GET", path := "/test" } {}).log
        = [Event.route_handler .get_handlers_ 0 ["/test"]]
    ∧ (route_request Regex.regex_match www_files static_server
          { method := "GET", path := "/missing.html" } {}).log
        = [Event.static_file "./www/missing.html"]
    ∧ (route_request Regex.regex_match www_files static_server
          { method := "GET", path := "/missing.html" } {}).res.status = 404 :=
  ⟨(static_file_fallback Regex.regex_match www_files static_server
      { method := "GET", path := "/index.html" } {} (fun _ h => by cases h)).1,
    by decide, by decide, by decide, by decide, by decide, by decide, by decide, by decide,
    by decide⟩

/-- C25. `serve_static_file` neither normalizes nor rejects the request path.
For every base directory and request path, the one file it reads is the one
named by the base directory followed by the path, character by character: what
it does depends on the file system at that name only; if that file can be read
it is served with status 200 and its contents as body, and if not the response
is left alone and the result is false. The path is the request target up to the
first `?`, as `handle_session` cuts it, and in `route_request` the file looked
up for an unmatched request is that very name. -/
theorem static_path_is_not_normalized (fs : String → Option String) (srv : Server ρ)
    (req : Request) (res : Response) :
    (∀ other : String → Option String,
        other (srv.base_dir_ ++ req.path) = fs (srv.base_dir_ ++ req.path) →
        serve_static_file other srv req res = serve_static_file fs srv req res)
    ∧ (∀ contents, fs (srv.base_dir_ ++ req.path) = some contents →
        (serve_static_file fs srv req res).2 = true
        ∧ (serve_static_file fs srv req res).1.status = 200
        ∧ (serve_static_file fs srv req res).1.body = contents)
    ∧ (fs (srv.base_dir_ ++ req.path) = none → serve_static_file fs srv req res = (res, false))
    ∧ (∀ regex_match : ρ → String → Option Match,
        (∀ hook, srv.pre_routing_handler_ = some hook → (hook req res).thrown = none) →
        (∀ e ∈ srv.handlers (get_handlers_for_method req.method),
          regex_match e.1 req.path = none) →
        srv.base_dir_ ≠ "" →
        (route_request regex_match fs srv req res).log.filter Event.is_static_file
          = [Event.static_file (srv.base_dir_ ++ req.path)])
    ∧ (∀ (beast_req : BeastRequest) (remote_endpoint : Option (String × Int))
        (request : Request),
        convert_request beast_req remote_endpoint = .ok request →
        request.path.data = (split_target beast_req.target.data).1) := by
  refine ⟨?_, ?_, ?_, ?_, ?_⟩
  · intro other hsame
    unfold serve_static_file
    simp only [hsame]
  · intro contents hfile
    obtain ⟨headers, h, _, _⟩ := serve_static_file_served fs srv req res contents hfile
    rw [h]
    exact ⟨rfl, rfl, rfl⟩
  · exact serve_static_file_missing fs srv req res
  · intro regex_match hhook hno hbase
    rw [route_request_unmatched_events _ rfl rfl rfl rfl regex_match fs srv req res hhook hno]
    simp [hbase, Event.is_static_file]
  · intro beast_req remote_endpoint request hconv
    unfold convert_request at hconv
    cases hq : (split_target beast_req.target.data).2 with
    | none =>
      have hnone : ∀ t : List Char, (split_target t).2 = none → (split_target t).1 = t := by
        intro t
        induction t with
        | nil => intro _; rfl
        | cons c cs ih =>
          intro h
          unfold split_target at h ⊢
          by_cases hc : c = '?'
          · simp [hc] at h
          · simp only [hc, if_false] at h ⊢
            rw [ih h]
      simp only [hq] at hconv
      cases remote_endpoint with
      | none =>
        simp only at hconv
        injection hconv with hconv
        rw [← hconv, hnone _ hq]
      | some ep =>
        simp only at hconv
        injection hconv with hconv
        rw [← hconv, hnone _ hq]
    | some query_str =>
      simp only [hq] at hconv
      cases hp : parse_query_text (String.mk query_str) [] with
      | error e =>
        simp only [hp] at hconv
        cases hconv
      | ok params =>
        simp only [hp] at hconv
        cases remote_endpoint with
        | none =>
          simp only at hconv
          injection hconv with hconv
          rw [← hconv]
        | some ep =>
          simp only at hconv
          injection hconv with hconv
          rw [← hconv]

/-- C25, at a path that leaves the base directory: with base directory `./www`
the target `/../secret.txt` reaches routing as the path `/../secret.txt`, the
file read is `./www/../secret.txt`, and its contents are written with status
200; the file system has no file `./secret.txt` or `./www/secret.txt`. -/
theorem static_path_is_not_normalized_witness :
    (∀ other : String → Option String,
        other (static_server.base_dir_ ++ "/../secret.txt")
          = www_files (static_server.base_dir_ ++ "/../secret.txt") →
        serve_static_file other static_server { path := "/../secret.txt" } {}
          = serve_static_file www_files static_server { path := "/../secret.txt" } {})
    ∧ (route_request Regex.regex_match www_files static_server
          { method := "GET", path := "/../secret.txt" } {}).log
        = [Event.static_file "./www/../secret.txt"]
    ∧ (handle_session Regex.regex_match www_files static_server
          { incoming := [.request { target := "/../secret.txt", keep_alive := false }
              none] }).written
        = [{ version := 11, result := 200, keep_alive := false,
             fields := [("Content-Type", "application/octet-stream")],
             body := "secret" }]
    ∧ www_files "./secret.txt" = none ∧ www_files "./www/secret.txt" = none :=
  ⟨(static_path_is_not_normalized www_files static_server { path := "/../secret.txt" } {}).1,
    by decide, by decide, by decide, by decide⟩

end StaticClaims

/-! ## Query strings, the restricted round trip and malformed escapes: auxiliary facts -/

section EscapeFacts

/-- The order of `std::string` is asymmetric. -/
theorem str_less_asymm : ∀ x y : List Char, str_less x y = true → str_less y x = false
  | [], [], h => by simp [str_less] at h
  | [], _ :: _, _ => rfl
  | _ :: _, [], h => by simp [str_less] at h
  | a :: as, b :: bs, h => by
    simp only [str_less, Bool.or_eq_true, decide_eq_true_eq, Bool.and_eq_true, beq_iff_eq] at h
    simp only [str_less, Bool.or_eq_false_iff, decide_eq_false_iff_not, Bool.and_eq_false_imp,
      beq_iff_eq]
    rcases h with h | ⟨h1, h2⟩
    · refine ⟨by omega, ?_⟩
      intro hba
      rw [hba] at h
      omega
    · subst h1
      exact ⟨by omega, fun _ => str_less_asymm as bs h2⟩

/-- The order of `std::string` is transitive. -/
theorem str_less_trans : ∀ x y z : List Char,
    str_less x y = true → str_less y z = true → str_less x z = true
  | [], [], _, h, _ => by simp [str_less] at h
  | [], _ :: _, [], _, h => by simp [str_less] at h
  | [], _ :: _, _ :: _, _, _ => rfl
  | _ :: _, [], _, h, _ => by simp [str_less] at h
  | _ :: _, _ :: _, [], _, h => by simp [str_less] at h
  | a :: as, b :: bs, c :: cs, h1, h2 => by
    simp only [str_less, Bool.or_eq_true, decide_eq_true_eq, Bool.and_eq_true,
      beq_iff_eq] at h1 h2 ⊢
    rcases h1 with h1 | ⟨e1, h1⟩
    · rcases h2 with h2 | ⟨e2, _⟩
      · exact Or.inl (by omega)
      · subst e2
        exact Or.inl h1
    · subst e1
      rcases h2 with h2 | ⟨e2, h2⟩
      · exact Or.inl h2
      · exact Or.inr ⟨e2, str_less_trans as bs cs h1 h2⟩

/-- The entries after an `emplace`: the new one and the old ones. -/
theorem multimap_emplace_mem_cases (m : List (String × String)) (key val : String)
    (e : String × String) (he : e ∈ multimap_emplace m key val) :
    e = (key, val) ∨ e ∈ m := by
  induction m with
  | nil =>
    simp only [multimap_emplace, List.mem_singleton] at he
    exact Or.inl he
  | cons x rest ih =>
    unfold multimap_emplace at he
    split at he
    · rcases List.mem_cons.mp he with h | h
      · exact Or.inl h
      · exact Or.inr h
    · rcases List.mem_cons.mp he with h | h
      · exact Or.inr (by rw [h]; exact List.mem_cons_self _ _)
      · rcases ih h with h0 | h0
        · exact Or.inl h0
        · exact Or.inr (List.mem_cons_of_mem _ h0)

/-- The call `emplace` keeps a multimap in key order. -/
theorem multimap_emplace_ordered (m : List (String × String)) (key val : String)
    (h : multimap_ordered m) : multimap_ordered (multimap_emplace m key val) := by
  unfold multimap_ordered at h ⊢
  induction m with
  | nil => simp [multimap_emplace]
  | cons x rest ih =>
    obtain ⟨hx, hrest⟩ := List.pairwise_cons.mp h
    unfold multimap_emplace
    split
    · rename_i hlt
      refine List.pairwise_cons.mpr ⟨?_, h⟩
      intro y hy
      rcases List.mem_cons.mp hy with h0 | h0
      · rw [h0]
        exact str_less_asymm _ _ hlt
      · cases hyk : str_less y.1.data key.data with
        | false => rfl
        | true =>
          have := str_less_trans _ _ _ hyk hlt
          rw [hx y h0] at this
          cases this
    · rename_i hlt
      refine List.pairwise_cons.mpr ⟨?_, ih hrest⟩
      intro y hy
      rcases multimap_emplace_mem_cases rest key val y hy with h0 | h0
      · rw [h0]
        simpa using hlt
      · exact hx y h0

/-- Every multimap built by `emplace` calls is in key order. -/
theorem multimap_built_ordered (entries : List (String × String)) :
    multimap_ordered (entries.foldl (fun m e => multimap_emplace m e.1 e.2) []) := by
  have hgen : ∀ (m : List (String × String)), multimap_ordered m →
      multimap_ordered (entries.foldl (fun m e => multimap_emplace m e.1 e.2) m) := by
    induction entries with
    | nil => exact fun m h => h
    | cons e rest ih => exact fun m h => ih _ (multimap_emplace_ordered m e.1 e.2 h)
  exact hgen [] List.Pairwise.nil

/-- What `std::stoi` throws in this model is a `std::exception` whose `what()`
is `stoi`. -/
theorem stoi_error_what (str : List Char) (e : Thrown) (h : stoi str = .error e) :
    e = .std_exception "stoi" := by
  have hcases : stoi str = .error (.std_exception "stoi") ∨ ∃ v, stoi str = .ok v := by
    have hite : ∀ (c : Prop) [Decidable c] (v : Int),
        (if c then (Except.ok v : Except Thrown Int) else .error (.std_exception "stoi"))
            = .error (.std_exception "stoi")
          ∨ ∃ w, (if c then (Except.ok v : Except Thrown Int)
              else .error (.std_exception "stoi")) = .ok w := by
      intro c _ v
      by_cases h : c <;> simp [h]
    unfold stoi
    simp only
    split
    · exact Or.inl rfl
    · split
      · exact Or.inl rfl
      · exact hite _ _
  rcases hcases with h0 | ⟨v, h0⟩
  · rw [h0] at h
    injection h with h
    exact h.symm
  · rw [h0] at h
    cases h

/-- A character that is no `%` starts no escape. -/
theorem has_malformed_escape_cons (c : Char) (rest : List Char) (hc : c ≠ '%') :
    has_malformed_escape (c :: rest) = has_malformed_escape rest := by
  rw [has_malformed_escape]
  intro a b r h
  exact absurd h hc

/-- A `%` with fewer than two characters after it starts no escape. -/
theorem has_malformed_escape_short (rest : List Char) (hshort : rest.length < 2) :
    has_malformed_escape ('%' :: rest) = has_malformed_escape rest := by
  rw [has_malformed_escape]
  intro a b r _ h
  rw [h] at hshort
  simp at hshort
  omega

/-- The decoder throws exactly on the query strings that hold an escape it
cannot convert, and returns on all others. -/
theorem parse_query_loop_total (n : Nat) :
    ∀ l : List Char, l.length ≤ n → ∀ (in_val : Bool) (key val : List Char) (params : Params),
      (has_malformed_escape l = true →
        parse_query_loop l in_val key val params = .error (.std_exception "stoi"))
      ∧ (has_malformed_escape l = false →
        ∃ result, parse_query_loop l in_val key val params = .ok result) := by
  induction n using Nat.strong_induction_on with
  | _ n ih =>
    intro l hl in_val key val params
    match l, hl with
    | [], _ =>
      exact ⟨fun h => by simp [has_malformed_escape] at h, fun _ => ⟨_, rfl⟩⟩
    | c :: rest, hl =>
      have hlen : rest.length < n := by
        simp only [List.length_cons] at hl
        omega
      by_cases hc : c = '%'
      · subst hc
        match rest, hl, hlen with
        | [], _, h0 =>
          rw [parse_query_loop_percent_short [] in_val key val params (by simp),
            has_malformed_escape_short [] (by simp)]
          exact ih _ h0 [] (Nat.le_refl _) in_val _ _ params
        | [a], _, h0 =>
          rw [parse_query_loop_percent_short [a] in_val key val params (by simp),
            has_malformed_escape_short [a] (by simp)]
          exact ih _ h0 [a] (Nat.le_refl _) in_val _ _ params
        | a :: b :: r, hl, _ =>
          have hr : r.length < n := by
            simp only [List.length_cons] at hl
            omega
          cases hs : stoi [a, b] with
          | error e =>
            have he := stoi_error_what _ e hs
            subst he
            refine ⟨fun _ => ?_, fun h => ?_⟩
            · simp only [parse_query_loop, hs]
            · simp [has_malformed_escape, hs] at h
          | ok v =>
            have hm : has_malformed_escape ('%' :: a :: b :: r) = has_malformed_escape r := by
              simp only [has_malformed_escape, hs]
            rw [hm]
            cases in_val with
            | false =>
              have hp : parse_query_loop ('%' :: a :: b :: r) false key val params
                  = parse_query_loop r false (key ++ [int_to_char v]) val params := by
                simp [parse_query_loop, hs]
              rw [hp]
              exact ih _ hr r (Nat.le_refl _) false _ _ params
            | true =>
              have hp : parse_query_loop ('%' :: a :: b :: r) true key val params
                  = parse_query_loop r true key (val ++ [int_to_char v]) params := by
                simp [parse_query_loop, hs]
              rw [hp]
              exact ih _ hr r (Nat.le_refl _) true _ _ params
      · rw [has_malformed_escape_cons c rest hc]
        by_cases h1 : c = '&'
        · subst h1
          rw [parse_query_loop_amp]
          exact ih _ hlen rest (Nat.le_refl _) false _ _ _
        by_cases h2 : c = '+'
        · subst h2
          rw [parse_query_loop_plus]
          exact ih _ hlen rest (Nat.le_refl _) in_val _ _ params
        by_cases h3 : c = '=' ∧ in_val = false
        · obtain ⟨h3, h4⟩ := h3
          subst h3 h4
          rw [parse_query_loop_eq]
          exact ih _ hlen rest (Nat.le_refl _) true _ _ params
        · rw [parse_query_loop_copy c rest in_val key val params hc h2 h1
            (fun h => by
              cases in_val with
              | true => rfl
              | false => exact absurd ⟨h, rfl⟩ h3)]
          exact ih _ hlen rest (Nat.le_refl _) in_val _ _ params

/-- The first `%` of a query string starts an escape when two characters follow
it. -/
theorem has_malformed_escape_first (pre post : List Char) (a b : Char)
    (hpre : '%' ∉ pre) (hbad : ∀ v, stoi [a, b] ≠ .ok v) :
    has_malformed_escape (pre ++ '%' :: a :: b :: post) = true := by
  induction pre with
  | nil =>
    cases hs : stoi [a, b] with
    | error e => simp [has_malformed_escape, hs]
    | ok v => exact absurd hs (hbad v)
  | cons c pre ih =>
    have hc : c ≠ '%' := fun h => hpre (by rw [h]; exact List.mem_cons_self _ _)
    rw [List.cons_append, has_malformed_escape_cons c _ hc]
    exact ih (fun h => hpre (List.mem_cons_of_mem _ h))

/-- The target is cut at its first `?`. -/
theorem split_target_append (path query : List Char) (hpath : '?' ∉ path) :
    split_target (path ++ '?' :: query) = (path, some query) := by
  induction path with
  | nil => simp [split_target]
  | cons c path ih =>
    have hc : c ≠ '?' := fun h => hpath (by rw [h]; exact List.mem_cons_self _ _)
    rw [List.cons_append, split_target, if_neg hc, ih (fun h => hpath (List.mem_cons_of_mem _ h))]

end EscapeFacts

/-! ## The restricted round trip and malformed escapes: the claims -/

section EscapeClaims

/-- C22. Restricted query-string round trip: for every multimap (entries in key
order, equal keys in the order they were inserted) whose keys are not empty and
whose keys and values hold none of `&`, `=`, `+`, `%`, the string
`Client::Post(path, params)` builds, parsed by `parse_query_text` into an empty
multimap, gives exactly the original multimap: the same entries in the same
order, so under every key the same values at the same places. -/
theorem restricted_query_round_trip (params : Params)
    (hord : multimap_ordered params)
    (hclean : ∀ p ∈ params, p.1 ≠ ""
      ∧ (∀ c ∈ p.1.data, c ≠ '&' ∧ c ≠ '=' ∧ c ≠ '+' ∧ c ≠ '%')
      ∧ (∀ c ∈ p.2.data, c ≠ '&' ∧ c ≠ '=' ∧ c ≠ '+' ∧ c ≠ '%')) :
    ∃ result : Params,
      parse_query_text (form_body params) [] = .ok result
      ∧ result = params
      ∧ ∀ (key : String) (id : Nat),
          multimap_count result key = multimap_count params key
          ∧ multimap_value result key id = multimap_value params key id := by
  refine ⟨params, ?_, rfl, fun _ _ => ⟨rfl, rfl⟩⟩
  unfold parse_query_text
  rw [form_body_eq_plain]
  have h := parse_plain_form_body params []
    (fun p hp => ⟨fun hd => (hclean p hp).1 (by
        cases hk : p.1 with
        | mk d =>
          rw [hk] at hd
          simp only at hd
          rw [hd]),
      (hclean p hp).2.1,
      fun c hc => ⟨((hclean p hp).2.2 c hc).1, ((hclean p hp).2.2 c hc).2.2.1,
        ((hclean p hp).2.2 c hc).2.2.2⟩⟩)
    (by simpa using hord)
  simpa using h

/-- Witness of C22: the multimap made by inserting `tag=b`, `id=7` and `tag=a`
in that order holds `id=7`, `tag=b`, `tag=a`; it is written as
`id=7&tag=b&tag=a` and parsed back to itself, `b` before `a` under `tag`. -/
theorem restricted_query_round_trip_witness :
    [("tag", "b"), ("id", "7"), ("tag", "a")].foldl
        (fun m e => multimap_emplace m e.1 e.2) []
      = [("id", "7"), ("tag", "b"), ("tag", "a")]
    ∧ form_body [("id", "7"), ("tag", "b"), ("tag", "a")] = "id=7&tag=b&tag=a"
    ∧ (∃ result : Params,
        parse_query_text (form_body [("id", "7"), ("tag", "b"), ("tag", "a")]) [] = .ok result
        ∧ result = [("id", "7"), ("tag", "b"), ("tag", "a")]
        ∧ ∀ (key : String) (id : Nat),
            multimap_count result key
              = multimap_count [("id", "7"), ("tag", "b"), ("tag", "a")] key
            ∧ multimap_value result key id
              = multimap_value [("id", "7"), ("tag", "b"), ("tag", "a")] key id)
    ∧ multimap_value [("id", "7"), ("tag", "b"), ("tag", "a")] "tag" 0 = "b"
    ∧ multimap_value [("id", "7"), ("tag", "b"), ("tag", "a")] "tag" 1 = "a" :=
  ⟨by decide, by decide,
    restricted_query_round_trip [("id", "7"), ("tag", "b"), ("tag", "a")]
      (multimap_built_ordered [("tag", "b"), ("id", "7"), ("tag", "a")]) (by decide),
    by decide, by decide⟩

/-- C23, counterexample. The query string `a=%2%zz` holds a `%` followed by
`zz`, two characters that start no hexadecimal number, and `parse_query_text`
returns on it: the decoder takes `%2%` as one escape (`std::stoi` reads `2` and
stops at the `%`) and copies `zz`. The request `/test?a=%2%zz` is routed and
answered. -/
theorem percent_inside_escape_is_decoded :
    parse_query_text "a=%2%zz" [] = .ok [("a", "\x02zz")]
    ∧ (handle_session Regex.regex_match no_files test_server
          { incoming := [.request { target := "/test?a=%2%zz", keep_alive := false }
              none] }).written
        = [{ version := 11, result := 200, keep_alive := false,
             fields := [("Content-Type", "text/plain")], body := "Test OK" }] := by
  decide

/-- C23, as the code has it. `parse_query_text` throws on exactly the query
strings that hold an escape `std::stoi` cannot convert, the escapes being those
the decoder meets reading from the left (every `%` with at least two characters
after it, taken together with those two), and returns on all other strings; the
first `%` of a string is such an escape when two characters follow it, as in
`a=%zz`. What is thrown is a `std::exception`. A request whose target holds
such a query string after its first `?` ends `handle_session`: in the `catch`
clause, with no `route_request` call, nothing written for that request, and no
further read on the connection. -/
theorem malformed_escape_ends_session :
    (∀ (s : String) (params : Params),
        (has_malformed_escape s.data = true →
          parse_query_text s params = .error (.std_exception "stoi"))
        ∧ (has_malformed_escape s.data = false →
          ∃ result, parse_query_text s params = .ok result))
    ∧ (∀ (pre post : List Char) (a b : Char),
        '%' ∉ pre → (∀ v, stoi [a, b] ≠ .ok v) →
        has_malformed_escape (pre ++ '%' :: a :: b :: post) = true)
    ∧ (∀ {ρ : Type} (regex_match : ρ → String → Option Match) (fs : String → Option String)
        (srv : Server ρ) (remote_endpoint : Option (String × Int)) (req : BeastRequest)
        (write_fails : Option String) (rest : List Transport) (path query : List Char),
        req.target.data = path ++ '?' :: query → '?' ∉ path →
        has_malformed_escape query = true →
        (session_loop regex_match fs srv remote_endpoint
            (.request req write_fails :: rest)).routed = []
        ∧ (session_loop regex_match fs srv remote_endpoint
            (.request req write_fails :: rest)).written = []
        ∧ (session_loop regex_match fs srv remote_endpoint
            (.request req write_fails :: rest)).reads = 1
        ∧ (session_loop regex_match fs srv remote_endpoint
            (.request req write_fails :: rest)).ending = .session_error "stoi") := by
  refine ⟨?_, ?_, ?_⟩
  · intro s params
    exact parse_query_loop_total _ s.data (Nat.le_refl _) false [] [] params
  · exact has_malformed_escape_first
  · intro ρ regex_match fs srv remote_endpoint req write_fails rest path query htarget hpath
      hbad
    have hparse : parse_query_text (String.mk query) []
        = .error (.std_exception "stoi") :=
      (parse_query_loop_total _ query (Nat.le_refl _) false [] [] []).1 hbad
    have hconv : convert_request req remote_endpoint = .error (.std_exception "stoi") := by
      unfold convert_request
      simp only [htarget, split_target_append path query hpath, hparse]
    refine ⟨?_, ?_, ?_, ?_⟩ <;> simp only [session_loop, hconv]

/-- C23, as the code has it, on the server of the test: `a=%zz` makes the
decoder throw; on a keep-alive connection the request `/test` is answered,
the request `/test?a=%zz` that follows gets no response, and the third
request is never read. -/
theorem malformed_escape_ends_session_witness :
    has_malformed_escape "a=%zz".data = true
    ∧ parse_query_text "a=%zz" [] = .error (.std_exception "stoi")
    ∧ ((session_loop Regex.regex_match no_files test_server none
          [.request { target := "/test?a=%zz" } none, .request { target := "/test" } none]).routed
        = []
      ∧ (session_loop Regex.regex_match no_files test_server none
          [.request { target := "/test?a=%zz" } none, .request { target := "/test" } none]).written
        = []
      ∧ (session_loop Regex.regex_match no_files test_server none
          [.request { target := "/test?a=%zz" } none, .request { target := "/test" } none]).reads
        = 1
      ∧ (session_loop Regex.regex_match no_files test_server none
          [.request { target := "/test?a=%zz" } none, .request { target := "/test" } none]).ending
        = .session_error "stoi")
    ∧ (handle_session Regex.regex_match no_files test_server
          { incoming := [.request { target := "/test" } none,
                         .request { target := "/test?a=%zz" } none,
                         .request { target := "/test" } none] }).written
        = [{ version := 11, result := 200, keep_alive := true,
             fields := [("Content-Type", "text/plain")], body := "Test OK" }]
    ∧ (handle_session Regex.regex_match no_files test_server
          { incoming := [.request { target := "/test" } none,
                         .request { target := "/test?a=%zz" } none,
                         .request { target := "/test" } none] }).reads = 2 :=
  ⟨by decide,
    (malformed_escape_ends_session.1 "a=%zz" []).1 (by decide),
    malformed_escape_ends_session.2.2 Regex.regex_match no_files test_server none
      { target := "/test?a=%zz" } none [.request { target := "/test" } none]
      "/test".data "a=%zz".data rfl (by decide) (by decide),
    by decide, by decide⟩

end EscapeClaims

/-! ## WebSocket: callbacks that throw. Auxiliary facts -/

section WsFailureFacts

/-- The `catch` clause of `connect()` when the error handler, if there is one,
returns: `connect()` returns false, and of the state only the log changes. -/
theorem connect_catch_returns (cli : WebSocketClient) (s : ClientState) (what : String)
    (herr : ∀ h, cli.error_handler_ = some h → ∀ msg, h msg = none) :
    (cli.connect_catch s what).1 = some false
    ∧ (cli.connect_catch s what).2.is_connected_ = s.is_connected_
    ∧ (cli.connect_catch s what).2.ws_conn_ = s.ws_conn_
    ∧ (cli.connect_catch s what).2.receiver = s.receiver
    ∧ (cli.connect_catch s what).2.log
        = s.log ++ (match cli.error_handler_ with
            | some _ => [WsEvent.on_error ("Connect error: " ++ what)]
            | none => []) := by
  unfold WebSocketClient.connect_catch
  cases h : cli.error_handler_ with
  | none => simp
  | some f => simp [herr f h]

/-- The loop of a server session over messages on which the message handler
returns and leaves the connection open. -/
theorem session_loop_messages (srv : WebSocketServer)
    (mh : WebSocketMessage → CallbackResult) (hmh : srv.message_handler_ = some mh)
    (msgs : List WebSocketMessage)
    (hmsgs : ∀ m ∈ msgs, (mh m).thrown = none ∧ (mh m).open_after = true) :
    ∀ (rest : List WsRead) (log : List WsEvent),
      srv.session_loop true (msgs.map (fun m => WsRead.message m.data m.is_binary) ++ rest) log
        = srv.session_loop true rest (log ++ msgs.map WsEvent.on_message) := by
  induction msgs with
  | nil =>
    intro rest log
    simp
  | cons m msgs ih =>
    intro rest log
    obtain ⟨h1, h2⟩ := hmsgs m (List.mem_cons_self _ _)
    simp only [List.map_cons, List.cons_append, WebSocketServer.session_loop, hmh, h1, h2,
      List.append_eq]
    rw [ih (fun x hx => hmsgs x (List.mem_cons_of_mem _ hx))]
    simp

/-- Without a receive thread no step starts one: the thread function is
entered by `connect()` only. -/
theorem run_not_started (cli : WebSocketClient) (schedule : List Tid) :
    ∀ t : ClientState, t.receiver = .not_started →
      (cli.run t schedule).receiver = .not_started := by
  induction schedule with
  | nil => exact fun t h => h
  | cons tid rest ih =>
    intro t ht
    refine ih _ ?_
    unfold WebSocketClient.step
    split
    · exact ht
    · cases tid with
      | caller =>
        unfold WebSocketClient.close_step
        cases t.caller with
        | idle => cases t.pending_closes <;> exact ht
        | close_stream => exact ht
        | join_thread => simp only [ht]
        | call_handler => cases cli.close_handler_ <;> exact ht
      | receiver =>
        unfold WebSocketClient.receive_step
        simp only [ht]

/-- The `catch` clause of a server session calls the error handler, if one is
set, with the `what()` of the exception. -/
theorem catch_clause_log (srv : WebSocketServer) (log : List WsEvent) (what : String) :
    (srv.catch_clause log what).log = log ++ [WsEvent.on_error what].filter srv.has_handler := by
  unfold WebSocketServer.catch_clause
  cases h : srv.error_handler_ with
  | none => simp [WebSocketServer.has_handler, h]
  | some f => simp [WebSocketServer.has_handler, h]

end WsFailureFacts

/-! ## WebSocket: callbacks that throw. The claims -/

section WsFailureClaims

/-- C26, counterexample. The handshake succeeds and the `onOpen` callback
throws an object that is no `std::exception` (as in `throw 42;`): `connect()`
does not return false, it returns nothing, the object leaves it; the
connection is marked connected. -/
theorem on_open_failure_leaves_connect :
    ((open_throws_client .other).connect {} (ClientState.fresh [] 0)).1 = none
    ∧ ((open_throws_client .other).connect {} (ClientState.fresh [] 0)).1 ≠ some false
    ∧ ((open_throws_client .other).connect {} (ClientState.fresh [] 0)).2.is_connected = true
    ∧ ((open_throws_client .other).connect {} (ClientState.fresh [] 0)).2.log
        = [WsEvent.on_open] := by
  decide

/-- C26, as the code has it. The error handler, if one is set, returning: when
`resolve`, `net::connect` or the handshake fails, `connect()` returns false and
leaves `is_connected()`, the connection handle and the receive thread as they
were, so `is_connected()` is false on a client that was not connected. When the
handshake succeeds and the `onOpen` callback throws a `std::exception`,
`connect()` returns false while `is_connected()` is true, the connection handle
is set and no receive thread is started: the thread is as it was, and on a new
client there is none, so that no step of a receive loop is ever taken. In both
cases the error handler is called with `Connect error: ` and the `what()` of
the exception. -/
theorem connect_returns_false (cli : WebSocketClient) (net : ConnectNet) (s : ClientState)
    (herr : ∀ h, cli.error_handler_ = some h → ∀ msg, h msg = none) :
    (∀ what, (net.resolve_fails = some what
          ∨ (net.resolve_fails = none ∧ net.connect_fails = some what)
          ∨ (net.resolve_fails = none ∧ net.connect_fails = none
              ∧ net.handshake_fails = some what)) →
      (cli.connect net s).1 = some false
      ∧ (cli.connect net s).2.is_connected = s.is_connected
      ∧ (s.is_connected = false → (cli.connect net s).2.is_connected = false)
      ∧ (cli.connect net s).2.ws_conn_ = s.ws_conn_
      ∧ (cli.connect net s).2.receiver = s.receiver
      ∧ (cli.connect net s).2.log
          = s.log ++ (match cli.error_handler_ with
              | some _ => [WsEvent.on_error ("Connect error: " ++ what)]
              | none => []))
    ∧ (∀ what, net.resolve_fails = none → net.connect_fails = none →
        net.handshake_fails = none →
        cli.open_handler_ = some (some (.std_exception what)) →
        (cli.connect net s).1 = some false
        ∧ (cli.connect net s).2.is_connected = true
        ∧ (cli.connect net s).2.ws_conn_ = true
        ∧ (cli.connect net s).2.receiver = s.receiver
        ∧ (s.receiver = .not_started →
            ∀ schedule, (cli.run (cli.connect net s).2 schedule).receiver = .not_started)
        ∧ (cli.connect net s).2.log
            = s.log ++ [WsEvent.on_open] ++ (match cli.error_handler_ with
                | some _ => [WsEvent.on_error ("Connect error: " ++ what)]
                | none => [])) := by
  refine ⟨?_, ?_⟩
  · intro what hfail
    have hc := connect_catch_returns cli s what herr
    have hconn : cli.connect net s = cli.connect_catch s what := by
      unfold WebSocketClient.connect
      rcases hfail with h | ⟨h1, h⟩ | ⟨h1, h2, h⟩
      · simp only [h]
      · simp only [h1, h]
      · simp only [h1, h2, h]
    rw [hconn]
    obtain ⟨c1, c2, c3, c4, c5⟩ := hc
    exact ⟨c1, c2, fun h => by rw [← h]; exact c2, c3, c4, c5⟩
  · intro what h1 h2 h3 hopen
    have hconn : cli.connect net s
        = cli.connect_catch
            { s with ws_conn_ := true, is_connected_ := true, stream_closed := false,
                     log := s.log ++ [WsEvent.on_open] } what := by
      unfold WebSocketClient.connect
      simp only [h1, h2, h3, hopen]
    obtain ⟨c1, c2, c3, c4, c5⟩ := connect_catch_returns cli
      { s with ws_conn_ := true, is_connected_ := true, stream_closed := false,
               log := s.log ++ [WsEvent.on_open] } what herr
    rw [hconn]
    refine ⟨c1, c2, c3, c4, ?_, c5⟩
    intro hs schedule
    exact run_not_started cli schedule _ (by rw [c4]; exact hs)

/-- Witness of C26, on a new client with all callbacks set. A refused
connection: `connect()` returns false, `is_connected()` is false and `onError`
got `Connect error: Connection refused`. An `onOpen` callback that throws
`std::runtime_error("boom")`: `connect()` returns false, `is_connected()` is
true, the handle is set, there is no receive thread, and `onError` got
`Connect error: boom`. -/
theorem connect_returns_false_witness :
    ((echo_ws_client.connect { connect_fails := some "Connection refused" }
          (ClientState.fresh [] 0)).1 = some false
      ∧ (echo_ws_client.connect { connect_fails := some "Connection refused" }
          (ClientState.fresh [] 0)).2.is_connected = false
      ∧ (echo_ws_client.connect { connect_fails := some "Connection refused" }
          (ClientState.fresh [] 0)).2.log
        = [WsEvent.on_error "Connect error: Connection refused"])
    ∧ ((open_throws_client (.std_exception "boom")).connect {} (ClientState.fresh [] 0)).1
        = some false
    ∧ ((open_throws_client (.std_exception "boom")).connect {}
        (ClientState.fresh [] 0)).2.is_connected = true
    ∧ ((open_throws_client (.std_exception "boom")).connect {}
        (ClientState.fresh [] 0)).2.ws_conn_ = true
    ∧ ((open_throws_client (.std_exception "boom")).connect {}
        (ClientState.fresh [] 0)).2.receiver = .not_started
    ∧ ((open_throws_client (.std_exception "boom")).connect {}
        (ClientState.fresh [] 0)).2.log
        = [WsEvent.on_open, WsEvent.on_error "Connect error: boom"] :=
  ⟨by decide,
    ((connect_returns_false (open_throws_client (.std_exception "boom")) {}
      (ClientState.fresh [] 0) (fun h hh msg => by cases hh; rfl)).2 "boom" rfl rfl rfl rfl).1,
    by decide, by decide, by decide, by decide⟩

/-- C27, counterexample. On a server with all four callbacks set, the
`onMessage` callback throws an object that is no `std::exception` on the
message `bad`: the `catch` clause does not take it, `onError` is not called,
and the object leaves the thread function. The same holds for an `onOpen`
callback that throws such an object. -/
theorem callback_failure_without_on_error :
    ((message_throws_server .other).handle_websocket_session
        { reads := [.message "hello" false, .message "bad" false, .message "more" false] }).log
      = [WsEvent.on_open, WsEvent.on_message { data := "hello" },
         WsEvent.on_message { data := "bad" }]
    ∧ ((message_throws_server .other).handle_websocket_session
        { reads := [.message "hello" false, .message "bad" false,
                    .message "more" false] }).terminated = true
    ∧ ((open_throws_server .other).handle_websocket_session
        { reads := [.message "hello" false] }).log = [WsEvent.on_open]
    ∧ ((open_throws_server .other).handle_websocket_session
        { reads := [.message "hello" false] }).terminated = true := by
  decide

/-- C27, as the code has it. In a server session, a `std::exception` thrown by
the upgrade, by the `onOpen` callback or by the `onMessage` callback goes to
the `catch` clause: the loop is left, the error handler, if one is set, is
called once with the `what()` of the exception, and the close handler is not
called. The callbacks called are, for a failed upgrade, `onError`; for a
throwing `onOpen`, `onOpen` and `onError`; for an `onMessage` that throws on a
message after returning (and leaving the connection open) on those before it,
`onOpen` if set, `onMessage` for each of these messages in order, and
`onError`, whatever the reads after that message would have given. -/
theorem callback_exception_goes_to_on_error (srv : WebSocketServer) (what : String) :
    (∀ reads : List WsRead,
        (srv.handle_websocket_session { accept_fails := some what, reads := reads }).log
          = [WsEvent.on_error what].filter srv.has_handler)
    ∧ (∀ (reads : List WsRead) (r : CallbackResult),
        srv.open_handler_ = some r → r.thrown = some (.std_exception what) →
        (srv.handle_websocket_session { reads := reads }).log
          = WsEvent.on_open :: [WsEvent.on_error what].filter srv.has_handler)
    ∧ (∀ (msgs : List WebSocketMessage) (bad : WebSocketMessage) (rest : List WsRead)
        (mh : WebSocketMessage → CallbackResult),
        srv.message_handler_ = some mh →
        (∀ r, srv.open_handler_ = some r → r.thrown = none ∧ r.open_after = true) →
        (∀ m ∈ msgs, (mh m).thrown = none ∧ (mh m).open_after = true) →
        (mh bad).thrown = some (.std_exception what) →
        (srv.handle_websocket_session
            { reads := msgs.map (fun m => WsRead.message m.data m.is_binary)
                ++ WsRead.message bad.data bad.is_binary :: rest }).log
          = [WsEvent.on_open].filter srv.has_handler ++ msgs.map WsEvent.on_message
              ++ WsEvent.on_message bad :: [WsEvent.on_error what].filter srv.has_handler
        ∧ WsEvent.on_close ∉ (srv.handle_websocket_session
            { reads := msgs.map (fun m => WsRead.message m.data m.is_binary)
                ++ WsRead.message bad.data bad.is_binary :: rest }).log) := by
  refine ⟨?_, ?_, ?_⟩
  · intro reads
    unfold WebSocketServer.handle_websocket_session
    simp only [catch_clause_log, List.nil_append]
  · intro reads r hopen hthrown
    unfold WebSocketServer.handle_websocket_session
    simp only [hopen, hthrown, WebSocketServer.raise, catch_clause_log]
    rfl
  · intro msgs bad rest mh hmh hopen hmsgs hbad
    have hloop : ∀ log : List WsEvent,
        (srv.session_loop true
            (msgs.map (fun m => WsRead.message m.data m.is_binary)
              ++ WsRead.message bad.data bad.is_binary :: rest) log).log
          = log ++ msgs.map WsEvent.on_message
              ++ WsEvent.on_message bad :: [WsEvent.on_error what].filter srv.has_handler := by
      intro log
      rw [session_loop_messages srv mh hmh msgs hmsgs]
      simp only [WebSocketServer.session_loop, hmh, hbad, WebSocketServer.raise,
        catch_clause_log]
      simp
    have hlog : (srv.handle_websocket_session
          { reads := msgs.map (fun m => WsRead.message m.data m.is_binary)
              ++ WsRead.message bad.data bad.is_binary :: rest }).log
        = [WsEvent.on_open].filter srv.has_handler ++ msgs.map WsEvent.on_message
            ++ WsEvent.on_message bad :: [WsEvent.on_error what].filter srv.has_handler := by
      unfold WebSocketServer.handle_websocket_session
      cases ho : srv.open_handler_ with
      | none =>
        simp only [hloop]
        simp [WebSocketServer.has_handler, ho]
      | some r =>
        obtain ⟨o1, o2⟩ := hopen r ho
        simp only [o1, o2, hloop]
        simp [WebSocketServer.has_handler, ho]
    refine ⟨hlog, ?_⟩
    rw [hlog]
    intro hmem
    rcases List.mem_append.mp hmem with h | h
    · rcases List.mem_append.mp h with h | h
      · have := (List.mem_filter.mp h).1
        simp at this
      · simp at h
    · rcases List.mem_cons.mp h with h | h
      · cases h
      · have := (List.mem_filter.mp h).1
        simp at this

/-- C27, as the code has it, on servers with all four callbacks set. The
`onMessage` callback throws `std::runtime_error("boom")` on the message `bad`:
the callbacks are `onOpen`, `onMessage` for `hello` and for `bad`, and
`onError` with `boom`; the message after `bad` is not read and `onClose` is not
called. An `onOpen` callback that throws it: `onOpen`, `onError`. A failed
upgrade: `onError` alone. -/
theorem callback_exception_goes_to_on_error_witness :
    (((message_throws_server (.std_exception "boom")).handle_websocket_session
          { reads := [WebSocketMessage.mk "hello" false].map
                (fun m => WsRead.message m.data m.is_binary)
              ++ WsRead.message (WebSocketMessage.mk "bad" false).data
                  (WebSocketMessage.mk "bad" false).is_binary
                :: [.message "more" false] }).log
        = [WsEvent.on_open].filter (message_throws_server (.std_exception "boom")).has_handler
            ++ [WebSocketMessage.mk "hello" false].map WsEvent.on_message
            ++ WsEvent.on_message (WebSocketMessage.mk "bad" false)
              :: [WsEvent.on_error "boom"].filter
                  (message_throws_server (.std_exception "boom")).has_handler
      ∧ WsEvent.on_close ∉ ((message_throws_server (.std_exception "boom")).handle_websocket_session
          { reads := [WebSocketMessage.mk "hello" false].map
                (fun m => WsRead.message m.data m.is_binary)
              ++ WsRead.message (WebSocketMessage.mk "bad" false).data
                  (WebSocketMessage.mk "bad" false).is_binary
                :: [.message "more" false] }).log)
    ∧ ((message_throws_server (.std_exception "boom")).handle_websocket_session
          { reads := [.message "hello" false, .message "bad" false,
                      .message "more" false] }).log
        = [WsEvent.on_open, WsEvent.on_message { data := "hello" },
           WsEvent.on_message { data := "bad" }, WsEvent.on_error "boom"]
    ∧ ((open_throws_server (.std_exception "boom")).handle_websocket_session
          { reads := [.message "hello" false] }).log
        = [WsEvent.on_open, WsEvent.on_error "boom"]
    ∧ (echo_ws_server.handle_websocket_session
          { accept_fails := some "bad upgrade", reads := [.message "hello" false] }).log
        = [WsEvent.on_error "bad upgrade"] :=
  ⟨(callback_exception_goes_to_on_error (message_throws_server (.std_exception "boom"))
      "boom").2.2 [WebSocketMessage.mk "hello" false] (WebSocketMessage.mk "bad" false)
      [.message "more" false] _ rfl (fun r h => by cases h; exact ⟨rfl, rfl⟩) (by decide) rfl,
    by decide, by decide, by decide⟩

end WsFailureClaims

end Httplib
